import Mathlib

/-!
# Weekly planning / attendance reconciliation (Planning.tsx, Presence.tsx)

A shallow embedding of the pure logic of the two React components
`project/src/components/forms/Planning.tsx` and `.../Presence.tsx`:
the worked-hours computation, the week/date arithmetic and the
plan + attendance merge, followed by the properties proved about them.

Conventions of the embedding

* JavaScript strings are Lean `String`s; the patterns below only look at
  ASCII digits, `h` and `-`, so the UTF-16 / code point difference plays no role.
* `undefined` / `null` are `Option.none`.
* JavaScript numbers that hold integers are `Int`; `NaN` is `Option.none`.
  Where the code reads a number of a request through its text (`parseInt`),
  the conversion of the integer to a Number and to its text is modelled
  (`roundToDouble`, `numberParseInt`).
-/

namespace StationApp

/-! ## Regular expressions of the time patterns -/

/-- Fragment of the JavaScript regular expressions used by the two components:
`\d`, a literal character, concatenation, the greedy quantifier `{1,2}` and a
capturing group. -/
inductive Re where
  | digit : Re
  | chr : Char → Re
  | seq : Re → Re → Re
  | rep12 : Re → Re
  | group : Re → Re
  deriving Repr

/-- Backtracking matcher: every way `re` can match a prefix of `input`, in the
priority order of the JavaScript engine (greedy alternatives first), each with
the unread rest of the input and the captures recorded so far. -/
def Re.run : Re → List Char → List (List Char) → List (List Char × List (List Char))
  | .digit, input, caps =>
      match input with
      | c :: rest => if c.isDigit then [(rest, caps)] else []
      | [] => []
  | .chr a, input, caps =>
      match input with
      | c :: rest => if c = a then [(rest, caps)] else []
      | [] => []
  | .seq a b, input, caps =>
      (a.run input caps).flatMap (fun p => b.run p.1 p.2)
  | .rep12 a, input, caps =>
      (a.run input caps).flatMap (fun p => a.run p.1 p.2) ++ a.run input caps
  | .group a, input, caps =>
      (a.run input []).map
        (fun p => (p.1, caps ++ p.2 ++ [input.take (input.length - p.1.length)]))

/-- The method `exec` for a pattern written `^re$` (no flags): the captures of
the first match that consumes the whole string, `none` when there is none. -/
def Re.exec (re : Re) (s : String) : Option (List (List Char)) :=
  ((re.run s.data []).find? (fun p => p.1.isEmpty)).map (fun p => p.2)

/-- The method `test` for the pattern `^re$`. -/
def Re.test (re : Re) (s : String) : Bool :=
  (re.exec s).isSome

/-- `parseInt(s)` on a string that starts with decimal digits or with none at
all: the value of the longest prefix of decimal digits, `none` (NaN) when the
string does not start with a digit.  (White space, sign and the `0x` prefix do
not occur in what the patterns capture.) -/
def parseInt (s : List Char) : Option Int :=
  let ds := s.takeWhile Char.isDigit
  if ds.isEmpty then none
  else some (ds.foldl (fun n c => 10 * n + ((c.toNat : Int) - 48)) 0)

/-- The pattern `/^(\d{1,2})h-(\d{1,2})h$/` of `calculateTotalHours`. -/
def timeRegex : Re :=
  .seq (.group (.rep12 .digit))
    (.seq (.chr 'h') (.seq (.chr '-') (.seq (.group (.rep12 .digit)) (.chr 'h'))))

/-! ## Data model -/

/-- Interface `Schedule` (a stored planning); a day that the document does not
carry is `none`. -/
structure Schedule where
  _id : String
  employeeName : String
  monday : Option String
  tuesday : Option String
  wednesday : Option String
  thursday : Option String
  friday : Option String
  saturday : Option String
  sunday : Option String
  year : Int
  week : Int
  deriving DecidableEq, Repr

/-- The populated `station` of an employee or of a presence. -/
structure StationRef where
  _id : String
  nomStation : String
  deriving DecidableEq, Repr

/-- Interface `Employe` of Presence.tsx; `station` is null for an employee
without station (the schema default). -/
structure Employe where
  _id : String
  nomEmploye : String
  prenomEmploye : String
  station : Option StationRef
  deriving DecidableEq, Repr

/-- The populated `employe` of a presence. -/
structure EmployeRef where
  _id : String
  nomEmploye : String
  prenomEmploye : String
  deriving DecidableEq, Repr

/-- Interface `Presence` (an attendance record). -/
structure Presence where
  _id : String
  semaine : Int
  jour : String
  hDebut : String
  hFin : String
  annee : Int
  employe : EmployeRef
  station : StationRef
  isPresent : Option Bool
  deriving DecidableEq, Repr

/-- One cell of the day table of a merged entry. -/
structure DayCell where
  schedule : String
  presence : Option Presence
  deriving DecidableEq, Repr

/-- A JavaScript object used as a dictionary with string keys: its own
properties in insertion order. -/
abbrev Dict (α : Type) := List (String × α)

/-- Reading `obj[key]`. -/
def Dict.get {α : Type} (obj : Dict α) (key : String) : Option α :=
  (obj.find? (fun kv => kv.1 == key)).map (fun kv => kv.2)

/-- Writing `obj[key] = v`: an existing property keeps its place, a new one is
added last. -/
def Dict.set {α : Type} : Dict α → String → α → Dict α
  | [], key, v => [(key, v)]
  | (k, w) :: rest, key, v =>
      if k == key then (k, v) :: rest else (k, w) :: Dict.set rest key v

/-- The constant `days` of Presence.tsx. -/
def days : List String :=
  ["Lundi", "Mardi", "Mercredi", "Jeudi", "Vendredi", "Samedi", "Dimanche"]

/-- One merged entry of `combinedData`. -/
structure Entry where
  employeeName : String
  station : Option String
  days : Dict DayCell
  deriving DecidableEq, Repr

/-! ## Worked hours -/

/-- Body of the `forEach` callback shared by both `calculateTotalHours`:
the new running total after looking at one scheduled string. -/
def addHours (totalHours : Int) (time : Option String) : Int :=
  match time with
  | none => totalHours
  | some t =>
      if t ≠ "" ∧ timeRegex.test t then
        match timeRegex.exec t with
        | some [start, «end»] =>
            match parseInt «end», parseInt start with
            | some e, some s =>
                let hours := e - s
                if hours > 0 then totalHours + hours else totalHours
            | _, _ => totalHours
        | _ => totalHours
      else totalHours

/-- The seven day fields of a planning in the order of the `days` constant of
Planning.tsx `calculateTotalHours`. -/
def Schedule.dayFields (schedule : Schedule) : List (Option String) :=
  [schedule.monday, schedule.tuesday, schedule.wednesday, schedule.thursday,
   schedule.friday, schedule.saturday, schedule.sunday]

/-- Planning.tsx `calculateTotalHours`. -/
def Planning.calculateTotalHours (schedule : Schedule) : Int :=
  schedule.dayFields.foldl addHours 0

/-- Presence.tsx `calculateTotalHours`; `none` is the TypeError raised by the
destructuring of `employee.days[day]` when the day is not in the table. -/
def Presence.calculateTotalHours (employee : Entry) : Option Int :=
  days.foldlM
    (fun totalHours day =>
      match employee.days.get day with
      | none => none
      | some cell => some (addHours totalHours (some cell.schedule)))
    0

/-- What one scheduled string adds to the total: the callback run on a total
of zero. -/
def dayHours (time : Option String) : Int :=
  addHours 0 time

/-- One or two decimal digits (the words of the specification for the start
and the end hour). -/
def IsHourDigits (ds : List Char) : Prop :=
  (ds.length = 1 ∨ ds.length = 2) ∧ ∀ c ∈ ds, c.isDigit = true

/-- The number written by a string of decimal digits. -/
def decimalValue : List Char → Nat
  | [] => 0
  | c :: cs => (c.toNat - 48) * 10 ^ cs.length + decimalValue cs

/-- The string `<start>h-<end>h`. -/
def hourRange (start stop : List Char) : String :=
  ⟨start ++ 'h' :: '-' :: (stop ++ ['h'])⟩

/-- The schedule of the witness: Monday `8h-16h`, Tuesday `16h-8h`, Wednesday
`9h-17h`, the other days empty or missing. -/
def sampleWeek : Entry :=
  { employeeName := "Jean Dupont", station := none,
    days := [("Lundi", ⟨"8h-16h", none⟩), ("Mardi", ⟨"16h-8h", none⟩),
             ("Mercredi", ⟨"9h-17h", none⟩), ("Jeudi", ⟨"", none⟩),
             ("Vendredi", ⟨"8h16h", none⟩), ("Samedi", ⟨"Non défini", none⟩),
             ("Dimanche", ⟨"Non défini", none⟩)] }

/-! ## Calendar and the `Date` object

The day and year functions are those of the ECMAScript specification
(`DayFromYear`, `YearFromTime`, `MonthFromTime`, `DateFromTime`, `WeekDay`,
`MakeDay`).  A `Date` is modelled by its local time value; its time value
(`getTime`) is the local time less the offset of the time zone at that local
time, so that two local midnights are whole days apart only when the zone has
the same offset at both.  The constructor `new Date(d.getTime())` is a copy of
`d`.  A local midnight is taken to exist (no zone change at midnight).  Time
values are exact and unbounded: the clipping of ECMAScript time values at
±8.64e15 ms (years -271821 and 275760) is not part of the model. -/

/-- Milliseconds per day. -/
def msPerDay : Int := 86400000

/-- ECMAScript `DayFromYear(y)`: the day number of 1 January of year `y`
(day 0 is 1 January 1970). -/
def dayFromYear (y : Int) : Int :=
  365 * (y - 1970) + (y - 1969) / 4 - (y - 1901) / 100 + (y - 1601) / 400

/-- ECMAScript `DaysInYear(y)`. -/
def daysInYear (y : Int) : Int :=
  if y % 4 ≠ 0 then 365
  else if y % 100 ≠ 0 then 366
  else if y % 400 ≠ 0 then 365
  else 366

/-- ECMAScript `InLeapYear`, as the number 0 or 1. -/
def inLeapYear (y : Int) : Int :=
  if daysInYear y = 366 then 1 else 0

/-- ECMAScript `YearFromTime` on day numbers: the largest year `y` with
`dayFromYear y ≤ day`, found from the estimate `1970 + 400 * day / 146097`. -/
def yearFromDay (day : Int) : Int :=
  let y := 1970 + (400 * day) / 146097
  if dayFromYear (y + 1) ≤ day then y + 1
  else if dayFromYear y ≤ day then y
  else y - 1

/-- Day within the year at which month `m` (0 to 11) starts, `leap` being 0 or 1. -/
def monthStart (leap : Int) (m : Int) : Int :=
  if m = 0 then 0
  else if m = 1 then 31
  else if m = 2 then 59 + leap
  else if m = 3 then 90 + leap
  else if m = 4 then 120 + leap
  else if m = 5 then 151 + leap
  else if m = 6 then 181 + leap
  else if m = 7 then 212 + leap
  else if m = 8 then 243 + leap
  else if m = 9 then 273 + leap
  else if m = 10 then 304 + leap
  else 334 + leap

/-- The month (0 to 11) of a day given by its place within the year, `leap`
being 0 or 1: the table of ECMAScript `MonthFromTime`. -/
def monthOfDayWithinYear (leap dayWithinYear : Int) : Int :=
  if dayWithinYear < 31 then 0
  else if dayWithinYear < 59 + leap then 1
  else if dayWithinYear < 90 + leap then 2
  else if dayWithinYear < 120 + leap then 3
  else if dayWithinYear < 151 + leap then 4
  else if dayWithinYear < 181 + leap then 5
  else if dayWithinYear < 212 + leap then 6
  else if dayWithinYear < 243 + leap then 7
  else if dayWithinYear < 273 + leap then 8
  else if dayWithinYear < 304 + leap then 9
  else if dayWithinYear < 334 + leap then 10
  else 11

/-- ECMAScript `MonthFromTime` on day numbers. -/
def monthFromDay (day : Int) : Int :=
  monthOfDayWithinYear (inLeapYear (yearFromDay day)) (day - dayFromYear (yearFromDay day))

/-- ECMAScript `DateFromTime` on day numbers: the day of the month, from 1. -/
def dateFromDay (day : Int) : Int :=
  let y := yearFromDay day
  day - dayFromYear y - monthStart (inLeapYear y) (monthFromDay day) + 1

/-- ECMAScript `MakeDay(year, month, date)`: months outside 0..11 carry into
the year, days outside the month carry into the neighbouring months. -/
def makeDay (year month date : Int) : Int :=
  let ym := year + month / 12
  let mn := month % 12
  dayFromYear ym + monthStart (inLeapYear ym) mn + date - 1

/-- A `Date` object: its local time value in milliseconds. -/
structure JsDate where
  localTime : Int
  deriving DecidableEq, Repr

/-- ECMAScript `Day(t)` of the local time. -/
def JsDate.dayNumber (d : JsDate) : Int :=
  d.localTime / msPerDay

/-- ECMAScript `TimeWithinDay(t)` of the local time. -/
def JsDate.timeWithinDay (d : JsDate) : Int :=
  d.localTime % msPerDay

/-- The constructor `new Date(year, monthIndex, day)`: local midnight of that
day; a year from 0 to 99 stands for 1900 + year. -/
def JsDate.ofYMD (year monthIndex day : Int) : JsDate :=
  let yr := if 0 ≤ year ∧ year ≤ 99 then 1900 + year else year
  ⟨makeDay yr monthIndex day * msPerDay⟩

/-- A time zone: the offset of the local time from UTC, in milliseconds, at
each local time value; an offset is less than a day. -/
structure TimeZone where
  offset : Int → Int
  bound : ∀ t, -86400000 < offset t ∧ offset t < 86400000

/-- The zone UTC. -/
def TimeZone.utc : TimeZone :=
  { offset := fun _ => 0
    bound := by intro t; constructor <;> norm_num }

/-- Method `getTime()`: the time value, which is the local time less the offset
of the zone. -/
def JsDate.getTime (tz : TimeZone) (d : JsDate) : Int :=
  d.localTime - tz.offset d.localTime

/-- Method `getFullYear()`. -/
def JsDate.getFullYear (d : JsDate) : Int :=
  yearFromDay d.dayNumber

/-- Method `getMonth()`. -/
def JsDate.getMonth (d : JsDate) : Int :=
  monthFromDay d.dayNumber

/-- Method `getDate()`. -/
def JsDate.getDate (d : JsDate) : Int :=
  dateFromDay d.dayNumber

/-- Method `getDay()`: 0 is Sunday (ECMAScript `WeekDay`; 1 January 1970 was a
Thursday). -/
def JsDate.getDay (d : JsDate) : Int :=
  (d.dayNumber + 4) % 7

/-- Method `setHours(0, 0, 0, 0)`. -/
def JsDate.setHoursZero (d : JsDate) : JsDate :=
  ⟨d.dayNumber * msPerDay⟩

/-- Method `setDate(date)`: the day of the month is replaced, the time within
the day is kept. -/
def JsDate.setDate (d : JsDate) (date : Int) : JsDate :=
  ⟨makeDay d.getFullYear d.getMonth date * msPerDay + d.timeWithinDay⟩

/-- The expression `x || 7` on a number. -/
def orSeven (x : Int) : Int :=
  if x = 0 then 7 else x

/-- `getWeekNumber` of Presence.tsx and Planning.tsx, in the time zone `tz` of
the browser.  The quotient is exact here; in floating point it is the same
integer after `Math.ceil`, a quotient that is no integer being at least 1e-9
away from one. -/
def getWeekNumber (tz : TimeZone) (date : JsDate) : Int :=
  let tempDate : JsDate := date
  let tempDate := tempDate.setHoursZero
  let tempDate := tempDate.setDate (tempDate.getDate + 4 - orSeven tempDate.getDay)
  let yearStart := JsDate.ofYMD tempDate.getFullYear 0 1
  ⌈(((tempDate.getTime tz - yearStart.getTime tz : Int) : ℚ) / 86400000 + 1) / 7⌉

/-- `getWeeksInYear` of Presence.tsx and Planning.tsx. -/
def getWeeksInYear (tz : TimeZone) (year : Int) : Int :=
  let lastDayOfYear := JsDate.ofYMD year 11 31
  getWeekNumber tz lastDayOfYear

/-- `getWeekDateRange` of Presence.tsx and Planning.tsx up to the formatting:
the two dates `startOfWeek` and `endOfWeek` that the function prints (the
French text made from them by `toLocaleDateString` is not modelled).  The left
operand of `% 7` is between 4 and 10, where the remainder of JavaScript and
that of `Int` agree. -/
def getWeekDateRange (year week : Int) : JsDate × JsDate :=
  let firstDayOfYear := JsDate.ofYMD year 0 1
  let daysToFirstThursday := (4 - orSeven firstDayOfYear.getDay + 7) % 7
  let firstThursday := JsDate.ofYMD year 0 (1 + daysToFirstThursday)
  let startOfWeek : JsDate := firstThursday
  let startOfWeek := startOfWeek.setDate (firstThursday.getDate - 3 + (week - 1) * 7)
  let endOfWeek : JsDate := startOfWeek
  let endOfWeek := endOfWeek.setDate (startOfWeek.getDate + 6)
  (startOfWeek, endOfWeek)

/-! ### ISO-8601 weeks, after the words of the specification -/

/-- Day of the week of a day number, Monday = 0 to Sunday = 6. -/
def isoWeekday (day : Int) : Int :=
  (day + 3) % 7

/-- The Monday of the Monday-to-Sunday week that contains the day. -/
def mondayOfWeek (day : Int) : Int :=
  day - isoWeekday day

/-- The Thursday of the Monday-to-Sunday week that contains the day. -/
def thursdayOfWeek (day : Int) : Int :=
  mondayOfWeek day + 3

/-- The ISO year of a day: the calendar year in which the Thursday of its week
falls. -/
def isoYear (day : Int) : Int :=
  yearFromDay (thursdayOfWeek day)

/-- The first Thursday of calendar year `y`. -/
def firstThursday (y : Int) : Int :=
  dayFromYear y + (3 - isoWeekday (dayFromYear y)) % 7

/-- The ISO week number of a day: its week counted from the week that contains
the first Thursday of its ISO year, which is week 1. -/
def isoWeek (day : Int) : Int :=
  (mondayOfWeek day - mondayOfWeek (firstThursday (isoYear day))) / 7 + 1

/-- The number of ISO weeks of ISO year `y`: the weeks from week 1 of `y` up to
week 1 of `y + 1`. -/
def isoWeeksInYear (y : Int) : Int :=
  (mondayOfWeek (firstThursday (y + 1)) - mondayOfWeek (firstThursday y)) / 7

/-- The date at local midnight of a calendar day given by its true year (no
two-digit reading), month index and day of the month. -/
def civil (year monthIndex day : Int) : JsDate :=
  ⟨makeDay year monthIndex day * msPerDay⟩

/-- The zone Africa/Casablanca in 2021, after the IANA time zone database:
UTC+1, and UTC+0 during Ramadan, from 11 April 2021 (3 h back to 2 h) to
16 May 2021 (2 h on to 3 h).  The other years are not modelled. -/
def casablanca : TimeZone :=
  { offset := fun t =>
      if (civil 2021 3 11).localTime + 7200000 ≤ t ∧
          t < (civil 2021 4 16).localTime + 7200000 then 0
      else 3600000
    bound := by intro t; dsimp only; split <;> constructor <;> norm_num }

/-! ## Plan + attendance merge (`combinedData` of Presence.tsx)

`grouped` is an ordinary JavaScript object created by `{}` and used as a
dictionary.  The model keeps its own properties in creation order and follows
the two places where such an object is not a plain dictionary: an assignment
to the key `__proto__` reaches the accessor inherited from `Object.prototype`
(it replaces the prototype and creates no own property), and `Object.values`
lists the properties whose key is an array index first, in ascending order.
Reading `grouped[name]` is modelled on the own properties: the names read in
the second loop are display names `nom prenom`, which contain a space, and no
inherited property has such a name. -/

/-- The constant `dayMapping` of Presence.tsx. -/
def dayMapping : Dict String :=
  [("Lundi", "monday"), ("Mardi", "tuesday"), ("Mercredi", "wednesday"),
   ("Jeudi", "thursday"), ("Vendredi", "friday"), ("Samedi", "saturday"),
   ("Dimanche", "sunday")]

/-- Reading `schedule[dayKey]` for one of the seven day keys. -/
def Schedule.dayProp (schedule : Schedule) (dayKey : String) : Option String :=
  if dayKey = "monday" then schedule.monday
  else if dayKey = "tuesday" then schedule.tuesday
  else if dayKey = "wednesday" then schedule.wednesday
  else if dayKey = "thursday" then schedule.thursday
  else if dayKey = "friday" then schedule.friday
  else if dayKey = "saturday" then schedule.saturday
  else if dayKey = "sunday" then schedule.sunday
  else none

/-- The expression `v || 'Non défini'` on a string that may be undefined. -/
def orNonDefini (v : Option String) : String :=
  match v with
  | some s => if s = "" then "Non défini" else s
  | none => "Non défini"

/-- The template literal that joins the last name, a space and the first name. -/
def displayName (nomEmploye prenomEmploye : String) : String :=
  nomEmploye ++ " " ++ prenomEmploye

/-- The assignment `obj[key] = v` on an ordinary object: the key `__proto__`
creates no own property. -/
def Dict.assign {α : Type} (obj : Dict α) (key : String) (v : α) : Dict α :=
  if key = "__proto__" then obj else obj.set key v

/-- A key that is an array index, with its value: the decimal writing, without
superfluous leading zero, of a number below 2^32 - 1. -/
def arrayIndex? (key : String) : Option Nat :=
  match key.data with
  | [] => none
  | c :: cs =>
      if (c :: cs).all Char.isDigit ∧ (c ≠ '0' ∨ cs = []) then
        let n := (c :: cs).foldl (fun n d => 10 * n + (d.toNat - 48)) 0
        if n < 4294967295 then some n else none
      else none

/-- The function `Object.values`: the values of the array-index keys in
ascending order of the index, then those of the other keys in creation order. -/
def Dict.values {α : Type} (obj : Dict α) : List α :=
  ((obj.filterMap (fun kv => (arrayIndex? kv.1).map (fun i => (i, kv.2)))).insertionSort
      (fun a b => a.1 ≤ b.1)).map (fun p => p.2) ++
    (obj.filter (fun kv => (arrayIndex? kv.1).isNone)).map (fun kv => kv.2)

/-- The day table filled by the first loop for one planning. -/
def scheduleDays (schedule : Schedule) : Dict DayCell :=
  days.foldl
    (fun table day =>
      let dayKey := dayMapping.get day
      table.assign day
        { schedule := orNonDefini (dayKey.bind schedule.dayProp), presence := none })
    []

/-- The day table of an entry created for an attendance without planning. -/
def blankDays : Dict DayCell :=
  days.foldl
    (fun table day => table.assign day { schedule := "Non défini", presence := none })
    []

/-- The entry that the first loop stores for one planning: the seven scheduled
strings, and the station of the first roster employee with that display name.
(The source stores the entry with an empty day table and fills it afterwards
through `grouped[schedule.employeeName]`, which is the same object.) -/
def scheduleEntry (employes : List Employe) (schedule : Schedule) : Entry :=
  let employee := employes.find?
    (fun emp => displayName emp.nomEmploye emp.prenomEmploye == schedule.employeeName)
  { employeeName := schedule.employeeName
    station :=
      match employee with
      | some emp => some (orNonDefini (emp.station.map (fun s => s.nomStation)))
      | none => none
    days := scheduleDays schedule }

/-- One round of `schedules.forEach`. -/
def mergeSchedule (employes : List Employe) (grouped : Dict Entry) (schedule : Schedule) :
    Dict Entry :=
  grouped.assign schedule.employeeName (scheduleEntry employes schedule)

/-- The assignments made to the entry of an attendance: the station, unless the
name of the attendance's station is empty, and the `presence` of the cell of
`presence.jour`; `none` is the TypeError raised when the table has no cell for
`presence.jour`.  (A `jour` that names a property inherited from
`Object.prototype`, such as `constructor`, would raise nothing in JavaScript;
the backend stores only the seven day names and the theorems are about those.) -/
def recordPresence (entry : Entry) (presence : Presence) : Option Entry :=
  let station :=
    if presence.station.nomStation ≠ "" then some presence.station.nomStation
    else entry.station
  match entry.days.get presence.jour with
  | none => none
  | some cell =>
      some { entry with
        station := station
        days := entry.days.set presence.jour { cell with presence := some presence } }

/-- One round of `presences.forEach`. -/
def mergePresence (grouped : Dict Entry) (presence : Presence) : Option (Dict Entry) :=
  let employeeName := displayName presence.employe.nomEmploye presence.employe.prenomEmploye
  let grouped :=
    match grouped.get employeeName with
    | some _ => grouped
    | none =>
        grouped.assign employeeName
          { employeeName := employeeName
            station := some presence.station.nomStation
            days := blankDays }
  match grouped.get employeeName with
  | none => none
  | some entry =>
      match recordPresence entry presence with
      | none => none
      | some entry => some (grouped.set employeeName entry)

/-- The object `grouped` at the end of `combinedData`. -/
def groupedData (schedules : List Schedule) (presences : List Presence)
    (employes : List Employe) : Option (Dict Entry) :=
  presences.foldlM mergePresence (schedules.foldl (mergeSchedule employes) [])

/-- The memo `combinedData` of Presence.tsx: the merged entries, or `none` when
the second loop raises a TypeError. -/
def combinedData (schedules : List Schedule) (presences : List Presence)
    (employes : List Employe) : Option (List Entry) :=
  (groupedData schedules presences employes).map Dict.values

/-! ### Vocabulary of the merge properties -/

/-- The display name under which an attendance record is merged. -/
def Presence.fullName (presence : Presence) : String :=
  displayName presence.employe.nomEmploye presence.employe.prenomEmploye

/-- The last element, in list order, that satisfies the test. -/
def lastWhere {α : Type} (p : α → Bool) (l : List α) : Option α :=
  (l.filter p).getLast?

/-- The entry from which the second loop starts for a name without planning,
before the station of the first attendance is written into it. -/
def blankEntry (employeeName : String) : Entry :=
  { employeeName := employeeName, station := some "", days := blankDays }

/-- Entry `e` is entry `base` after the attendance records `ps` were written
into it under the name `n`: same name and same days, the station of the last
record of `n` that carries a station name (that of `base` when there is none),
and in every cell the same scheduled string with the last record of `n` for
that day (the attendance of `base` when there is none). -/
structure MergedFrom (n : String) (base : Entry) (ps : List Presence) (e : Entry) : Prop where
  name : e.employeeName = base.employeeName
  keys : e.days.map Prod.fst = base.days.map Prod.fst
  station : e.station =
    match lastWhere (fun r => r.fullName = n ∧ r.station.nomStation ≠ "") ps with
    | some r => some r.station.nomStation
    | none => base.station
  cell : ∀ d, e.days.get d = (base.days.get d).map (fun c =>
    { c with presence :=
        match lastWhere (fun r => r.fullName = n ∧ r.jour = d) ps with
        | some r => some r
        | none => c.presence })

/-- A planning whose employee name is `__proto__`. -/
def protoPlan : Schedule :=
  { _id := "p0", employeeName := "__proto__", monday := some "8h-16h", tuesday := none,
    wednesday := none, thursday := none, friday := none, saturday := none, sunday := none,
    year := 2024, week := 10 }

/-- A planning of Jean Dupont: Monday `8h-16h`, the other days empty. -/
def jeanPlan : Schedule :=
  { _id := "p1", employeeName := "Jean Dupont", monday := some "8h-16h", tuesday := some "",
    wednesday := some "", thursday := some "", friday := some "", saturday := some "",
    sunday := some "", year := 2024, week := 10 }

/-- The roster employee Jean Dupont, of station Nord. -/
def jeanEmploye : Employe :=
  { _id := "e1", nomEmploye := "Jean", prenomEmploye := "Dupont",
    station := some { _id := "s1", nomStation := "Nord" } }

/-- An attendance of Anne Martin, who has no planning, on Tuesday at station Sud. -/
def annePresence : Presence :=
  { _id := "r1", semaine := 10, jour := "Mardi", hDebut := "", hFin := "", annee := 2024,
    employe := { _id := "e2", nomEmploye := "Anne", prenomEmploye := "Martin" },
    station := { _id := "s2", nomStation := "Sud" }, isPresent := some true }

/-! ## Week navigation and initial selection (Presence.tsx, Planning.tsx) -/

/-- `handleNextWeek` on the selection (selectedYear, selectedWeek): the updater
passed to `setSelectedWeek` together with the `setSelectedYear` it calls. -/
def handleNextWeek (tz : TimeZone) (selection : Int × Int) : Int × Int :=
  let selectedYear := selection.1
  let prev := selection.2
  let maxWeeks := getWeeksInYear tz selectedYear
  if prev < maxWeeks then (selectedYear, prev + 1)
  else (selectedYear + 1, 1)

/-- `handlePreviousWeek` on the selection (selectedYear, selectedWeek). -/
def handlePreviousWeek (tz : TimeZone) (selection : Int × Int) : Int × Int :=
  let selectedYear := selection.1
  let prev := selection.2
  if prev > 1 then (selectedYear, prev - 1)
  else
    let prevYear := selectedYear - 1
    (prevYear, getWeeksInYear tz prevYear)

/-- The initial state of both pages for the current date:
`selectedYear = currentDate.getFullYear()` and
`selectedWeek = getWeekNumber(currentDate)`. -/
def initialSelection (tz : TimeZone) (currentDate : JsDate) : Int × Int :=
  (currentDate.getFullYear, getWeekNumber tz currentDate)

/-- A planning of Jean Dupont whose six other days are missing instead of
empty. -/
def jeanPlanSparse : Schedule :=
  { _id := "p1", employeeName := "Jean Dupont", monday := some "8h-16h", tuesday := none,
    wednesday := none, thursday := none, friday := none, saturday := none, sunday := none,
    year := 2024, week := 10 }

/-- The day table of the entry of Jean Dupont in the scenario: Monday `8h-16h`
without attendance, the six other days `Non défini` without attendance. -/
def jeanDays : Dict DayCell :=
  [("Lundi", ⟨"8h-16h", none⟩), ("Mardi", ⟨"Non défini", none⟩),
   ("Mercredi", ⟨"Non défini", none⟩), ("Jeudi", ⟨"Non défini", none⟩),
   ("Vendredi", ⟨"Non défini", none⟩), ("Samedi", ⟨"Non défini", none⟩),
   ("Dimanche", ⟨"Non défini", none⟩)]

/-! ## The Planning form (`handleSubmit` of Planning.tsx) -/

/-- The pattern `/^(\d{1,2}h)-(\d{1,2}h)$/` of `handleSubmit`. -/
def formRegex : Re :=
  .seq (.group (.seq (.rep12 .digit) (.chr 'h')))
    (.seq (.chr '-') (.group (.seq (.rep12 .digit) (.chr 'h'))))

/-- The state `formData` of Planning.tsx: `employeeName` holds the `_id` of the
employee chosen in the select, the seven days hold the typed text. -/
structure PlanningForm where
  _id : String
  employeeName : String
  monday : String
  tuesday : String
  wednesday : String
  thursday : String
  friday : String
  saturday : String
  sunday : String
  year : Int
  week : Int
  station : Option StationRef
  deriving DecidableEq, Repr

/-- The body of a planning request (`dataToSend`, `req.body`): a field is
absent or carries a value of the type that the form sends. -/
structure PlanningBody where
  employeeName : Option String
  monday : Option String
  tuesday : Option String
  wednesday : Option String
  thursday : Option String
  friday : Option String
  saturday : Option String
  sunday : Option String
  year : Option Int
  week : Option Int
  station : Option String
  deriving DecidableEq, Repr

/-- What `handleSubmit` does: it shows an error and returns, or it sends the
PUT or the POST request. -/
inductive SubmitAction where
  | setError (message : String)
  | put (id : String) (dataToSend : PlanningBody)
  | post (dataToSend : PlanningBody)
  deriving DecidableEq, Repr

/-- The constant `days` of `handleSubmit`. -/
def formDays : List String :=
  ["monday", "tuesday", "wednesday", "thursday", "friday", "saturday", "sunday"]

/-- Reading `formData[day]` for one of the seven day keys. -/
def PlanningForm.dayProp (formData : PlanningForm) (day : String) : String :=
  if day = "monday" then formData.monday
  else if day = "tuesday" then formData.tuesday
  else if day = "wednesday" then formData.wednesday
  else if day = "thursday" then formData.thursday
  else if day = "friday" then formData.friday
  else if day = "saturday" then formData.saturday
  else if day = "sunday" then formData.sunday
  else ""

/-- The expression `day.charAt(0).toUpperCase() + day.slice(1)`. -/
def capitalizeFirst (day : String) : String :=
  match day.data with
  | [] => ""
  | c :: cs => ⟨c.toUpper :: cs⟩

/-- The format error of `handleSubmit` for a day. -/
def formatError (day : String) : String :=
  "Format invalide pour " ++ capitalizeFirst day ++ ". Utilisez \"8h-16h\"."

/-- The loop over the days of `handleSubmit`: the first day whose text is not
empty and fails the pattern. -/
def firstBadDay (formData : PlanningForm) : Option String :=
  formDays.find? (fun day =>
    let time := formData.dayProp day
    time ≠ "" ∧ !formRegex.test time)

/-- `handleSubmit` of Planning.tsx up to the request it sends. -/
def handleSubmit (formData : PlanningForm) (userRole : String) (employes : List Employe)
    (selectedYear selectedWeek : Int) (isEditing : Bool) : SubmitAction :=
  if formData.employeeName = "" then .setError "L'employé est requis."
  else if userRole = "admin" ∧ (formData.station.map (fun s => s._id)).getD "" = "" then
    .setError "La station est requise pour les administrateurs."
  else
    match firstBadDay formData with
    | some day => .setError (formatError day)
    | none =>
        match employes.find? (fun emp => emp._id == formData.employeeName) with
        | none => .setError "Aucun employé sélectionné ou employé introuvable."
        | some selectedEmploye =>
            let dataToSend : PlanningBody :=
              { employeeName := some (selectedEmploye.nomEmploye ++ " " ++
                  selectedEmploye.prenomEmploye)
                monday := some formData.monday
                tuesday := some formData.tuesday
                wednesday := some formData.wednesday
                thursday := some formData.thursday
                friday := some formData.friday
                saturday := some formData.saturday
                sunday := some formData.sunday
                year := some selectedYear
                week := some selectedWeek
                station :=
                  if userRole = "admin" then formData.station.map (fun s => s._id)
                  else none }
            if isEditing then .put formData._id dataToSend else .post dataToSend

/-- A form filled for Jean Dupont (employee `e1`): Monday `8h-16h`. -/
def jeanForm : PlanningForm :=
  { _id := "", employeeName := "e1", monday := "8h-16h", tuesday := "", wednesday := "",
    thursday := "", friday := "", saturday := "", sunday := "", year := 2024, week := 10,
    station := some { _id := "", nomStation := "" } }

/-! ## Backend: the store and the presence controller (presenceController.js)

The document database is a record of lists.  A handler takes the store, the
decoded token `req.user`, the request, and returns the response with the store
after the request.  An exception thrown inside the `try` of a handler (a
TypeError, a Mongoose CastError) is the answer 500 of its `catch`; which
strings Mongoose casts to an ObjectId is a parameter `validId`.  An identifier
is the text that the store gives out for it (the 24 lower-case hexadecimal
digits of `ObjectId.toString()`), and `findById` is modelled on such texts, by
equality; a request that spells an identifier otherwise (upper-case digits,
which cast to the same ObjectId) is not modelled.  A request body is modelled
with each field absent or of the type the client sends: a number with an
integer value or a string for the week and the year, strings for the other
fields, a boolean for `isPresent` (JSON `null` is not modelled). -/

/-- A stored `Presence` document. -/
structure PresenceDoc where
  _id : String
  idPresence : String
  semaine : Int
  jour : String
  hDebut : String
  hFin : String
  annee : Int
  employe : String
  station : String
  isPresent : Bool
  deriving DecidableEq, Repr

/-- A stored `Planning` document. -/
structure PlanningDoc where
  _id : String
  idPlanning : String
  employeeName : String
  monday : Option String
  tuesday : Option String
  wednesday : Option String
  thursday : Option String
  friday : Option String
  saturday : Option String
  sunday : Option String
  year : Int
  week : Int
  station : Option String
  deriving DecidableEq, Repr

/-- A stored `Employe` document, with the fields that the core reads. -/
structure EmployeDoc where
  _id : String
  nomEmploye : String
  prenomEmploye : String
  station : Option String
  deriving DecidableEq, Repr

/-- A stored `Station` document, with the fields that the core reads. -/
structure StationDoc where
  _id : String
  nomStation : String
  deriving DecidableEq, Repr

/-- The collections of the store. -/
structure Db where
  presences : List PresenceDoc
  plannings : List PlanningDoc
  employes : List EmployeDoc
  stations : List StationDoc
  deriving DecidableEq, Repr

/-- The payload of a token (`req.user`, `DecodedToken`): `station` is null in
the token of a user without station. -/
structure User where
  id : String
  role : String
  station : Option String
  deriving DecidableEq, Repr

/-- A week or a year as the request carries it: a number or a string. -/
inductive JsNumeric where
  | num (n : Int)
  | str (s : String)
  deriving DecidableEq, Repr

/-- The body of a presence request. -/
structure PresenceBody where
  semaine : Option JsNumeric
  jour : Option String
  hDebut : Option String
  hFin : Option String
  annee : Option JsNumeric
  employe : Option String
  station : Option String
  isPresent : Option Bool
  deriving DecidableEq, Repr

/-- A response: the status, the `message` of an error body, the record of a
success body. -/
structure Response (α : Type) where
  status : Nat
  message : String
  data : Option α
  deriving Repr

/-- An answer `res.status(status).json({ message })`. -/
def Response.fail {α : Type} (status : Nat) (message : String) : Response α :=
  { status := status, message := message, data := none }

/-- ECMAScript white space and line terminators (`StrWhiteSpaceChar`). -/
def isStrWhiteSpace (c : Char) : Bool :=
  c.toNat ∈ [0x09, 0x0A, 0x0B, 0x0C, 0x0D, 0x20, 0xA0, 0x1680, 0x2000, 0x2001, 0x2002,
    0x2003, 0x2004, 0x2005, 0x2006, 0x2007, 0x2008, 0x2009, 0x200A, 0x2028, 0x2029,
    0x202F, 0x205F, 0x3000, 0xFEFF]

/-- The value of a character as a digit of the radix, when it is one. -/
def radixDigit? (radix : Nat) (c : Char) : Option Nat :=
  let v :=
    if c.isDigit then some (c.toNat - 48)
    else if 'a'.toNat ≤ c.toNat ∧ c.toNat ≤ 'z'.toNat then some (c.toNat - 'a'.toNat + 10)
    else if 'A'.toNat ≤ c.toNat ∧ c.toNat ≤ 'Z'.toNat then some (c.toNat - 'A'.toNat + 10)
    else none
  match v with
  | some d => if d < radix then some d else none
  | none => none

/-- The digits read by `parseInt`: the longest prefix of digits of the radix. -/
def radixPrefix (radix : Nat) : List Char → List Nat
  | [] => []
  | c :: cs =>
      match radixDigit? radix c with
      | some d => d :: radixPrefix radix cs
      | none => []

/-- `parseInt(string)` without radix argument: leading white space, a sign, the
prefix `0x` or `0X` for radix 16, then the longest prefix of digits; `none` is
NaN.  The value is exact (no rounding to a double). -/
def parseIntString (s : String) : Option Int :=
  let t := s.data.dropWhile isStrWhiteSpace
  let signed : Int × List Char :=
    match t with
    | '-' :: r => (-1, r)
    | '+' :: r => (1, r)
    | _ => (1, t)
  let based : Nat × List Char :=
    match signed.2 with
    | '0' :: 'x' :: r => (16, r)
    | '0' :: 'X' :: r => (16, r)
    | r => (10, r)
  let ds := radixPrefix based.1 based.2
  if ds.isEmpty then none
  else some (signed.1 * ((ds.foldl (fun n d => based.1 * n + d) 0 : Nat) : Int))

/-- The number of binary digits of a natural number. -/
def bitLength (n : Nat) : Nat :=
  (Nat.toDigits 2 n).length

/-- The Number value of a natural number: itself below 2^53, else the nearest
multiple of the unit in the last place of its 53-bit significand, ties to the
even significand.  A result of 2^1024 or more stands for `Infinity`. -/
def roundToDouble (n : Nat) : Nat :=
  if n < 9007199254740992 then n
  else
    let e := bitLength n - 53
    let q := n / 2 ^ e
    let r := n % 2 ^ e
    let q := if 2 ^ (e - 1) < r ∨ (r = 2 ^ (e - 1) ∧ q % 2 = 1) then q + 1 else q
    q * 2 ^ e

/-- `parseInt(v)` on a number whose value in the request is the integer `n`:
`parseInt` reads the text `String(v)` of the Number value.  Below 1e21 in
absolute value the text is the digits of the value, and the result is the
value.  From 1e21 on the text is in exponent notation (`1e+21`,
`1.2345678901234568e+24`), of which `parseInt` reads the digit before the
point: the first digit of the shortest decimal that reads back as the value.
The text of an infinite value is `Infinity`, which reads as NaN (`none`). -/
def numberParseInt (n : Int) : Option Int :=
  let x := roundToDouble n.natAbs
  let sign : Int := if n < 0 then -1 else 1
  if x < 10 ^ 21 then some (sign * x)
  else if 1024 < bitLength x then none
  else
    let p := (Nat.toDigits 10 x).length - 1
    let lead := x / 10 ^ p
    let first :=
      if roundToDouble (lead * 10 ^ p) = x then lead
      else if roundToDouble ((lead + 1) * 10 ^ p) = x then
        (if lead + 1 = 10 then 1 else lead + 1)
      else lead
    some (sign * first)

/-- `parseInt(v)` on the week or the year of a request.  The numbers of the
model are those whose value is an integer. -/
def JsNumeric.parseInt : JsNumeric → Option Int
  | .num n => numberParseInt n
  | .str s => parseIntString s

/-- Truthiness of an optional week or year: absent, `0` and the empty string
are falsy. -/
def truthyNum : Option JsNumeric → Bool
  | none => false
  | some (.num n) => n ≠ 0
  | some (.str s) => s ≠ ""

/-- Truthiness of an optional string. -/
def truthyStr : Option String → Bool
  | none => false
  | some s => s ≠ ""

/-- The constant `validDays` of the presence controller. -/
def validDays : List String :=
  ["Lundi", "Mardi", "Mercredi", "Jeudi", "Vendredi", "Samedi", "Dimanche"]

/-- `Employe.findById`, for an identifier in the text of the store. -/
def Db.findEmploye (db : Db) (id : String) : Option EmployeDoc :=
  db.employes.find? (fun e => e._id == id)

/-- `Station.findById`, for an identifier in the text of the store. -/
def Db.findStation (db : Db) (id : String) : Option StationDoc :=
  db.stations.find? (fun s => s._id == id)

/-- `Presence.findById`, for an identifier in the text of the store. -/
def Db.findPresence (db : Db) (id : String) : Option PresenceDoc :=
  db.presences.find? (fun p => p._id == id)

/-- `Planning.findById`, for an identifier in the text of the store. -/
def Db.findPlanning (db : Db) (id : String) : Option PlanningDoc :=
  db.plannings.find? (fun p => p._id == id)

/-- The key on which the presence controller looks for a duplicate. -/
def PresenceDoc.key (p : PresenceDoc) : Int × String × Int × String :=
  (p.semaine, p.jour, p.annee, p.employe)

/-- The populated JSON of a presence (`populate('employe', ...)` and
`populate('station', ...)`), as the client type `Presence`; `none` when a
reference does not resolve (the JSON then carries `null`, which the client type
excludes). -/
def populatePresence (db : Db) (p : PresenceDoc) : Option Presence :=
  match db.findEmploye p.employe, db.findStation p.station with
  | some e, some s =>
      some { _id := p._id, semaine := p.semaine, jour := p.jour, hDebut := p.hDebut,
             hFin := p.hFin, annee := p.annee,
             employe := { _id := e._id, nomEmploye := e.nomEmploye,
                          prenomEmploye := e.prenomEmploye },
             station := { _id := s._id, nomStation := s.nomStation },
             isPresent := some p.isPresent }
  | _, _ => none

/-- Replacing the first document of a list that satisfies a test
(`document.save()` of a loaded document). -/
def replaceFirst {α : Type} (p : α → Bool) (new : α) : List α → List α
  | [] => []
  | x :: xs => if p x then new :: xs else x :: replaceFirst p new xs

/-- Removing the first document of a list that satisfies a test
(`findByIdAndDelete`). -/
def removeFirst {α : Type} (p : α → Bool) : List α → List α
  | [] => []
  | x :: xs => if p x then xs else x :: removeFirst p xs

/-- The answer of the `catch` of `createPresence`. -/
def createPresenceError : Response Presence :=
  Response.fail 500 "Erreur lors de la création de la présence: "

/-- The end of `createPresence`, from `Employe.findById` on: the two lookups,
the station check of a caller who is not admin, the duplicate check, and the
insertion.  `newId` is the `_id` that Mongoose gives the new document and `now`
the value of `Date.now()`. -/
def createPresenceChecked (validId : String → Bool) (db : Db) (user : User)
    (body : PresenceBody) (parsedSemaine parsedAnnee : Int) (jour employe station : String)
    (newId : String) (now : Int) : Response Presence × Db :=
  if !validId employe then (createPresenceError, db)
  else if (db.findEmploye employe).isNone then
    (Response.fail 400 "Employé non trouvé.", db)
  else if !validId station then (createPresenceError, db)
  else if (db.findStation station).isNone then
    (Response.fail 400 "Station non trouvée.", db)
  else if user.role ≠ "admin" ∧ user.station.isNone then (createPresenceError, db)
  else if user.role ≠ "admin" ∧ some station ≠ user.station then
    (Response.fail 403
      "Accès refusé: Vous ne pouvez créer des présences que pour votre station.", db)
  else if db.presences.any (fun p =>
      p.semaine = parsedSemaine ∧ p.jour = jour ∧ p.annee = parsedAnnee ∧
        p.employe = employe) then
    (Response.fail 400 "Une présence existe déjà pour cet employé à cette date.", db)
  else
    let presence : PresenceDoc :=
      { _id := newId, idPresence := toString now, semaine := parsedSemaine, jour := jour,
        hDebut := body.hDebut.getD "", hFin := body.hFin.getD "", annee := parsedAnnee,
        employe := employe, station := station, isPresent := body.isPresent.getD false }
    let db' : Db := { db with presences := db.presences ++ [presence] }
    match db'.findPresence newId with
    | none => (Response.fail 404 "Présence non trouvée après création.", db')
    | some saved =>
        ({ status := 201, message := "", data := populatePresence db' saved }, db')

/-- The middle of `createPresence`: the range checks on the parsed week and
year and the check of the day. -/
def createPresenceParsed (validId : String → Bool) (db : Db) (user : User)
    (body : PresenceBody) (parsedSemaine parsedAnnee : Int) (newId : String) (now : Int) :
    Response Presence × Db :=
  if parsedSemaine < 1 ∨ parsedSemaine > 53 then
    (Response.fail 400 "Semaine doit être entre 1 et 53.", db)
  else if parsedAnnee < 2000 ∨ parsedAnnee > 2100 then
    (Response.fail 400 "Année doit être entre 2000 et 2100.", db)
  else if ¬ body.jour.getD "" ∈ validDays then
    (Response.fail 400 "Jour doit être un jour valide (Lundi à Dimanche).", db)
  else
    createPresenceChecked validId db user body parsedSemaine parsedAnnee
      (body.jour.getD "") (body.employe.getD "") (body.station.getD "") newId now

/-- `createPresence` of presenceController.js: the check of `req.user`, of the
required fields and of `parseInt`, then `createPresenceParsed`. -/
def createPresence (validId : String → Bool) (db : Db) (user : Option User)
    (body : PresenceBody) (newId : String) (now : Int) : Response Presence × Db :=
  match user with
  | none => (Response.fail 401 "Utilisateur non authentifié.", db)
  | some user =>
      if !truthyNum body.semaine || !truthyStr body.jour || !truthyNum body.annee ||
          !truthyStr body.employe || !truthyStr body.station then
        (Response.fail 400 "Les champs semaine, jour, année, employé et station sont requis.",
          db)
      else
        match body.semaine.bind JsNumeric.parseInt, body.annee.bind JsNumeric.parseInt with
        | some parsedSemaine, some parsedAnnee =>
            createPresenceParsed validId db user body parsedSemaine parsedAnnee newId now
        | _, _ =>
            (Response.fail 400 "Semaine et année doivent être des nombres valides.", db)

/-- The answer of the `catch` of `updatePresence`. -/
def updatePresenceError : Response Presence :=
  Response.fail 500 "Erreur lors de la mise à jour de la présence: "

/-- The block `if (semaine !== undefined) { ... }` of `updatePresence`. -/
def assignSemaine (body : PresenceBody) (presence : PresenceDoc) :
    Except (Response Presence) PresenceDoc :=
  match body.semaine with
  | none => .ok presence
  | some semaine =>
      match semaine.parseInt with
      | some parsedSemaine =>
          if parsedSemaine < 1 ∨ parsedSemaine > 53 then
            .error (Response.fail 400 "Semaine doit être un nombre entre 1 et 53.")
          else .ok { presence with semaine := parsedSemaine }
      | none => .error (Response.fail 400 "Semaine doit être un nombre entre 1 et 53.")

/-- The block `if (jour !== undefined) { ... }` of `updatePresence`. -/
def assignJour (body : PresenceBody) (presence : PresenceDoc) :
    Except (Response Presence) PresenceDoc :=
  match body.jour with
  | none => .ok presence
  | some jour =>
      if ¬ jour ∈ validDays then
        .error (Response.fail 400 "Jour doit être un jour valide (Lundi à Dimanche).")
      else .ok { presence with jour := jour }

/-- The block `if (annee !== undefined) { ... }` of `updatePresence`. -/
def assignAnnee (body : PresenceBody) (presence : PresenceDoc) :
    Except (Response Presence) PresenceDoc :=
  match body.annee with
  | none => .ok presence
  | some annee =>
      match annee.parseInt with
      | some parsedAnnee =>
          if parsedAnnee < 2000 ∨ parsedAnnee > 2100 then
            .error (Response.fail 400 "Année doit être un nombre entre 2000 et 2100.")
          else .ok { presence with annee := parsedAnnee }
      | none => .error (Response.fail 400 "Année doit être un nombre entre 2000 et 2100.")

/-- The block `if (employe !== undefined) { ... }` of `updatePresence`. -/
def assignEmploye (validId : String → Bool) (db : Db) (body : PresenceBody)
    (presence : PresenceDoc) : Except (Response Presence) PresenceDoc :=
  match body.employe with
  | none => .ok presence
  | some employe =>
      if !validId employe then .error updatePresenceError
      else if (db.findEmploye employe).isNone then
        .error (Response.fail 400 "Employé non trouvé.")
      else .ok { presence with employe := employe }

/-- The block `if (station !== undefined) { ... }` of `updatePresence`. -/
def assignStation (validId : String → Bool) (db : Db) (user : User) (body : PresenceBody)
    (presence : PresenceDoc) : Except (Response Presence) PresenceDoc :=
  match body.station with
  | none => .ok presence
  | some station =>
      if !validId station then .error updatePresenceError
      else if (db.findStation station).isNone then
        .error (Response.fail 400 "Station non trouvée.")
      else if user.role ≠ "admin" ∧ user.station.isNone then .error updatePresenceError
      else if user.role ≠ "admin" ∧ some station ≠ user.station then
        .error (Response.fail 403
          "Accès refusé: Vous ne pouvez modifier que les présences de votre station.")
      else .ok { presence with station := station }

/-- The three assignments `if (x !== undefined) presence.x = x` of
`updatePresence`. -/
def assignRest (body : PresenceBody) (presence : PresenceDoc) : PresenceDoc :=
  { presence with
    hDebut := body.hDebut.getD presence.hDebut
    hFin := body.hFin.getD presence.hFin
    isPresent := body.isPresent.getD presence.isPresent }

/-- The checks and assignments of `updatePresence` on the loaded document,
before the duplicate check. -/
def assignFields (validId : String → Bool) (db : Db) (user : User) (body : PresenceBody)
    (presence : PresenceDoc) : Except (Response Presence) PresenceDoc :=
  (assignSemaine body presence).bind fun p1 =>
  (assignJour body p1).bind fun p2 =>
  (assignAnnee body p2).bind fun p3 =>
  (assignEmploye validId db body p3).bind fun p4 =>
  (assignStation validId db user body p4).bind fun p5 =>
  .ok (assignRest body p5)

/-- The query of the duplicate check of `updatePresence` on the document after
the assignments: another document (`_id` different from `id`) with the week,
the day, the year and the employee of the request, or of the document where the
request gives none. -/
def duplicateOf (db : Db) (id : String) (body : PresenceBody) (presence : PresenceDoc) :
    Bool :=
  db.presences.any (fun p =>
    p.semaine = (body.semaine.bind JsNumeric.parseInt).getD presence.semaine ∧
    p.jour = (if truthyStr body.jour then body.jour.getD "" else presence.jour) ∧
    p.annee = (body.annee.bind JsNumeric.parseInt).getD presence.annee ∧
    p.employe = (if truthyStr body.employe then body.employe.getD "" else presence.employe) ∧
    p._id ≠ id)

/-- `updatePresence` of presenceController.js. -/
def updatePresence (validId : String → Bool) (db : Db) (user : Option User) (id : String)
    (body : PresenceBody) : Response Presence × Db :=
  match user with
  | none => (Response.fail 401 "Utilisateur non authentifié.", db)
  | some user =>
  if !validId id then (updatePresenceError, db)
  else
  match db.findPresence id with
  | none => (Response.fail 404 "Présence non trouvée.", db)
  | some presence =>
      if user.role ≠ "admin" ∧ user.station.isNone then (updatePresenceError, db)
      else if user.role ≠ "admin" ∧ some presence.station ≠ user.station then
        (Response.fail 403 "Accès refusé: Station non autorisée.", db)
      else
      match assignFields validId db user body presence with
      | .error response => (response, db)
      | .ok presence =>
          if (body.semaine.isSome ∨ body.jour.isSome ∨ body.annee.isSome ∨
              body.employe.isSome) ∧ duplicateOf db id body presence then
            (Response.fail 400 "Une présence existe déjà pour cet employé à cette date.", db)
          else
            let db' : Db :=
              { db with presences := replaceFirst (fun p => p._id == id) presence db.presences }
            match db'.findPresence id with
            | none => (Response.fail 404 "Présence non trouvée après mise à jour.", db')
            | some updated =>
                ({ status := 200, message := "", data := populatePresence db' updated }, db')

/-- `deletePresence` of presenceController.js. -/
def deletePresence (validId : String → Bool) (db : Db) (user : Option User) (id : String) :
    Response Presence × Db :=
  match user with
  | none => (Response.fail 401 "Utilisateur non authentifié.", db)
  | some user =>
  if !validId id then
    (Response.fail 500 "Erreur lors de la suppression de la présence: ", db)
  else
  match db.findPresence id with
  | none => (Response.fail 404 "Présence non trouvée.", db)
  | some presence =>
      if user.role ≠ "admin" ∧ user.station.isNone then
        (Response.fail 500 "Erreur lors de la suppression de la présence: ", db)
      else if user.role ≠ "admin" ∧ some presence.station ≠ user.station then
        (Response.fail 403 "Accès refusé: Station non autorisée.", db)
      else
        ({ status := 200, message := "Présence supprimée avec succès.", data := none },
          { db with presences := removeFirst (fun p => p._id == id) db.presences })

/-! ### Sample store -/

/-- The stored attendance of Anne Martin (employee `e2`, station Sud) on the
Tuesday of week 10 of 2024. -/
def anneTuesday : PresenceDoc :=
  { _id := "r1", idPresence := "1709600000000", semaine := 10, jour := "Mardi",
    hDebut := "", hFin := "", annee := 2024, employe := "e2", station := "s2",
    isPresent := true }

/-- The stored plan of Jean Dupont for week 10 of 2024, at station Nord. -/
def jeanStored : PlanningDoc :=
  { _id := "p1", idPlanning := "1709500000000", employeeName := "Jean Dupont",
    monday := some "8h-16h", tuesday := some "", wednesday := some "",
    thursday := some "", friday := some "", saturday := some "", sunday := some "",
    year := 2024, week := 10, station := some "s1" }

/-- A store with the employees Jean Dupont (station Nord) and Anne Martin
(station Sud), the planning of Jean Dupont for week 10 of 2024, and the
attendance of Anne Martin on the Tuesday of that week. -/
def sampleStore : Db :=
  { presences := [anneTuesday]
    plannings := [jeanStored]
    employes :=
      [{ _id := "e1", nomEmploye := "Jean", prenomEmploye := "Dupont", station := some "s1" },
       { _id := "e2", nomEmploye := "Anne", prenomEmploye := "Martin", station := some "s2" }]
    stations :=
      [{ _id := "s1", nomStation := "Nord" }, { _id := "s2", nomStation := "Sud" }] }

/-- The token of the manager of station Nord. -/
def managerNord : User := { id := "u1", role := "manager", station := some "s1" }

/-- The token of an administrator. -/
def adminUser : User := { id := "u0", role := "admin", station := none }

/-- The token of a main manager: `register` gives this role no station. -/
def mainManagerUser : User := { id := "u2", role := "mainManager", station := none }

/-- The request that marks Jean Dupont present on the Monday of week 10 of
2024, at station Nord. -/
def jeanMonday : PresenceBody :=
  { semaine := some (.num 10), jour := some "Lundi", hDebut := some "", hFin := some "",
    annee := some (.num 2024), employe := some "e1", station := some "s1",
    isPresent := some true }

/-- A request that changes nothing but the presence flag. -/
def flagOnly (isPresent : Bool) : PresenceBody :=
  { semaine := none, jour := none, hDebut := none, hFin := none, annee := none,
    employe := none, station := none, isPresent := some isPresent }

/-- `getPresences` of presenceController.js; `year` and `week` are the query
parameters.  The answer 200 carries the selected documents (the JSON has their
two references populated).  A caller who is not admin and whose token has no
station asks for the documents whose station is null: there is none, the
station of a presence being required. -/
def getPresences (validId : String → Bool) (db : Db) (user : Option User)
    (year week : Option String) : Response (List PresenceDoc) :=
  match user with
  | none => Response.fail 401 "Utilisateur non authentifié."
  | some user =>
      if !truthyStr year || !truthyStr week then
        Response.fail 400 "Année et semaine sont requises."
      else
        match parseIntString (year.getD ""), parseIntString (week.getD "") with
        | some parsedYear, some parsedWeek =>
            if parsedYear < 2000 ∨ parsedYear > 2100 then
              Response.fail 400 "Année doit être entre 2000 et 2100."
            else if parsedWeek < 1 ∨ parsedWeek > 53 then
              Response.fail 400 "Semaine doit être entre 1 et 53."
            else if user.role ≠ "admin" ∧ (user.station.any fun s => !validId s) then
              Response.fail 500 "Erreur lors de la récupération des présences: "
            else
              let presences := db.presences.filter (fun p =>
                p.annee = parsedYear ∧ p.semaine = parsedWeek ∧
                  (user.role = "admin" ∨ some p.station = user.station))
              if presences.isEmpty then
                Response.fail 404 "Aucune présence trouvée pour cette année et semaine."
              else { status := 200, message := "", data := some presences }
        | _, _ => Response.fail 400 "Année et semaine doivent être des nombres valides."

/-! ## Backend: the planning controller (planningController.js) -/

/-- The test `user.role.toLowerCase() === 'admin'`.  The lower case is taken on
the ASCII letters: the only characters whose lower case is one of the letters
of `admin` are these letters and their capitals. -/
def isAdminRole (role : String) : Bool :=
  String.mk (role.data.map Char.toLower) == "admin"

/-- Truthiness of an optional integer: absent and `0` are falsy. -/
def truthyInt : Option Int → Bool
  | none => false
  | some n => n ≠ 0

/-- The answer of the `catch` of `createPlanning`. -/
def createPlanningError : Response PlanningDoc :=
  Response.fail 500 "Erreur lors de la création du planning: "

/-- The answer of the `catch` of `updatePlanning`. -/
def updatePlanningError : Response PlanningDoc :=
  Response.fail 500 "Erreur lors de la mise à jour du planning: "

/-- The validation that `planning.save()` runs for the schema `PlanningSchema`
on a document whose required fields are present: the week between 1 and 53,
and the station a value that casts to an ObjectId. -/
def planningValid (validId : String → Bool) (week : Int) (station : String) : Bool :=
  1 ≤ week ∧ week ≤ 53 ∧ validId station

/-- The checks that `createPlanning` and `updatePlanning` share, from the
choice of the station to the lookup of the station of an admin: the answer of
the failed check, or the station of the plan. -/
def planningStation (validId : String → Bool) (db : Db) (user : User) (body : PlanningBody)
    (error : Response PlanningDoc) : Except (Response PlanningDoc) String :=
  let station := if isAdminRole user.role then body.station else user.station
  if !isAdminRole user.role ∧ !truthyStr user.station then
    .error (Response.fail 400 "Station de l'utilisateur non définie.")
  else if isAdminRole user.role ∧ !truthyStr station then
    .error (Response.fail 400 "Station requise pour les administrateurs.")
  else if !truthyStr body.employeeName || !truthyInt body.year || !truthyInt body.week then
    .error (Response.fail 400 "employeeName, year et week sont requis.")
  else if isAdminRole user.role ∧ !validId (station.getD "") then .error error
  else if isAdminRole user.role ∧ (db.findStation (station.getD "")).isNone then
    .error (Response.fail 400 "Station spécifiée non trouvée.")
  else .ok (station.getD "")

/-- `createPlanning` of planningController.js.  `newId` is the `_id` that
Mongoose gives the new document and `now` the value of `Date.now()`. -/
def createPlanning (validId : String → Bool) (db : Db) (user : Option User)
    (body : PlanningBody) (newId : String) (now : Int) : Response PlanningDoc × Db :=
  match user with
  | none => (Response.fail 401 "Utilisateur non authentifié.", db)
  | some user =>
      if user.role = "" then (Response.fail 400 "Rôle de l'utilisateur non défini.", db)
      else
        match planningStation validId db user body createPlanningError with
        | .error response => (response, db)
        | .ok station =>
            if !planningValid validId (body.week.getD 0) station then (createPlanningError, db)
            else
              let planning : PlanningDoc :=
                { _id := newId, idPlanning := toString now,
                  employeeName := body.employeeName.getD "",
                  monday := body.monday, tuesday := body.tuesday,
                  wednesday := body.wednesday, thursday := body.thursday,
                  friday := body.friday, saturday := body.saturday, sunday := body.sunday,
                  year := body.year.getD 0, week := body.week.getD 0,
                  station := some station }
              let db' : Db := { db with plannings := db.plannings ++ [planning] }
              ({ status := 201, message := "", data := db'.findPlanning newId }, db')

/-- `updatePlanning` of planningController.js. -/
def updatePlanning (validId : String → Bool) (db : Db) (user : Option User) (id : String)
    (body : PlanningBody) : Response PlanningDoc × Db :=
  match user with
  | none => (Response.fail 401 "Utilisateur non authentifié.", db)
  | some user =>
      if user.role = "" then (Response.fail 400 "Rôle de l'utilisateur non défini.", db)
      else if !validId id then (updatePlanningError, db)
      else
        match db.findPlanning id with
        | none => (Response.fail 404 "Planning non trouvé.", db)
        | some planning =>
            if !isAdminRole user.role ∧ planning.station.isNone then (updatePlanningError, db)
            else if !isAdminRole user.role ∧ planning.station ≠ user.station then
              (Response.fail 403 "Accès refusé: Station non autorisée.", db)
            else
              match planningStation validId db user body updatePlanningError with
              | .error response => (response, db)
              | .ok station =>
                  if !planningValid validId (body.week.getD 0) station then
                    (updatePlanningError, db)
                  else
                    let planning : PlanningDoc :=
                      { planning with
                        employeeName := body.employeeName.getD ""
                        monday := body.monday, tuesday := body.tuesday,
                        wednesday := body.wednesday, thursday := body.thursday,
                        friday := body.friday, saturday := body.saturday,
                        sunday := body.sunday,
                        year := body.year.getD 0, week := body.week.getD 0,
                        station := some station }
                    let db' : Db :=
                      { db with
                        plannings := replaceFirst (fun p => p._id == id) planning db.plannings }
                    ({ status := 200, message := "", data := db'.findPlanning id }, db')

/-- `deletePlanning` of planningController.js. -/
def deletePlanning (validId : String → Bool) (db : Db) (user : Option User) (id : String) :
    Response PlanningDoc × Db :=
  match user with
  | none => (Response.fail 401 "Utilisateur non authentifié.", db)
  | some user =>
      if user.role = "" then (Response.fail 400 "Rôle de l'utilisateur non défini.", db)
      else if !validId id then
        (Response.fail 500 "Erreur lors de la suppression du planning: ", db)
      else
        match db.findPlanning id with
        | none => (Response.fail 404 "Planning non trouvé.", db)
        | some planning =>
            if !isAdminRole user.role ∧ planning.station.isNone then
              (Response.fail 500 "Erreur lors de la suppression du planning: ", db)
            else if !isAdminRole user.role ∧ planning.station ≠ user.station then
              (Response.fail 403 "Accès refusé: Station non autorisée.", db)
            else
              ({ status := 200, message := "Planning supprimé avec succès.", data := none },
                { db with plannings := removeFirst (fun p => p._id == id) db.plannings })

/-- `getPlannings` of planningController.js; `year` and `week` are the query
parameters.  A value that does not cast (`NaN` for the year or the week, a
station that is no ObjectId) makes `Planning.find` throw. -/
def getPlannings (validId : String → Bool) (db : Db) (user : Option User)
    (year week : Option String) : Response (List PlanningDoc) :=
  match user with
  | none => Response.fail 401 "Utilisateur non authentifié."
  | some user =>
      if user.role = "" then Response.fail 400 "Rôle de l'utilisateur non défini."
      else if !truthyStr year || !truthyStr week then
        Response.fail 400 "Année et semaine sont requises."
      else if !isAdminRole user.role ∧ !truthyStr user.station then
        Response.fail 400 "Station de l'utilisateur non définie."
      else
        match parseIntString (year.getD ""), parseIntString (week.getD "") with
        | some parsedYear, some parsedWeek =>
            if !isAdminRole user.role ∧ !validId (user.station.getD "") then
              Response.fail 500 "Erreur lors de la récupération des plannings: "
            else
              { status := 200, message := ""
                data := some (db.plannings.filter (fun p =>
                  p.year = parsedYear ∧ p.week = parsedWeek ∧
                    (isAdminRole user.role ∨ p.station = user.station))) }
        | _, _ => Response.fail 500 "Erreur lors de la récupération des plannings: "

/-! ## Backend: registration (`register` of authController.js)

The schema of `User` is not among the sources.  The model takes a schema that
stores the fields it is given, without a default for `station`; what the
validation of `user.save()` accepts is a parameter `saveOk`, and the lower case
of the email a parameter `lower`. -/

/-- A stored `User` document, with the fields that the token and the duplicate
check read. -/
structure UserDoc where
  _id : String
  nom : String
  email : String
  role : String
  station : Option String
  deriving DecidableEq, Repr

/-- The body of a registration request. -/
structure RegisterBody where
  nom : Option String
  email : Option String
  password : Option String
  role : Option String
  station : Option String
  deriving DecidableEq, Repr

/-- The answer of `register`: the status, and on success the payload of the
signed token. -/
structure RegisterResponse where
  status : Nat
  message : String
  token : Option User
  deriving DecidableEq, Repr

/-- The constant `validRoles` of `register`. -/
def validRoles : List String := ["manager", "mainManager", "admin"]

/-- `String.prototype.trim`. -/
def jsTrim (s : String) : String :=
  String.mk ((s.data.dropWhile isStrWhiteSpace).reverse.dropWhile isStrWhiteSpace).reverse

/-- `register` of authController.js.  `newId` is the `_id` that Mongoose gives
the new document. -/
def register (lower : String → String) (saveOk : UserDoc → Bool) (users : List UserDoc)
    (body : RegisterBody) (newId : String) : RegisterResponse × List UserDoc :=
  if !truthyStr body.nom || !truthyStr body.email || !truthyStr body.password ||
      !truthyStr body.role then
    ({ status := 400, message := "Nom, email, mot de passe et rôle sont requis",
       token := none }, users)
  else
    let role := body.role.getD ""
    if ¬ role ∈ validRoles then
      ({ status := 400,
         message := "Rôle invalide: " ++ role ++ ". Les rôles valides sont: " ++
           ", ".intercalate validRoles,
         token := none }, users)
    else
      let trimmedEmail := lower (jsTrim (body.email.getD ""))
      if users.any (fun u => u.email == trimmedEmail) then
        ({ status := 400, message := "Utilisateur déjà existant", token := none }, users)
      else
        let user : UserDoc :=
          { _id := newId, nom := body.nom.getD "", email := trimmedEmail,
            role := role,
            station := if role = "manager" then body.station else none }
        if !saveOk user then
          ({ status := 500, message := "Erreur serveur", token := none }, users)
        else
          ({ status := 201, message := "",
             token := some { id := user._id, role := user.role,
                             station := if truthyStr user.station then user.station
                                        else none } },
            users ++ [user])

/-! ### Vocabulary of the presence properties -/

/-- A stored presence with one of the seven day names, a week between 1 and 53
and a year between 2000 and 2100. -/
def PresenceDoc.WellFormed (p : PresenceDoc) : Prop :=
  p.jour ∈ validDays ∧ 1 ≤ p.semaine ∧ p.semaine ≤ 53 ∧ 2000 ≤ p.annee ∧ p.annee ≤ 2100

instance (p : PresenceDoc) : Decidable p.WellFormed := by
  unfold PresenceDoc.WellFormed
  infer_instance

/-- The week of a request parses to an integer between 1 and 53. -/
def validSemaine (semaine : Option JsNumeric) : Prop :=
  ∃ n, semaine.bind JsNumeric.parseInt = some n ∧ 1 ≤ n ∧ n ≤ 53

/-- The day of a request is one of the seven day names. -/
def validJour (jour : Option String) : Prop :=
  ∃ j, jour = some j ∧ j ∈ validDays

/-- The year of a request parses to an integer between 2000 and 2100. -/
def validAnnee (annee : Option JsNumeric) : Prop :=
  ∃ n, annee.bind JsNumeric.parseInt = some n ∧ 2000 ≤ n ∧ n ≤ 2100

/-! ### Vocabulary of the planning properties -/

/-- The key on which the specification wants plans unique. -/
def PlanningDoc.key (p : PlanningDoc) : String × Int × Int :=
  (p.employeeName, p.year, p.week)

/-- The key of the plan that a request asks to store. -/
def PlanningBody.key (body : PlanningBody) : String × Int × Int :=
  (body.employeeName.getD "", body.year.getD 0, body.week.getD 0)

/-- The seven day-slots of a stored plan. -/
def PlanningDoc.slots (p : PlanningDoc) : List (Option String) :=
  [p.monday, p.tuesday, p.wednesday, p.thursday, p.friday, p.saturday, p.sunday]

/-- The seven day-slots of a request. -/
def PlanningBody.slots (body : PlanningBody) : List (Option String) :=
  [body.monday, body.tuesday, body.wednesday, body.thursday, body.friday, body.saturday,
    body.sunday]

/-- A day-slot that is empty (absent or the empty string) or has the form
`<startHour>h-<endHour>h` of the pattern of the Planning form. -/
def wellFormedSlot (slot : Option String) : Prop :=
  match slot with
  | none => True
  | some t => t = "" ∨ formRegex.test t = true

/-- The document that `createPlanning` builds from a request. -/
def newPlanning (body : PlanningBody) (station : String) (newId : String) (now : Int) :
    PlanningDoc :=
  { _id := newId, idPlanning := toString now, employeeName := body.employeeName.getD "",
    monday := body.monday, tuesday := body.tuesday, wednesday := body.wednesday,
    thursday := body.thursday, friday := body.friday, saturday := body.saturday,
    sunday := body.sunday, year := body.year.getD 0, week := body.week.getD 0,
    station := some station }

/-- The document that `updatePlanning` saves: every field of the request
assigned on the loaded document. -/
def changedPlanning (planning : PlanningDoc) (body : PlanningBody) (station : String) :
    PlanningDoc :=
  { planning with
    employeeName := body.employeeName.getD ""
    monday := body.monday, tuesday := body.tuesday, wednesday := body.wednesday,
    thursday := body.thursday, friday := body.friday, saturday := body.saturday,
    sunday := body.sunday, year := body.year.getD 0, week := body.week.getD 0,
    station := some station }

/-- The request that the Planning form sends for `jeanForm`, filled by a
manager for week 10 of 2024. -/
def jeanRequest : PlanningBody :=
  { employeeName := some "Jean Dupont", monday := some "8h-16h", tuesday := some "",
    wednesday := some "", thursday := some "", friday := some "", saturday := some "",
    sunday := some "", year := some 2024, week := some 10, station := none }

/-- The token of the manager of station Sud. -/
def managerSud : User := { id := "u3", role := "manager", station := some "s2" }

/-! ## The presence toggle (`handlePresenceToggle` of Presence.tsx)

The page holds the loaded plans, presences and roster of the selected week.
The token of `localStorage` is modelled by its decoded payload (`none` when
there is no token or `jwtDecode` cannot read it) and by the outcome of
`isTokenExpired`. -/

/-- The state of the page Presence.tsx that the toggle reads. -/
structure PresencePage where
  schedules : List Schedule
  presences : List Presence
  employes : List Employe
  selectedYear : Int
  selectedWeek : Int
  token : Option User
  tokenExpired : Bool
  /-- The selected year is a safe integer: it is the year of the current date
  or an entry of the year list. -/
  yearSafe : selectedYear.natAbs < 9007199254740992 := by decide
  /-- The selected week is a safe integer: it is a result of `getWeekNumber` or
  `getWeeksInYear`, an entry of the week list, or one more or less than one. -/
  weekSafe : selectedWeek.natAbs < 9007199254740992 := by decide
  deriving DecidableEq, Repr

/-- An exception thrown in `handlePresenceToggle` before any request: its
`catch` hands it to `handleApiError`, which shows it with `setError`. -/
inductive ClientError where
  /-- `Token invalide ou expiré`, thrown by `updateWithAuth` and `createWithAuth`. -/
  | tokenExpired
  /-- The error of `jwtDecode` on a missing or unreadable token. -/
  | invalidToken
  /-- Reading `_id` of the null station of an employee. -/
  | typeError
  deriving DecidableEq, Repr

/-- What `handlePresenceToggle` does up to its request: it shows a toast and
returns, it throws before any request, or it sends the PUT or the POST. -/
inductive ToggleAction where
  | toastError (message : String)
  | thrown (error : ClientError)
  | put (presenceId : Option String) (updatedPresence : PresenceBody)
  | post (newPresence : PresenceBody)
  deriving DecidableEq, Repr

/-- The expression `a || b` on two values that are a string or `undefined`. -/
def jsOr (a b : Option String) : Option String :=
  if truthyStr a then a else b

/-- The record that `presences.find` of `handlePresenceToggle` returns. -/
def findLoaded (page : PresencePage) (employeeName day : String) : Option Presence :=
  page.presences.find? (fun p =>
    displayName p.employe.nomEmploye p.employe.prenomEmploye == employeeName &&
      p.jour == day && p.semaine == page.selectedWeek && p.annee == page.selectedYear)

/-- The expression `decoded.station || employee.station._id`: the station of
the employee is read only when the token has none, and reading `_id` of a null
station throws (`none`). -/
def toggleStation (decoded : User) (employee : Employe) : Option String :=
  if truthyStr decoded.station then decoded.station
  else employee.station.map fun s => s._id

/-- The object `updatedPresence` of `handlePresenceToggle`.  A field whose
value is `undefined` is absent from the JSON body. -/
def updatedPresence (page : PresencePage) (day : String) (isPresent : Bool)
    (existingPresence presence : Option Presence) : PresenceBody :=
  { semaine := some (.num page.selectedWeek)
    jour := some day
    hDebut := jsOr (jsOr (existingPresence.map fun p => p.hDebut)
      (presence.map fun p => p.hDebut)) (some "")
    hFin := jsOr (jsOr (existingPresence.map fun p => p.hFin)
      (presence.map fun p => p.hFin)) (some "")
    annee := some (.num page.selectedYear)
    employe := jsOr (existingPresence.map fun p => p.employe._id)
      (presence.map fun p => p.employe._id)
    station := jsOr (existingPresence.map fun p => p.station._id)
      (presence.map fun p => p.station._id)
    isPresent := some isPresent }

/-- The object `newPresence` of `handlePresenceToggle`. -/
def newPresence (page : PresencePage) (day : String) (isPresent : Bool)
    (employee : Employe) (station : String) : PresenceBody :=
  { semaine := some (.num page.selectedWeek)
    jour := some day
    hDebut := some ""
    hFin := some ""
    annee := some (.num page.selectedYear)
    employe := some employee._id
    station := some station
    isPresent := some isPresent }

/-- `handlePresenceToggle` of Presence.tsx up to the request it sends.  The
identifier of the PUT is `presenceId`, which reads `undefined` in the URL when
it is `undefined`. -/
def handlePresenceToggle (page : PresencePage) (employeeName day : String)
    (isPresent : Bool) (existingPresence : Option Presence) : ToggleAction :=
  match page.schedules.find? (fun s => s.employeeName == employeeName) with
  | none => .toastError "Planning introuvable pour cet employé."
  | some _ =>
      let presence := findLoaded page employeeName day
      match page.employes.find? (fun emp =>
          displayName emp.nomEmploye emp.prenomEmploye == employeeName) with
      | none => .toastError "Employé introuvable."
      | some employee =>
          if existingPresence.isSome ∨ presence.isSome then
            let presenceId :=
              jsOr (existingPresence.map fun p => p._id) (presence.map fun p => p._id)
            if page.token.isNone ∨ page.tokenExpired then .thrown .tokenExpired
            else .put presenceId (updatedPresence page day isPresent existingPresence presence)
          else
            match page.token with
            | none => .thrown .invalidToken
            | some decoded =>
                match toggleStation decoded employee with
                | none => .thrown .typeError
                | some station =>
                    if station = "" then .toastError "Station de l'employé non définie."
                    else if page.tokenExpired then .thrown .tokenExpired
                    else .post (newPresence page day isPresent employee station)

/-- One run of `handlePresenceToggle` against the backend: the request goes to
`updatePresence` or `createPresence` with the payload of the token as
`req.user`; on the answer 200 or 201 the record of the answer replaces the
loaded record of the same `_id` or is added to the loaded records, on any other
answer axios throws and the page keeps its records.  An answer whose
references did not resolve is no `Presence` of the interface; the page then
keeps its records as well. -/
def presenceToggleRound (validId : String → Bool) (db : Db) (page : PresencePage)
    (employeeName day : String) (isPresent : Bool) (existingPresence : Option Presence)
    (newId : String) (now : Int) : PresencePage × Db :=
  match handlePresenceToggle page employeeName day isPresent existingPresence with
  | .toastError _ => (page, db)
  | .thrown _ => (page, db)
  | .put presenceId updatedPresence =>
      let r := updatePresence validId db page.token (presenceId.getD "undefined")
        updatedPresence
      match r.1.status == 200, r.1.data with
      | true, some data =>
          ({ page with
             presences := page.presences.map fun p =>
               if some p._id == presenceId then data else p },
            r.2)
      | _, _ => (page, r.2)
  | .post newPresence =>
      let r := createPresence validId db page.token newPresence newId now
      match r.1.status == 201, r.1.data with
      | true, some data => ({ page with presences := page.presences ++ [data] }, r.2)
      | _, _ => (page, r.2)

/-- The page of the manager of station Nord on week 10 of 2024: the plan and
the roster entry of Jean Dupont, no presence loaded. -/
def jeanPage : PresencePage :=
  { schedules := [jeanPlan], presences := [], employes := [jeanEmploye],
    selectedYear := 2024, selectedWeek := 10, token := some managerNord,
    tokenExpired := false }

/-- The page of a main manager, whose token has no station, with Jean Dupont
on the roster without station. -/
def noStationPage : PresencePage :=
  { jeanPage with
    employes := [{ jeanEmploye with station := none }]
    token := some mainManagerUser }

/-- The loaded presence of Jean Dupont (employee `e1`) on Monday, from 9h to
17h. -/
def jeanLoaded : Presence :=
  { _id := "r2", semaine := 10, jour := "Lundi", hDebut := "9h", hFin := "17h",
    annee := 2024, employe := { _id := "e1", nomEmploye := "Jean", prenomEmploye := "Dupont" },
    station := { _id := "s1", nomStation := "Nord" }, isPresent := some true }

/-- The loaded presence on Monday of a second employee named Jean Dupont
(employee `e3`), without times. -/
def homonymLoaded : Presence :=
  { _id := "r3", semaine := 10, jour := "Lundi", hDebut := "", hFin := "",
    annee := 2024, employe := { _id := "e3", nomEmploye := "Jean", prenomEmploye := "Dupont" },
    station := { _id := "s1", nomStation := "Nord" }, isPresent := some true }

/-- The page of the manager of station Nord with the two presences of the two
employees named Jean Dupont. -/
def homonymPage : PresencePage :=
  { jeanPage with presences := [jeanLoaded, homonymLoaded] }

/-- The sample store with the second Jean Dupont and the two presences of
`homonymPage`. -/
def homonymStore : Db :=
  { sampleStore with
    employes := sampleStore.employes ++
      [{ _id := "e3", nomEmploye := "Jean", prenomEmploye := "Dupont", station := some "s1" }]
    presences := sampleStore.presences ++
      [{ _id := "r2", idPresence := "1709700000000", semaine := 10, jour := "Lundi",
         hDebut := "9h", hFin := "17h", annee := 2024, employe := "e1", station := "s1",
         isPresent := true },
       { _id := "r3", idPresence := "1709700000001", semaine := 10, jour := "Lundi",
         hDebut := "", hFin := "", annee := 2024, employe := "e3", station := "s1",
         isPresent := true }] }

/-! # Theorems -/

/-! ## Worked hours -/

theorem isHourDigits_cases {ds : List Char} (h : IsHourDigits ds) :
    (∃ a, a.isDigit = true ∧ ds = [a]) ∨
      (∃ a b, a.isDigit = true ∧ b.isDigit = true ∧ ds = [a, b]) := by
  obtain ⟨h | h, hd⟩ := h
  · rcases ds with _ | ⟨a, _ | ⟨b, r⟩⟩ <;> simp at h
    exact Or.inl ⟨a, hd a (by simp), rfl⟩
  · rcases ds with _ | ⟨a, _ | ⟨b, _ | ⟨c, r⟩⟩⟩ <;> simp at h
    exact Or.inr ⟨a, b, hd a (by simp), hd b (by simp), rfl⟩

theorem mem_run_digit {l r : List Char} {caps cs : List (List Char)}
    (h : (r, cs) ∈ Re.digit.run l caps) :
    cs = caps ∧ ∃ a, a.isDigit = true ∧ l = a :: r := by
  rcases l with _ | ⟨a, t⟩
  · simp [Re.run] at h
  · by_cases ha : a.isDigit = true
    · simp [Re.run, ha] at h
      exact ⟨h.2, a, ha, by rw [h.1]⟩
    · simp [Re.run, ha] at h

theorem mem_run_chr {x : Char} {l r : List Char} {caps cs : List (List Char)}
    (h : (r, cs) ∈ (Re.chr x).run l caps) : cs = caps ∧ l = x :: r := by
  rcases l with _ | ⟨a, t⟩
  · simp [Re.run] at h
  · by_cases ha : a = x
    · simp [Re.run, ha] at h
      exact ⟨h.2, by rw [ha, h.1]⟩
    · simp [Re.run, ha] at h

theorem mem_run_digits {l r : List Char} {caps cs : List (List Char)}
    (h : (r, cs) ∈ (Re.rep12 Re.digit).run l caps) :
    cs = caps ∧ ∃ ds, IsHourDigits ds ∧ l = ds ++ r := by
  simp only [Re.run, List.mem_append, List.mem_flatMap] at h
  rcases h with ⟨p, hp, h⟩ | h
  · obtain ⟨h1, a, ha, rfl⟩ := mem_run_digit hp
    obtain ⟨h2, b, hb, h3⟩ := mem_run_digit h
    refine ⟨by rw [h2, h1], [a, b], ⟨Or.inr rfl, by simp [ha, hb]⟩, by simp [h3]⟩
  · obtain ⟨h1, a, ha, rfl⟩ := mem_run_digit h
    exact ⟨h1, [a], ⟨Or.inl rfl, by simp [ha]⟩, rfl⟩

theorem mem_run_group_digits {l r : List Char} {caps cs : List (List Char)}
    (h : (r, cs) ∈ (Re.group (Re.rep12 Re.digit)).run l caps) :
    ∃ ds, IsHourDigits ds ∧ l = ds ++ r ∧ cs = caps ++ [ds] := by
  simp only [Re.run, List.mem_map] at h
  obtain ⟨p, hp, h⟩ := h
  obtain ⟨h1, ds, hds, rfl⟩ := mem_run_digits hp
  simp only [Prod.mk.injEq] at h
  obtain ⟨rfl, rfl⟩ := h
  exact ⟨ds, hds, rfl, by simp [h1]⟩

theorem mem_run_seq {a b : Re} {l r : List Char} {caps cs : List (List Char)} :
    (r, cs) ∈ (Re.seq a b).run l caps ↔ ∃ p ∈ a.run l caps, (r, cs) ∈ b.run p.1 p.2 := by
  simp [Re.run, List.mem_flatMap]

theorem mem_run_timeRegex {l : List Char} {cs : List (List Char)}
    (h : ([], cs) ∈ timeRegex.run l []) :
    ∃ ds de, IsHourDigits ds ∧ IsHourDigits de ∧
      l = ds ++ 'h' :: '-' :: (de ++ ['h']) ∧ cs = [ds, de] := by
  simp only [timeRegex, mem_run_seq] at h
  obtain ⟨p1, h1, p2, h2, p3, h3, p4, h4, h5⟩ := h
  obtain ⟨ds, hds, rfl, e1⟩ := mem_run_group_digits h1
  obtain ⟨e2, e2l⟩ := mem_run_chr h2
  obtain ⟨e3, e3l⟩ := mem_run_chr h3
  obtain ⟨de, hde, e4l, e4⟩ := mem_run_group_digits h4
  obtain ⟨e5, e5l⟩ := mem_run_chr h5
  refine ⟨ds, de, hds, hde, ?_, ?_⟩
  · rw [e2l, e3l, e4l, e5l]
  · rw [e5, e4, e3, e2, e1]; rfl

theorem run_timeRegex_shape {ds de : List Char} (hds : IsHourDigits ds) (hde : IsHourDigits de) :
    timeRegex.exec (hourRange ds de) = some [ds, de] := by
  have hh : Char.isDigit 'h' = false := by decide
  rcases isHourDigits_cases hds with ⟨a, ha, rfl⟩ | ⟨a, b, ha, hb, rfl⟩ <;>
    rcases isHourDigits_cases hde with ⟨c, hc, rfl⟩ | ⟨c, d, hc, hd, rfl⟩ <;>
    simp [hourRange, Re.exec, timeRegex, Re.run, *]

theorem isDigit_toNat {c : Char} (h : c.isDigit = true) : 48 ≤ c.toNat := by
  simp only [Char.isDigit, Bool.and_eq_true, decide_eq_true_eq] at h
  have := h.1
  simp only [Char.toNat]
  exact this

theorem parseInt_hourDigits {ds : List Char} (h : IsHourDigits ds) :
    parseInt ds = some (decimalValue ds : Int) := by
  rcases isHourDigits_cases h with ⟨a, ha, rfl⟩ | ⟨a, b, ha, hb, rfl⟩
  · have := isDigit_toNat ha
    simp [parseInt, ha, decimalValue]
    omega
  · have := isDigit_toNat ha
    have := isDigit_toNat hb
    simp [parseInt, ha, hb, decimalValue]
    omega

theorem exec_timeRegex_some {t : String} {cs : List (List Char)}
    (h : timeRegex.exec t = some cs) :
    ∃ ds de, IsHourDigits ds ∧ IsHourDigits de ∧ t = hourRange ds de ∧ cs = [ds, de] := by
  simp only [Re.exec, Option.map_eq_some'] at h
  obtain ⟨p, hp, rfl⟩ := h
  have hmem := List.mem_of_find?_eq_some hp
  have hempty := List.find?_some hp
  obtain ⟨r, cs⟩ := p
  simp only [List.isEmpty_iff] at hempty
  subst hempty
  obtain ⟨ds, de, hds, hde, hl, hcs⟩ := mem_run_timeRegex hmem
  refine ⟨ds, de, hds, hde, ?_, hcs⟩
  cases t
  simp only [hourRange]
  congr

theorem addHours_zero (totalHours : Int) (time : Option String) :
    addHours totalHours time = totalHours + dayHours time := by
  unfold dayHours addHours
  split
  · simp
  · split_ifs with h1
    · split
      · split
        · simp only []
          split_ifs <;> simp
        · simp
      · simp
    · simp

theorem dayHours_nonneg (time : Option String) : 0 ≤ dayHours time := by
  unfold dayHours addHours
  split
  · simp
  · split_ifs with h1
    · split
      · split
        · simp only []
          split_ifs with h2
          · simp at h2 ⊢; omega
          · simp
        · simp
      · simp
    · simp

theorem dayHours_hourRange {ds de : List Char} (hds : IsHourDigits ds) (hde : IsHourDigits de) :
    dayHours (some (hourRange ds de)) =
      if decimalValue ds < decimalValue de then (decimalValue de : Int) - decimalValue ds else 0 := by
  have hne : hourRange ds de ≠ "" := by
    intro h
    have := congrArg String.data h
    simp [hourRange] at this
  simp only [dayHours, addHours, Re.test, run_timeRegex_shape hds hde, parseInt_hourDigits hds,
    parseInt_hourDigits hde]
  simp [hne]

theorem dayHours_other {t : String}
    (h : ¬ ∃ ds de, IsHourDigits ds ∧ IsHourDigits de ∧ t = hourRange ds de) :
    dayHours (some t) = 0 := by
  have hnone : timeRegex.exec t = none := by
    cases hx : timeRegex.exec t with
    | none => rfl
    | some cs =>
        obtain ⟨ds, de, hds, hde, ht, -⟩ := exec_timeRegex_some hx
        exact absurd ⟨ds, de, hds, hde, ht⟩ h
  simp [dayHours, addHours, Re.test, hnone]

theorem foldl_addHours (l : List (Option String)) (totalHours : Int) :
    l.foldl addHours totalHours = totalHours + (l.map dayHours).sum := by
  induction l generalizing totalHours with
  | nil => simp
  | cons x xs ih =>
      simp only [List.foldl_cons, List.map_cons, List.sum_cons]
      rw [ih, addHours_zero]
      omega

theorem sum_dayHours_nonneg (l : List (Option String)) : 0 ≤ (l.map dayHours).sum := by
  induction l with
  | nil => simp
  | cons x xs ih =>
      simp only [List.map_cons, List.sum_cons]
      have := dayHours_nonneg x
      omega

theorem presence_calculateTotalHours_eq (employee : Entry)
    (h : ∀ day ∈ days, (employee.days.get day).isSome = true) :
    Presence.calculateTotalHours employee =
      some ((days.map (fun day =>
        dayHours ((employee.days.get day).map DayCell.schedule))).sum) := by
  have key : ∀ (l : List String) (totalHours : Int),
      (∀ day ∈ l, (employee.days.get day).isSome = true) →
      l.foldlM
        (fun totalHours day =>
          match employee.days.get day with
          | none => none
          | some cell => some (addHours totalHours (some cell.schedule)))
        totalHours =
      some (totalHours + (l.map (fun day =>
        dayHours ((employee.days.get day).map DayCell.schedule))).sum) := by
    intro l
    induction l with
    | nil => intro t _; simp
    | cons d ds ih =>
        intro t hl
        have hd := hl d (by simp)
        obtain ⟨cell, hcell⟩ := Option.isSome_iff_exists.mp hd
        simp only [List.foldlM_cons, hcell, Option.bind_eq_bind, Option.some_bind, List.map_cons,
          List.sum_cons, Option.map_some']
        rw [ih _ (fun day hday => hl day (by simp [hday])), addHours_zero]
        congr 1
        omega
  simpa [Presence.calculateTotalHours] using key days 0 h

/-- C1. Both `calculateTotalHours` return, for every seven-day schedule, the sum
over the seven days of what each day contributes, and that total is a
non-negative integer; a day whose scheduled string is one or two decimal
digits `s`, then `h-`, then one or two decimal digits `e`, then `h`,
contributes `e - s` when `e > s`, and every other day (missing, empty,
malformed, or with `e ≤ s`) contributes 0.  In particular `8h-16h` gives 8 and
`16h-8h`, the empty string, a missing slot and `8h16h` give 0. -/
theorem calculateTotalHours_spec :
    (∀ schedule : Schedule,
        Planning.calculateTotalHours schedule = (schedule.dayFields.map dayHours).sum ∧
        0 ≤ Planning.calculateTotalHours schedule) ∧
    (∀ employee : Entry, (∀ day ∈ days, (employee.days.get day).isSome = true) →
        Presence.calculateTotalHours employee =
          some ((days.map (fun day =>
            dayHours ((employee.days.get day).map DayCell.schedule))).sum) ∧
        0 ≤ (days.map (fun day =>
            dayHours ((employee.days.get day).map DayCell.schedule))).sum) ∧
    (∀ ds de : List Char, IsHourDigits ds → IsHourDigits de →
        dayHours (some (hourRange ds de)) =
          if decimalValue ds < decimalValue de
          then (decimalValue de : Int) - decimalValue ds else 0) ∧
    (∀ t : String,
        (¬ ∃ ds de, IsHourDigits ds ∧ IsHourDigits de ∧ t = hourRange ds de) →
        dayHours (some t) = 0) ∧
    dayHours none = 0 ∧
    dayHours (some "8h-16h") = 8 ∧ dayHours (some "16h-8h") = 0 ∧
    dayHours (some "") = 0 ∧ dayHours (some "8h16h") = 0 := by
  refine ⟨?_, ?_, ?_, ?_, rfl, by decide, by decide, by decide, by decide⟩
  · intro schedule
    have h : Planning.calculateTotalHours schedule = (schedule.dayFields.map dayHours).sum := by
      simp [Planning.calculateTotalHours, foldl_addHours]
    exact ⟨h, h ▸ sum_dayHours_nonneg _⟩
  · intro employee h
    refine ⟨presence_calculateTotalHours_eq employee h, ?_⟩
    have := sum_dayHours_nonneg (days.map (fun day => (employee.days.get day).map DayCell.schedule))
    simpa [List.map_map, Function.comp_def] using this
  · intro ds de hds hde
    exact dayHours_hourRange hds hde
  · intro t h
    exact dayHours_other h

/-- C1, witness: the week of `sampleWeek` has all seven days and totals 16
hours; `8h-16h` is the range of the digits `8` and `16`. -/
theorem calculateTotalHours_spec_witness :
    (∀ day ∈ days, (sampleWeek.days.get day).isSome = true) ∧
    Presence.calculateTotalHours sampleWeek = some 16 ∧
    IsHourDigits ['8'] ∧ IsHourDigits ['1', '6'] ∧
    dayHours (some (hourRange ['8'] ['1', '6'])) = 8 :=
  have h7 : ∀ day ∈ days, (sampleWeek.days.get day).isSome = true := by decide
  have h8 : IsHourDigits ['8'] := ⟨Or.inl rfl, by decide⟩
  have h16 : IsHourDigits ['1', '6'] := ⟨Or.inr rfl, by decide⟩
  ⟨h7, (calculateTotalHours_spec.2.1 sampleWeek h7).1.trans (by decide), h8, h16,
    (calculateTotalHours_spec.2.2.1 ['8'] ['1', '6'] h8 h16).trans (by decide)⟩

/-! ## Week and date arithmetic -/

theorem yearFromDay_spec (day : Int) :
    dayFromYear (yearFromDay day) ≤ day ∧ day < dayFromYear (yearFromDay day + 1) := by
  unfold yearFromDay
  simp only []
  split_ifs with h1 h2
  · constructor
    · exact h1
    · unfold dayFromYear at *; omega
  · exact ⟨h2, by omega⟩
  · constructor
    · unfold dayFromYear at *; omega
    · rw [show 1970 + 400 * day / 146097 - 1 + 1 = 1970 + 400 * day / 146097 by ring]; omega

theorem dayFromYear_lt {y z : Int} (h : y < z) : dayFromYear y < dayFromYear z := by
  unfold dayFromYear; omega

theorem yearFromDay_unique {day y : Int} (h1 : dayFromYear y ≤ day)
    (h2 : day < dayFromYear (y + 1)) : yearFromDay day = y := by
  obtain ⟨h3, h4⟩ := yearFromDay_spec day
  by_contra hne
  rcases lt_or_gt_of_ne hne with h | h
  · have : yearFromDay day + 1 ≤ y := h
    rcases this.lt_or_eq with h5 | h5
    · have := dayFromYear_lt h5; omega
    · rw [h5] at h4; omega
  · have : y + 1 ≤ yearFromDay day := h
    rcases this.lt_or_eq with h5 | h5
    · have := dayFromYear_lt h5; omega
    · rw [← h5] at h3; omega

theorem dayFromYear_succ (y : Int) : dayFromYear (y + 1) = dayFromYear y + daysInYear y := by
  unfold dayFromYear daysInYear
  split_ifs <;> omega

theorem ite_month_range {c : Prop} [Decidable c] {a b : Int}
    (ha : 0 ≤ a ∧ a ≤ 11) (hb : 0 ≤ b ∧ b ≤ 11) :
    0 ≤ (if c then a else b) ∧ (if c then a else b) ≤ 11 := by
  by_cases h : c
  · rw [if_pos h]; exact ha
  · rw [if_neg h]; exact hb

theorem monthOfDayWithinYear_range (leap dayWithinYear : Int) :
    0 ≤ monthOfDayWithinYear leap dayWithinYear ∧ monthOfDayWithinYear leap dayWithinYear ≤ 11 := by
  unfold monthOfDayWithinYear
  repeat' apply ite_month_range
  all_goals decide

theorem monthFromDay_range (day : Int) : 0 ≤ monthFromDay day ∧ monthFromDay day ≤ 11 :=
  monthOfDayWithinYear_range _ _

theorem makeDay_dateFromDay (day k : Int) :
    makeDay (yearFromDay day) (monthFromDay day) (dateFromDay day + k) = day + k := by
  obtain ⟨h0, h11⟩ := monthFromDay_range day
  have h1 : monthFromDay day / 12 = 0 := by omega
  have h2 : monthFromDay day % 12 = monthFromDay day := by omega
  unfold makeDay dateFromDay
  simp only [h1, h2, add_zero]
  omega

theorem makeDay_january (year date : Int) : makeDay year 0 date = dayFromYear year + date - 1 := by
  simp [makeDay, monthStart]

theorem dayNumber_midnight (n : Int) : (JsDate.mk (n * msPerDay)).dayNumber = n := by
  simp [JsDate.dayNumber, msPerDay]

theorem timeWithinDay_midnight (n : Int) : (JsDate.mk (n * msPerDay)).timeWithinDay = 0 := by
  simp [JsDate.timeWithinDay, msPerDay]

theorem setDate_midnight (n k : Int) :
    (JsDate.mk (n * msPerDay)).setDate ((JsDate.mk (n * msPerDay)).getDate + k) =
      JsDate.mk ((n + k) * msPerDay) := by
  simp only [JsDate.setDate, JsDate.getFullYear, JsDate.getMonth, JsDate.getDate,
    dayNumber_midnight, timeWithinDay_midnight, makeDay_dateFromDay, add_zero]

theorem thursday_of_getDay (n : Int) : n + 4 - orSeven ((n + 4) % 7) = thursdayOfWeek n := by
  unfold orSeven thursdayOfWeek mondayOfWeek isoWeekday
  split_ifs <;> omega

theorem mathCeil_days (m : Int) :
    ⌈(((m * msPerDay : Int) : ℚ) / 86400000 + 1) / 7⌉ = (m + 7) / 7 := by
  rw [Int.ceil_eq_iff]
  have h1 : (((m * msPerDay : Int) : ℚ) / 86400000 + 1) / 7 = ((m : ℚ) + 1) / 7 := by
    simp [msPerDay]
  rw [h1]
  have h2 := Int.emod_add_ediv (m + 7) 7
  have h3 := Int.emod_nonneg (m + 7) (by norm_num : (7 : Int) ≠ 0)
  have h4 := Int.emod_lt_of_pos (m + 7) (by norm_num : (0 : Int) < 7)
  constructor
  · rw [lt_div_iff₀ (by norm_num : (0 : ℚ) < 7)]
    have : ((m + 7) / 7 - 1) * 7 < m + 1 := by omega
    exact_mod_cast this
  · rw [div_le_iff₀ (by norm_num : (0 : ℚ) < 7)]
    have : m + 1 ≤ (m + 7) / 7 * 7 := by omega
    exact_mod_cast this

theorem mathCeil_ms (x : Int) :
    ⌈((x : ℚ) / 86400000 + 1) / 7⌉ = (x + 691199999) / 604800000 := by
  rw [Int.ceil_eq_iff]
  have h1 : ((x : ℚ) / 86400000 + 1) / 7 = ((x : ℚ) + 86400000) / 604800000 := by
    ring
  rw [h1]
  have h2 := Int.emod_add_ediv (x + 691199999) 604800000
  have h3 := Int.emod_nonneg (x + 691199999) (by norm_num : (604800000 : Int) ≠ 0)
  have h4 := Int.emod_lt_of_pos (x + 691199999) (by norm_num : (0 : Int) < 604800000)
  constructor
  · rw [lt_div_iff₀ (by norm_num : (0 : ℚ) < 604800000)]
    have : ((x + 691199999) / 604800000 - 1) * 604800000 < x + 86400000 := by omega
    exact_mod_cast this
  · rw [div_le_iff₀ (by norm_num : (0 : ℚ) < 604800000)]
    have : x + 86400000 ≤ (x + 691199999) / 604800000 * 604800000 := by omega
    exact_mod_cast this

/-- The week number computed by `getWeekNumber`, in integer arithmetic: the
days from 1 January to the Thursday of the week, less the change of the offset
of the zone between the two midnights, rounded up to whole weeks. -/
theorem getWeekNumber_eq (tz : TimeZone) (date : JsDate) :
    getWeekNumber tz date =
      ((thursdayOfWeek date.dayNumber -
          dayFromYear (if 0 ≤ isoYear date.dayNumber ∧ isoYear date.dayNumber ≤ 99
            then 1900 + isoYear date.dayNumber else isoYear date.dayNumber)) * 86400000 -
        (tz.offset (thursdayOfWeek date.dayNumber * msPerDay) -
          tz.offset (dayFromYear (if 0 ≤ isoYear date.dayNumber ∧ isoYear date.dayNumber ≤ 99
            then 1900 + isoYear date.dayNumber else isoYear date.dayNumber) * msPerDay)) +
        691199999) / 604800000 := by
  unfold getWeekNumber
  simp only [JsDate.getTime, JsDate.setHoursZero]
  rw [show (JsDate.mk (date.dayNumber * msPerDay)).getDate + 4 -
        orSeven (JsDate.mk (date.dayNumber * msPerDay)).getDay =
      (JsDate.mk (date.dayNumber * msPerDay)).getDate +
        (4 - orSeven (JsDate.mk (date.dayNumber * msPerDay)).getDay) by ring]
  rw [setDate_midnight]
  simp only [JsDate.getDay, dayNumber_midnight]
  rw [show date.dayNumber + (4 - orSeven ((date.dayNumber + 4) % 7)) =
      date.dayNumber + 4 - orSeven ((date.dayNumber + 4) % 7) by ring, thursday_of_getDay]
  simp only [JsDate.getFullYear, dayNumber_midnight, JsDate.ofYMD, makeDay_january]
  rw [mathCeil_ms]
  simp only [isoYear, msPerDay]
  congr 1
  ring_nf

/-- In a zone whose offset does not change, the week number computed by
`getWeekNumber` is the number of days from 1 January to the Thursday of the
week, in whole weeks. -/
theorem getWeekNumber_fixed (tz : TimeZone) (hfix : ∀ a b, tz.offset a = tz.offset b)
    (date : JsDate) :
    getWeekNumber tz date =
      (thursdayOfWeek date.dayNumber -
        dayFromYear (if 0 ≤ isoYear date.dayNumber ∧ isoYear date.dayNumber ≤ 99
          then 1900 + isoYear date.dayNumber else isoYear date.dayNumber) + 7) / 7 := by
  rw [getWeekNumber_eq,
    hfix (thursdayOfWeek date.dayNumber * msPerDay)
      (dayFromYear (if 0 ≤ isoYear date.dayNumber ∧ isoYear date.dayNumber ≤ 99
        then 1900 + isoYear date.dayNumber else isoYear date.dayNumber) * msPerDay)]
  omega

theorem getWeekNumber_utc (date : JsDate) :
    getWeekNumber TimeZone.utc date =
      (thursdayOfWeek date.dayNumber -
        dayFromYear (if 0 ≤ isoYear date.dayNumber ∧ isoYear date.dayNumber ≤ 99
          then 1900 + isoYear date.dayNumber else isoYear date.dayNumber) + 7) / 7 :=
  getWeekNumber_fixed TimeZone.utc (fun _ _ => rfl) date

/-- The week number of a date whose Thursday is one to three days after the
1 January of its year is 1 in every zone. -/
theorem getWeekNumber_first (tz : TimeZone) (date : JsDate) (yr : Int)
    (hyr : (if 0 ≤ isoYear date.dayNumber ∧ isoYear date.dayNumber ≤ 99
      then 1900 + isoYear date.dayNumber else isoYear date.dayNumber) = yr)
    (h0 : dayFromYear yr + 1 ≤ thursdayOfWeek date.dayNumber)
    (h3 : thursdayOfWeek date.dayNumber ≤ dayFromYear yr + 3) :
    getWeekNumber tz date = 1 := by
  rw [getWeekNumber_eq, hyr]
  have b1 := tz.bound (thursdayOfWeek date.dayNumber * msPerDay)
  have b2 := tz.bound (dayFromYear yr * msPerDay)
  omega

/-- The week number of a date whose Thursday is the 1 January of its year is 1
in every zone. -/
theorem getWeekNumber_first_day (tz : TimeZone) (date : JsDate) (yr : Int)
    (hyr : (if 0 ≤ isoYear date.dayNumber ∧ isoYear date.dayNumber ≤ 99
      then 1900 + isoYear date.dayNumber else isoYear date.dayNumber) = yr)
    (h0 : thursdayOfWeek date.dayNumber = dayFromYear yr) :
    getWeekNumber tz date = 1 := by
  rw [getWeekNumber_eq, hyr, h0]
  omega

theorem firstThursday_spec (y : Int) :
    isoWeekday (firstThursday y) = 3 ∧ dayFromYear y ≤ firstThursday y ∧
      firstThursday y < dayFromYear y + 7 := by
  unfold firstThursday isoWeekday
  omega

/-- The two dates computed by `getWeekDateRange`, in integer arithmetic. -/
theorem getWeekDateRange_eq (year week : Int) :
    getWeekDateRange year week =
      (JsDate.mk ((firstThursday (if 0 ≤ year ∧ year ≤ 99 then 1900 + year else year)
          - 3 + (week - 1) * 7) * msPerDay),
       JsDate.mk ((firstThursday (if 0 ≤ year ∧ year ≤ 99 then 1900 + year else year)
          + 3 + (week - 1) * 7) * msPerDay)) := by
  unfold getWeekDateRange
  simp only [JsDate.ofYMD, makeDay_january, JsDate.getDay, dayNumber_midnight]
  generalize (if 0 ≤ year ∧ year ≤ 99 then 1900 + year else year) = yr
  have hk : dayFromYear yr + (1 + (4 - orSeven ((dayFromYear yr + 1 - 1 + 4) % 7) + 7) % 7) - 1 =
      firstThursday yr := by
    unfold firstThursday isoWeekday orSeven
    split_ifs <;> omega
  rw [hk]
  rw [show (JsDate.mk (firstThursday yr * msPerDay)).getDate - 3 + (week - 1) * 7 =
      (JsDate.mk (firstThursday yr * msPerDay)).getDate + (-3 + (week - 1) * 7) by ring,
    setDate_midnight, setDate_midnight]
  congr 3 <;> ring

theorem getDay_midnight (n : Int) : (JsDate.mk (n * msPerDay)).getDay = (n + 4) % 7 := by
  simp [JsDate.getDay, dayNumber_midnight]

/-- Where `getWeekNumber` is right: in a zone whose offset does not change, for
a date whose ISO year (the calendar year of the Thursday of its week) is not one
of the years 0 to 99, `getWeekNumber` is the ISO-8601 week number of the date. -/
theorem getWeekNumber_isoWeek (tz : TimeZone) (hfix : ∀ a b, tz.offset a = tz.offset b)
    (date : JsDate)
    (h : ¬ (0 ≤ isoYear date.dayNumber ∧ isoYear date.dayNumber ≤ 99)) :
    getWeekNumber tz date = isoWeek date.dayNumber := by
  rw [getWeekNumber_fixed tz hfix, if_neg h]
  unfold isoWeek
  have hs := yearFromDay_spec (thursdayOfWeek date.dayNumber)
  have hy : isoYear date.dayNumber = yearFromDay (thursdayOfWeek date.dayNumber) := rfl
  rw [← hy] at hs
  obtain ⟨h1, -⟩ := hs
  generalize isoYear date.dayNumber = y at *
  generalize date.dayNumber = n at *
  unfold firstThursday mondayOfWeek isoWeekday
  unfold thursdayOfWeek mondayOfWeek isoWeekday at h1 ⊢
  generalize dayFromYear y = j at *
  omega

/-- For 1 June of the year 50 the week's Thursday falls in year 50, whose
1 January the constructor `new Date(50, 0, 1)` reads as 1 January 1950: in UTC
`getWeekNumber` returns -99115 while the ISO week number is 22. -/
theorem getWeekNumber_two_digit_year :
    getWeekNumber TimeZone.utc (civil 50 5 1) = -99115 ∧
    isoWeek (civil 50 5 1).dayNumber = 22 := by
  rw [getWeekNumber_utc]
  decide

/-- C2, at the failing input. In the zone Africa/Casablanca, Monday 12 April
2021 lies in ISO week 15 of 2021: the Thursday of its week is 15 April, the
105th day of the year.  The zone is at UTC+1 on 1 January and at UTC+0 on
15 April, so the two local midnights are 104 days and one hour apart, and
`getWeekNumber` rounds 105 days and one hour up to 16 weeks. -/
theorem getWeekNumber_casablanca :
    (civil 2021 3 12).getDay = 1 ∧
    isoYear (civil 2021 3 12).dayNumber = 2021 ∧
    isoWeek (civil 2021 3 12).dayNumber = 15 ∧
    casablanca.offset (civil 2021 0 1).localTime = 3600000 ∧
    casablanca.offset (civil 2021 3 15).localTime = 0 ∧
    (civil 2021 3 15).getTime casablanca - (civil 2021 0 1).getTime casablanca =
      104 * 86400000 + 3600000 ∧
    getWeekNumber casablanca (civil 2021 3 12) = 16 := by
  rw [getWeekNumber_eq]
  decide

/-- In every zone `getWeeksInYear 2024` is 1: the Thursday of the week of
31 December 2024 is 2 January 2025. -/
theorem getWeeksInYear_2024_one (tz : TimeZone) : getWeeksInYear tz 2024 = 1 :=
  getWeekNumber_first tz (JsDate.ofYMD 2024 11 31) 2025 (by decide) (by decide) (by decide)

/-- C3, at the failing input. 31 December 2024 is a Tuesday and belongs to week
1 of 2025, so `getWeeksInYear 2024` is 1, in every time zone, although 2024 has
52 ISO weeks; the same happens for 2025, and more generally (computed in UTC)
the result is 1 for 2024, 2025, 2029, 2030 and 2031 among the years 2020 to
2031. -/
theorem getWeeksInYear_2024 (tz : TimeZone) :
    getWeeksInYear tz 2024 = 1 ∧ isoWeeksInYear 2024 = 52 ∧
    (JsDate.ofYMD 2024 11 31).getDay = 2 ∧
    getWeeksInYear tz 2025 = 1 ∧
    (List.range 12).map (fun i => getWeeksInYear TimeZone.utc (2020 + (i : Int))) =
      [53, 52, 52, 52, 1, 1, 53, 52, 52, 1, 1, 1] := by
  refine ⟨getWeeksInYear_2024_one tz, by decide, by decide, ?_, ?_⟩
  · exact getWeekNumber_first_day tz (JsDate.ofYMD 2025 11 31) 2026 (by decide) (by decide)
  · simp only [getWeeksInYear, getWeekNumber_utc]
    decide

/-- C4, as amended. For every year `Y` outside 0..99 and every week `w` from 1
to the number of ISO weeks of `Y`, the two dates of `getWeekDateRange Y w` are
the local midnights of a Monday and of the Sunday six days later, and the days
from the first to the second are exactly the days of ISO week `w` of ISO year
`Y`; the first date is the Monday of the week of the year's first Thursday moved
by `w - 1` whole weeks, wherever that falls (also in December of `Y - 1` or, for
the last day, in January of `Y + 1`). -/
theorem getWeekDateRange_isoWeek (Y w : Int) (hY : ¬ (0 ≤ Y ∧ Y ≤ 99))
    (h1 : 1 ≤ w) (h2 : w ≤ isoWeeksInYear Y) :
    (getWeekDateRange Y w).1.getDay = 1 ∧
    (getWeekDateRange Y w).2.getDay = 0 ∧
    (getWeekDateRange Y w).1.timeWithinDay = 0 ∧
    (getWeekDateRange Y w).2.timeWithinDay = 0 ∧
    (getWeekDateRange Y w).2.dayNumber = (getWeekDateRange Y w).1.dayNumber + 6 ∧
    (getWeekDateRange Y w).1.dayNumber = mondayOfWeek (firstThursday Y) + 7 * (w - 1) ∧
    (∀ day : Int,
      ((getWeekDateRange Y w).1.dayNumber ≤ day ∧ day ≤ (getWeekDateRange Y w).2.dayNumber) ↔
        (isoYear day = Y ∧ isoWeek day = w)) := by
  rw [getWeekDateRange_eq, if_neg hY]
  simp only [getDay_midnight, timeWithinDay_midnight, dayNumber_midnight]
  obtain ⟨ht, hlo, hhi⟩ := firstThursday_spec Y
  obtain ⟨ht', hlo', hhi'⟩ := firstThursday_spec (Y + 1)
  have hlt : dayFromYear Y < dayFromYear (Y + 1) := dayFromYear_lt (by omega)
  unfold isoWeeksInYear at h2
  refine ⟨?_, ?_, trivial, trivial, by ring, ?_, ?_⟩
  · unfold isoWeekday at ht; omega
  · unfold isoWeekday at ht; omega
  · unfold mondayOfWeek; omega
  · intro day
    constructor
    · rintro ⟨hd1, hd2⟩
      have hthu : thursdayOfWeek day = firstThursday Y + (w - 1) * 7 := by
        unfold thursdayOfWeek mondayOfWeek isoWeekday at *
        omega
      have hyear : isoYear day = Y := by
        unfold isoYear
        apply yearFromDay_unique
        · rw [hthu]; omega
        · rw [hthu]
          unfold mondayOfWeek isoWeekday at h2
          unfold isoWeekday at ht ht'
          omega
      refine ⟨hyear, ?_⟩
      unfold isoWeek
      rw [hyear]
      unfold thursdayOfWeek at hthu
      unfold mondayOfWeek isoWeekday at *
      omega
    · rintro ⟨hyear, hweek⟩
      unfold isoWeek at hweek
      rw [hyear] at hweek
      unfold mondayOfWeek isoWeekday at *
      omega

/-- C4, witness: week 1 of 2026 runs from Monday 29 December 2025 to Sunday
4 January 2026. -/
theorem getWeekDateRange_isoWeek_witness :
    ¬ (0 ≤ (2026 : Int) ∧ (2026 : Int) ≤ 99) ∧ (1 : Int) ≤ 1 ∧ 1 ≤ isoWeeksInYear 2026 ∧
    getWeekDateRange 2026 1 = (civil 2025 11 29, civil 2026 0 4) ∧
    (getWeekDateRange 2026 1).1.getDay = 1 ∧
    (getWeekDateRange 2026 1).2.dayNumber = (getWeekDateRange 2026 1).1.dayNumber + 6 :=
  have h := getWeekDateRange_isoWeek 2026 1 (by decide) (by decide) (by decide)
  ⟨by decide, by decide, by decide, by decide, h.1, h.2.2.2.2.1⟩

/-- C4, counterexample. `getWeekDateRange 50 1` is week 1 of 1950 (2 to 8
January 1950), not week 1 of ISO year 50, because `new Date(50, 0, 1)` is
1 January 1950. -/
theorem getWeekDateRange_two_digit_year :
    (1 : Int) ≤ 1 ∧ 1 ≤ isoWeeksInYear 50 ∧
    getWeekDateRange 50 1 = (civil 1950 0 2, civil 1950 0 8) ∧
    isoYear (getWeekDateRange 50 1).1.dayNumber = 1950 ∧
    ¬ (∀ day : Int,
      ((getWeekDateRange 50 1).1.dayNumber ≤ day ∧ day ≤ (getWeekDateRange 50 1).2.dayNumber) ↔
        (isoYear day = 50 ∧ isoWeek day = 1)) := by
  refine ⟨by decide, by decide, by decide, by decide, ?_⟩
  intro h
  have := (h (civil 1950 0 2).dayNumber).1 (by decide)
  revert this
  decide

/-- Where the span of the week number is right: in a zone whose offset does not
change, for every date `D`, with `y` the year of the Thursday of the week of
`D`, the span of `getWeekDateRange y (getWeekNumber D)` contains `D`: its first
date is the midnight that starts the Monday of the week of `D` and its second
date the midnight that starts the Sunday of that week. -/
theorem getWeekDateRange_contains (tz : TimeZone) (hfix : ∀ a b, tz.offset a = tz.offset b)
    (date : JsDate) :
    (getWeekDateRange (isoYear date.dayNumber) (getWeekNumber tz date)).1.dayNumber
        ≤ date.dayNumber ∧
    date.dayNumber
        ≤ (getWeekDateRange (isoYear date.dayNumber) (getWeekNumber tz date)).2.dayNumber ∧
    (getWeekDateRange (isoYear date.dayNumber) (getWeekNumber tz date)).1.localTime
        ≤ date.localTime ∧
    date.localTime <
      (getWeekDateRange (isoYear date.dayNumber) (getWeekNumber tz date)).2.localTime
        + msPerDay ∧
    (getWeekDateRange (isoYear date.dayNumber) (getWeekNumber tz date)).1.dayNumber =
      mondayOfWeek date.dayNumber ∧
    (getWeekDateRange (isoYear date.dayNumber) (getWeekNumber tz date)).2.dayNumber =
      mondayOfWeek date.dayNumber + 6 := by
  rw [getWeekDateRange_eq, getWeekNumber_fixed tz hfix]
  simp only [dayNumber_midnight]
  have hy : isoYear date.dayNumber = yearFromDay (thursdayOfWeek date.dayNumber) := rfl
  generalize hyr : (if 0 ≤ isoYear date.dayNumber ∧ isoYear date.dayNumber ≤ 99
    then 1900 + isoYear date.dayNumber else isoYear date.dayNumber) = yr
  obtain ⟨ht, hlo, hhi⟩ := firstThursday_spec yr
  have hday : date.dayNumber * msPerDay ≤ date.localTime ∧
      date.localTime < date.dayNumber * msPerDay + msPerDay := by
    unfold JsDate.dayNumber msPerDay
    omega
  generalize date.dayNumber = n at *
  unfold thursdayOfWeek mondayOfWeek isoWeekday at *
  unfold msPerDay at *
  generalize dayFromYear yr = j at *
  generalize firstThursday yr = f at *
  omega

/-- C5, at the failing input. In the zone Africa/Casablanca, for Monday
12 April 2021, whose week has its Thursday in 2021, `getWeekNumber` is 16 and
the span of `getWeekDateRange 2021 16` runs from Monday 19 April to Sunday
25 April 2021: it starts a week after the date and does not contain it. -/
theorem getWeekDateRange_casablanca :
    isoYear (civil 2021 3 12).dayNumber = 2021 ∧
    getWeekDateRange (isoYear (civil 2021 3 12).dayNumber)
        (getWeekNumber casablanca (civil 2021 3 12)) =
      (civil 2021 3 19, civil 2021 3 25) ∧
    (civil 2021 3 12).dayNumber <
      (getWeekDateRange (isoYear (civil 2021 3 12).dayNumber)
        (getWeekNumber casablanca (civil 2021 3 12))).1.dayNumber := by
  rw [getWeekNumber_eq]
  decide

/-- C6, at the failing input. `getWeeksInYear 2024` is 1, in every time zone,
so the span of `getWeekDateRange 2024 (getWeeksInYear 2024)` is 1 to 7 January
2024 and ends long before 25 December 2024. -/
theorem getWeekDateRange_last_2024 (tz : TimeZone) :
    getWeekDateRange 2024 (getWeeksInYear tz 2024) = (civil 2024 0 1, civil 2024 0 7) ∧
    (getWeekDateRange 2024 (getWeeksInYear tz 2024)).2.dayNumber
      < (civil 2024 11 25).dayNumber := by
  rw [getWeeksInYear_2024_one]
  decide

theorem dayNumber_lastDayOfYear (Y : Int) (hY : ¬ (0 ≤ Y ∧ Y ≤ 99)) :
    (JsDate.ofYMD Y 11 31).dayNumber = dayFromYear (Y + 1) - 1 := by
  unfold JsDate.ofYMD
  rw [if_neg hY, dayNumber_midnight, dayFromYear_succ]
  unfold makeDay inLeapYear daysInYear
  have h1 : (11 : Int) / 12 = 0 := by decide
  have h2 : (11 : Int) % 12 = 11 := by decide
  simp only [h1, h2, add_zero]
  have h3 : ∀ leap : Int, monthStart leap 11 = 334 + leap := by
    intro leap
    unfold monthStart
    simp
  rw [h3]
  split_ifs <;> omega

/-- What `getWeeksInYear` returns for a year from 100 on, in a zone whose offset
does not change: 1 when 31 December is
a Monday, Tuesday or Wednesday (the day then belongs to week 1 of the next
year), and the number of ISO weeks of the year, 52 or 53, otherwise. -/
theorem getWeeksInYear_eq (tz : TimeZone) (hfix : ∀ a b, tz.offset a = tz.offset b)
    (Y : Int) (hY : 100 ≤ Y) :
    getWeeksInYear tz Y =
      (if isoWeekday (dayFromYear (Y + 1) - 1) ≤ 2 then 1 else isoWeeksInYear Y) ∧
    (isoWeeksInYear Y = 52 ∨ isoWeeksInYear Y = 53) := by
  have hY' : ¬ (0 ≤ Y ∧ Y ≤ 99) := by omega
  unfold getWeeksInYear
  simp only []
  rw [getWeekNumber_fixed tz hfix, dayNumber_lastDayOfYear Y hY']
  have hsucc := dayFromYear_succ Y
  have hsucc2 := dayFromYear_succ (Y + 1)
  have hdays : daysInYear Y = 365 ∨ daysInYear Y = 366 := by
    unfold daysInYear; split_ifs <;> simp
  have hdays2 : daysInYear (Y + 1) = 365 ∨ daysInYear (Y + 1) = 366 := by
    unfold daysInYear; split_ifs <;> simp
  obtain ⟨ht, hlo, hhi⟩ := firstThursday_spec Y
  obtain ⟨ht', hlo', hhi'⟩ := firstThursday_spec (Y + 1)
  by_cases hw : isoWeekday (dayFromYear (Y + 1) - 1) ≤ 2
  · have hyear : isoYear (dayFromYear (Y + 1) - 1) = Y + 1 := by
      unfold isoYear
      apply yearFromDay_unique
      · unfold thursdayOfWeek mondayOfWeek isoWeekday at *; omega
      · rw [show Y + 1 + 1 = (Y + 1) + 1 by ring, hsucc2]
        unfold thursdayOfWeek mondayOfWeek isoWeekday at *; omega
    rw [hyear, if_pos hw, if_neg (by omega)]
    refine ⟨?_, ?_⟩
    · unfold thursdayOfWeek mondayOfWeek isoWeekday at *; omega
    · unfold isoWeeksInYear mondayOfWeek isoWeekday at *; omega
  · have hyear : isoYear (dayFromYear (Y + 1) - 1) = Y := by
      unfold isoYear
      apply yearFromDay_unique
      · unfold thursdayOfWeek mondayOfWeek isoWeekday at *; omega
      · unfold thursdayOfWeek mondayOfWeek isoWeekday at *; omega
    rw [hyear, if_neg hw, if_neg hY']
    refine ⟨?_, ?_⟩
    · unfold isoWeeksInYear thursdayOfWeek mondayOfWeek isoWeekday at *; omega
    · unfold isoWeeksInYear mondayOfWeek isoWeekday at *; omega

/-! ## Dictionaries -/

theorem Dict.get_nil {α : Type} (key : String) : Dict.get ([] : Dict α) key = none := rfl

theorem Dict.get_cons {α : Type} (k : String) (v : α) (rest : Dict α) (key : String) :
    Dict.get ((k, v) :: rest) key = if k = key then some v else Dict.get rest key := by
  unfold Dict.get
  by_cases h : k = key
  · simp [List.find?, h]
  · have hb : (k == key) = false := by simpa using h
    simp [List.find?, h, hb]

theorem Dict.get_set {α : Type} (obj : Dict α) (key : String) (v : α) (key' : String) :
    (obj.set key v).get key' = if key = key' then some v else obj.get key' := by
  induction obj with
  | nil => simp [Dict.set, Dict.get_cons, Dict.get_nil]
  | cons kv rest ih =>
      obtain ⟨k, w⟩ := kv
      by_cases h : k = key
      · subst h
        simp only [Dict.set, beq_self_eq_true, if_true, Dict.get_cons]
        split_ifs <;> rfl
      · have hb : (k == key) = false := by simpa using h
        have hs : Dict.set ((k, w) :: rest) key v = (k, w) :: Dict.set rest key v := by
          simp [Dict.set, hb]
        rw [hs, Dict.get_cons, Dict.get_cons, ih]
        by_cases h2 : k = key'
        · have : key ≠ key' := fun h3 => h (h2.trans h3.symm)
          simp [h2, this]
        · simp [h2]

theorem Dict.keys_set {α : Type} (obj : Dict α) (key : String) (v : α) :
    (obj.set key v).map Prod.fst =
      if key ∈ obj.map Prod.fst then obj.map Prod.fst else obj.map Prod.fst ++ [key] := by
  induction obj with
  | nil => simp [Dict.set]
  | cons kv rest ih =>
      obtain ⟨k, w⟩ := kv
      by_cases h : k = key
      · subst h
        simp [Dict.set]
      · have hb : (k == key) = false := by simpa using h
        have hne : ¬ key = k := fun h3 => h h3.symm
        have hs : Dict.set ((k, w) :: rest) key v = (k, w) :: Dict.set rest key v := by
          simp [Dict.set, hb]
        rw [hs]
        simp only [List.map_cons, ih, List.mem_cons, hne, false_or]
        split_ifs <;> simp

theorem Dict.nodup_keys_set {α : Type} (obj : Dict α) (key : String) (v : α)
    (h : (obj.map Prod.fst).Nodup) : ((obj.set key v).map Prod.fst).Nodup := by
  rw [Dict.keys_set]
  split_ifs with hk
  · exact h
  · exact List.Nodup.append h (List.nodup_singleton key) (by simpa using hk)

theorem Dict.mem_of_get {α : Type} {obj : Dict α} {key : String} {v : α}
    (h : obj.get key = some v) : (key, v) ∈ obj := by
  induction obj with
  | nil => simp [Dict.get_nil] at h
  | cons kv rest ih =>
      obtain ⟨k, w⟩ := kv
      rw [Dict.get_cons] at h
      by_cases hk : k = key
      · simp only [hk, if_true, Option.some.injEq] at h
        simp [hk, h]
      · simp only [hk, if_false] at h
        exact List.mem_cons_of_mem _ (ih h)

theorem Dict.get_of_mem {α : Type} {obj : Dict α} {key : String} {v : α}
    (hn : (obj.map Prod.fst).Nodup) (h : (key, v) ∈ obj) : obj.get key = some v := by
  induction obj with
  | nil => simp at h
  | cons kv rest ih =>
      obtain ⟨k, w⟩ := kv
      rw [Dict.get_cons]
      simp only [List.map_cons, List.nodup_cons, List.mem_map, not_exists, not_and] at hn
      rcases List.mem_cons.mp h with h1 | h1
      · simp only [Prod.mk.injEq] at h1
        simp [h1.1, h1.2]
      · have hk : k ≠ key := fun hk => hn.1 (key, v) h1 hk.symm
        simp only [hk, if_false]
        exact ih hn.2 h1

theorem Dict.get_isSome_iff {α : Type} (obj : Dict α) (key : String) :
    (obj.get key).isSome = true ↔ key ∈ obj.map Prod.fst := by
  induction obj with
  | nil => simp [Dict.get_nil]
  | cons kv rest ih =>
      obtain ⟨k, w⟩ := kv
      rw [Dict.get_cons]
      by_cases hk : k = key
      · simp [hk]
      · have : ¬ key = k := fun h => hk h.symm
        simp [hk, ih, this]

theorem Dict.values_perm {α : Type} (obj : Dict α) :
    List.Perm obj.values (obj.map Prod.snd) := by
  unfold Dict.values
  have h1 : List.Perm
      (((obj.filterMap (fun kv => (arrayIndex? kv.1).map (fun i => (i, kv.2)))).insertionSort
        (fun a b => a.1 ≤ b.1)).map (fun p => p.2))
      ((obj.filter (fun kv => (arrayIndex? kv.1).isSome)).map (fun kv => kv.2)) := by
    refine (List.Perm.map _ (List.perm_insertionSort _ _)).trans ?_
    apply List.Perm.of_eq
    induction obj with
    | nil => rfl
    | cons kv rest ih =>
        cases hx : arrayIndex? kv.1 <;> simp [List.filterMap_cons, List.filter_cons, hx, ih]
  refine (List.Perm.append_right _ h1).trans ?_
  rw [← List.map_append]
  apply List.Perm.map
  have := List.filter_append_perm (fun kv : String × α => (arrayIndex? kv.1).isSome) obj
  refine List.Perm.trans ?_ this
  apply List.Perm.of_eq
  congr 1
  apply List.filter_congr
  intro x _
  cases arrayIndex? x.1 <;> rfl

theorem Dict.mem_values {α : Type} (obj : Dict α) (v : α) :
    v ∈ obj.values ↔ ∃ key, (key, v) ∈ obj := by
  rw [(Dict.values_perm obj).mem_iff]
  simp

/-! ## Plan + attendance merge -/

theorem lastWhere_nil {α : Type} (p : α → Bool) : lastWhere p ([] : List α) = none := rfl

theorem lastWhere_append_singleton {α : Type} (p : α → Bool) (l : List α) (a : α) :
    lastWhere p (l ++ [a]) = if p a = true then some a else lastWhere p l := by
  unfold lastWhere
  by_cases h : p a = true
  · simp [List.filter_append, h]
  · simp [List.filter_append, h]

theorem lastWhere_eq_none {α : Type} (p : α → Bool) (l : List α) :
    lastWhere p l = none ↔ ∀ a ∈ l, p a = false := by
  unfold lastWhere
  rw [List.getLast?_eq_none_iff, List.filter_eq_nil_iff]
  simp

theorem lastWhere_some {α : Type} {p : α → Bool} {l : List α} {a : α}
    (h : lastWhere p l = some a) : a ∈ l ∧ p a = true := by
  unfold lastWhere at h
  have := List.mem_of_getLast?_eq_some h
  simpa using this

theorem displayName_ne_proto (nom prenom : String) : displayName nom prenom ≠ "__proto__" := by
  intro h
  have h1 := congrArg String.data h
  have h2 : ' ' ∈ (displayName nom prenom).data := by
    simp [displayName, String.data_append]
  rw [h1] at h2
  revert h2
  decide

theorem scheduleDays_eq (schedule : Schedule) :
    scheduleDays schedule =
      [("Lundi", ⟨orNonDefini schedule.monday, none⟩),
       ("Mardi", ⟨orNonDefini schedule.tuesday, none⟩),
       ("Mercredi", ⟨orNonDefini schedule.wednesday, none⟩),
       ("Jeudi", ⟨orNonDefini schedule.thursday, none⟩),
       ("Vendredi", ⟨orNonDefini schedule.friday, none⟩),
       ("Samedi", ⟨orNonDefini schedule.saturday, none⟩),
       ("Dimanche", ⟨orNonDefini schedule.sunday, none⟩)] := by
  rfl

theorem blankDays_eq :
    blankDays =
      [("Lundi", ⟨"Non défini", none⟩), ("Mardi", ⟨"Non défini", none⟩),
       ("Mercredi", ⟨"Non défini", none⟩), ("Jeudi", ⟨"Non défini", none⟩),
       ("Vendredi", ⟨"Non défini", none⟩), ("Samedi", ⟨"Non défini", none⟩),
       ("Dimanche", ⟨"Non défini", none⟩)] := by
  rfl

theorem Dict.get_assign {α : Type} (obj : Dict α) (key : String) (v : α) (key' : String) :
    (obj.assign key v).get key' =
      if key = "__proto__" then obj.get key'
      else if key = key' then some v else obj.get key' := by
  unfold Dict.assign
  split_ifs <;> simp_all [Dict.get_set]

theorem Dict.nodup_keys_assign {α : Type} (obj : Dict α) (key : String) (v : α)
    (h : (obj.map Prod.fst).Nodup) : ((obj.assign key v).map Prod.fst).Nodup := by
  unfold Dict.assign
  split_ifs
  · exact h
  · exact Dict.nodup_keys_set obj key v h

/-- The first loop: the own property of a name other than `__proto__` is the
entry of the last planning with that name. -/
theorem get_foldl_mergeSchedule (employes : List Employe) (schedules : List Schedule)
    (n : String) :
    (schedules.foldl (mergeSchedule employes) []).get n =
      if n = "__proto__" then none
      else (lastWhere (fun s => s.employeeName = n) schedules).map (scheduleEntry employes) := by
  induction schedules using List.reverseRecOn with
  | nil => simp [lastWhere_nil, Dict.get_nil]
  | append_singleton l s ih =>
      rw [List.foldl_append, lastWhere_append_singleton]
      simp only [List.foldl_cons, List.foldl_nil, mergeSchedule, Dict.get_assign, ih]
      by_cases hp : n = "__proto__"
      · simp [hp]
      · by_cases hs : s.employeeName = n
        · have : s.employeeName ≠ "__proto__" := hs ▸ hp
          simp [hp, hs]
        · simp [hp, hs]

theorem nodup_foldl_mergeSchedule (employes : List Employe) (schedules : List Schedule) :
    ((schedules.foldl (mergeSchedule employes) []).map Prod.fst).Nodup := by
  induction schedules using List.reverseRecOn with
  | nil => simp
  | append_singleton l s ih =>
      rw [List.foldl_append]
      exact Dict.nodup_keys_assign _ _ _ ih

theorem recordPresence_some {entry e1 : Entry} {r : Presence}
    (h : recordPresence entry r = some e1) :
    ∃ cell, entry.days.get r.jour = some cell ∧
      e1 = { entry with
        station := if r.station.nomStation ≠ "" then some r.station.nomStation
          else entry.station
        days := entry.days.set r.jour { cell with presence := some r } } := by
  unfold recordPresence at h
  cases hc : entry.days.get r.jour with
  | none => simp [hc] at h
  | some cell =>
      simp only [hc, Option.some.injEq] at h
      exact ⟨cell, rfl, h.symm⟩

/-- One round of the second loop, seen from the property of a name. -/
theorem mergePresence_some {grouped grouped' : Dict Entry} {r : Presence}
    (h : mergePresence grouped r = some grouped') :
    ∃ e1,
      recordPresence ((grouped.get r.fullName).getD
        { employeeName := r.fullName, station := some r.station.nomStation,
          days := blankDays }) r = some e1 ∧
      (∀ n, grouped'.get n = if r.fullName = n then some e1 else grouped.get n) ∧
      ((grouped.map Prod.fst).Nodup → (grouped'.map Prod.fst).Nodup) := by
  unfold mergePresence at h
  have hp : r.fullName ≠ "__proto__" := displayName_ne_proto _ _
  change (match
      (match grouped.get r.fullName with
        | some _ => grouped
        | none => grouped.assign r.fullName
            { employeeName := r.fullName, station := some r.station.nomStation,
              days := blankDays }).get r.fullName with
    | none => none
    | some entry =>
        match recordPresence entry r with
        | none => none
        | some entry =>
            some ((match grouped.get r.fullName with
              | some _ => grouped
              | none => grouped.assign r.fullName
                  { employeeName := r.fullName, station := some r.station.nomStation,
                    days := blankDays }).set r.fullName entry)) = some grouped' at h
  cases hg : grouped.get r.fullName with
  | some e0 =>
      simp only [hg] at h
      cases hr : recordPresence e0 r with
      | none => simp [hr] at h
      | some e1 =>
          simp only [hr, Option.some.injEq] at h
          subst h
          refine ⟨e1, by simpa using hr, ?_, ?_⟩
          · intro n
            rw [Dict.get_set]
          · exact Dict.nodup_keys_set _ _ _
  | none =>
      simp only [hg, Dict.get_assign, hp, if_false, if_true] at h
      cases hr : recordPresence (Entry.mk r.fullName (some r.station.nomStation) blankDays) r with
      | none => simp [hr] at h
      | some e1 =>
          simp only [hr, Option.some.injEq] at h
          subst h
          refine ⟨e1, by simpa using hr, ?_, ?_⟩
          · intro n
            rw [Dict.get_set, Dict.get_assign]
            by_cases hn : r.fullName = n
            · simp [hn]
            · simp [hn, hp]
          · intro hnd
            exact Dict.nodup_keys_set _ _ _ (Dict.nodup_keys_assign _ _ _ hnd)

theorem MergedFrom.refl (n : String) (base : Entry) : MergedFrom n base [] base where
  name := rfl
  keys := rfl
  station := by simp [lastWhere_nil]
  cell := by
    intro d
    simp only [lastWhere_nil]
    cases base.days.get d <;> rfl

theorem MergedFrom.skip {n : String} {base e : Entry} {ps : List Presence} {r : Presence}
    (h : MergedFrom n base ps e) (hr : r.fullName ≠ n) : MergedFrom n base (ps ++ [r]) e where
  name := h.name
  keys := h.keys
  station := by
    rw [lastWhere_append_singleton, h.station]
    simp [hr]
  cell := by
    intro d
    rw [lastWhere_append_singleton, h.cell d]
    simp [hr]

theorem MergedFrom.record {n : String} {base e e1 : Entry} {ps : List Presence} {r : Presence}
    (h : MergedFrom n base ps e) (hr : r.fullName = n) (h1 : recordPresence e r = some e1) :
    MergedFrom n base (ps ++ [r]) e1 := by
  obtain ⟨cell, hcell, rfl⟩ := recordPresence_some h1
  have hkey : r.jour ∈ e.days.map Prod.fst :=
    (Dict.get_isSome_iff _ _).mp (by rw [hcell]; rfl)
  refine ⟨h.name, ?_, ?_, ?_⟩
  · show (e.days.set r.jour _).map Prod.fst = _
    rw [Dict.keys_set, if_pos hkey, h.keys]
  · show (if r.station.nomStation ≠ "" then some r.station.nomStation else e.station) = _
    rw [lastWhere_append_singleton, h.station]
    by_cases hs : r.station.nomStation = "" <;> simp [hr, hs]
  · intro d
    show (e.days.set r.jour _).get d = _
    rw [Dict.get_set, lastWhere_append_singleton]
    by_cases hd : r.jour = d
    · subst hd
      have hc := h.cell r.jour
      rw [hcell] at hc
      cases hb : base.days.get r.jour with
      | none => simp [hb] at hc
      | some c0 =>
          simp only [hb, Option.map_some', Option.some.injEq] at hc
          simp [hr, hc]
    · rw [h.cell d]
      simp [hd]

theorem MergedFrom.of_no_record {n : String} {base : Entry} {ps : List Presence}
    (h : ∀ r ∈ ps, r.fullName ≠ n) : MergedFrom n base ps base := by
  induction ps using List.reverseRecOn with
  | nil => exact MergedFrom.refl n base
  | append_singleton l r ih =>
      exact (ih (fun r' hr' => h r' (by simp [hr']))).skip (h r (by simp))

theorem recordPresence_newEntry (r : Presence) :
    recordPresence (Entry.mk r.fullName (some r.station.nomStation) blankDays) r =
      recordPresence (blankEntry r.fullName) r := by
  unfold recordPresence blankEntry
  by_cases hs : r.station.nomStation = "" <;> simp [hs]

/-- The second loop, seen from the property of a name `n`: an entry that was
there is rewritten by the records of `n`, a name without entry gets one from
its first record, and a name without entry and without record gets none. -/
theorem foldlM_mergePresence (ps : List Presence) (grouped grouped' : Dict Entry)
    (hnd : (grouped.map Prod.fst).Nodup)
    (h : ps.foldlM mergePresence grouped = some grouped') :
    (grouped'.map Prod.fst).Nodup ∧
    (∀ n e0, grouped.get n = some e0 →
      ∃ e, grouped'.get n = some e ∧ MergedFrom n e0 ps e) ∧
    (∀ n, grouped.get n = none → (∃ r ∈ ps, r.fullName = n) →
      ∃ e, grouped'.get n = some e ∧ MergedFrom n (blankEntry n) ps e) ∧
    (∀ n, grouped.get n = none → (∀ r ∈ ps, r.fullName ≠ n) → grouped'.get n = none) := by
  induction ps using List.reverseRecOn generalizing grouped' with
  | nil =>
      simp only [List.foldlM_nil, Option.pure_def, Option.some.injEq] at h
      subst h
      refine ⟨hnd, ?_, ?_, ?_⟩
      · intro n e0 h0
        exact ⟨e0, h0, MergedFrom.refl n e0⟩
      · intro n _ hex
        simp at hex
      · intro n h0 _
        exact h0
  | append_singleton l r ih =>
      rw [List.foldlM_append] at h
      cases hl : l.foldlM mergePresence grouped with
      | none => simp [hl] at h
      | some g1 =>
          simp only [hl, Option.bind_eq_bind, Option.some_bind, List.foldlM_cons,
            List.foldlM_nil, Option.pure_def, Option.bind_some] at h
          obtain ⟨hnd1, hA, hB, hC⟩ := ih g1 hl
          obtain ⟨e1, hrec, hget, hnd2⟩ := mergePresence_some h
          refine ⟨hnd2 hnd1, ?_, ?_, ?_⟩
          · intro n e0 h0
            obtain ⟨e, he, hm⟩ := hA n e0 h0
            by_cases hr : r.fullName = n
            · subst hr
              rw [he] at hrec
              exact ⟨e1, by rw [hget]; simp, hm.record rfl hrec⟩
            · exact ⟨e, by rw [hget]; simp [hr, he], hm.skip hr⟩
          · intro n h0 hex
            by_cases hr : r.fullName = n
            · subst hr
              refine ⟨e1, by rw [hget]; simp, ?_⟩
              by_cases hex' : ∃ r' ∈ l, r'.fullName = r.fullName
              · obtain ⟨e, he, hm⟩ := hB _ h0 hex'
                rw [he] at hrec
                exact hm.record rfl hrec
              · have hno : ∀ r' ∈ l, r'.fullName ≠ r.fullName := by
                  intro r' hr' heq
                  exact hex' ⟨r', hr', heq⟩
                rw [hC _ h0 hno] at hrec
                simp only [Option.getD_none] at hrec
                rw [recordPresence_newEntry] at hrec
                exact (MergedFrom.of_no_record hno).record rfl hrec
            · obtain ⟨r', hr', hn'⟩ := hex
              have hr'l : r' ∈ l := by
                rcases List.mem_append.mp hr' with h1 | h1
                · exact h1
                · simp at h1
                  exact absurd (h1 ▸ hn') hr
              obtain ⟨e, he, hm⟩ := hB n h0 ⟨r', hr'l, hn'⟩
              exact ⟨e, by rw [hget]; simp [hr, he], hm.skip hr⟩
          · intro n h0 hno
            have hr : r.fullName ≠ n := hno r (by simp)
            rw [hget]
            simp only [hr, if_false]
            exact hC n h0 (fun r' hr' => hno r' (by simp [hr']))

/-- The object `grouped` at the end of `combinedData`, name by name. -/
theorem groupedData_spec (schedules : List Schedule) (presences : List Presence)
    (employes : List Employe) (grouped : Dict Entry)
    (h : groupedData schedules presences employes = some grouped) :
    (grouped.map Prod.fst).Nodup ∧
    (∀ n p, n ≠ "__proto__" → lastWhere (fun s => s.employeeName = n) schedules = some p →
      ∃ e, grouped.get n = some e ∧ MergedFrom n (scheduleEntry employes p) presences e) ∧
    (∀ n, (n = "__proto__" ∨ lastWhere (fun s => s.employeeName = n) schedules = none) →
      (∃ r ∈ presences, r.fullName = n) →
      ∃ e, grouped.get n = some e ∧ MergedFrom n (blankEntry n) presences e) ∧
    (∀ n, (n = "__proto__" ∨ lastWhere (fun s => s.employeeName = n) schedules = none) →
      (∀ r ∈ presences, r.fullName ≠ n) → grouped.get n = none) := by
  unfold groupedData at h
  obtain ⟨hnd, hA, hB, hC⟩ :=
    foldlM_mergePresence presences _ grouped (nodup_foldl_mergeSchedule employes schedules) h
  refine ⟨hnd, ?_, ?_, ?_⟩
  · intro n p hp hplan
    apply hA
    rw [get_foldl_mergeSchedule, if_neg hp, hplan]
    rfl
  · intro n hn hex
    apply hB n _ hex
    rw [get_foldl_mergeSchedule]
    rcases hn with hn | hn
    · simp [hn]
    · simp [hn]
  · intro n hn hno
    apply hC n _ hno
    rw [get_foldl_mergeSchedule]
    rcases hn with hn | hn
    · simp [hn]
    · simp [hn]

theorem blankDays_isSome : ∀ d ∈ days, (blankDays.get d).isSome = true := by
  decide

theorem scheduleDays_isSome (schedule : Schedule) :
    ∀ d ∈ days, ((scheduleDays schedule).get d).isSome = true := by
  intro d hd
  rw [Dict.get_isSome_iff, scheduleDays_eq]
  exact hd

theorem mergePresence_total (grouped : Dict Entry) (r : Presence)
    (hinv : ∀ n e, grouped.get n = some e → ∀ d ∈ days, (e.days.get d).isSome = true)
    (hj : r.jour ∈ days) :
    ∃ grouped', mergePresence grouped r = some grouped' ∧
      ∀ n e, grouped'.get n = some e → ∀ d ∈ days, (e.days.get d).isSome = true := by
  have hp : r.fullName ≠ "__proto__" := displayName_ne_proto _ _
  have key : ∀ entry : Entry, (∀ d ∈ days, (entry.days.get d).isSome = true) →
      ∃ e1, recordPresence entry r = some e1 ∧
        ∀ d ∈ days, (e1.days.get d).isSome = true := by
    intro entry hentry
    obtain ⟨cell, hcell⟩ := Option.isSome_iff_exists.mp (hentry r.jour hj)
    refine ⟨{ entry with
        station := if r.station.nomStation ≠ "" then some r.station.nomStation
          else entry.station
        days := entry.days.set r.jour { cell with presence := some r } },
      by simp only [recordPresence, hcell], ?_⟩
    intro d hd
    show ((entry.days.set r.jour _).get d).isSome = true
    rw [Dict.get_set]
    split_ifs
    · rfl
    · exact hentry d hd
  have hsome : ∃ grouped', mergePresence grouped r = some grouped' := by
    cases hg : grouped.get r.fullName with
    | some e0 =>
        obtain ⟨e1, he1, -⟩ := key e0 (hinv _ _ hg)
        refine ⟨grouped.set r.fullName e1, ?_⟩
        show (match
          (match grouped.get r.fullName with
            | some _ => grouped
            | none => grouped.assign r.fullName
                (Entry.mk r.fullName (some r.station.nomStation) blankDays)).get r.fullName with
          | none => none
          | some entry =>
              match recordPresence entry r with
              | none => none
              | some entry =>
                  some ((match grouped.get r.fullName with
                    | some _ => grouped
                    | none => grouped.assign r.fullName
                        (Entry.mk r.fullName (some r.station.nomStation) blankDays)).set
                      r.fullName entry)) = _
        simp only [hg, he1]
    | none =>
        obtain ⟨e1, he1, -⟩ :=
          key (Entry.mk r.fullName (some r.station.nomStation) blankDays) blankDays_isSome
        refine ⟨(grouped.assign r.fullName
          (Entry.mk r.fullName (some r.station.nomStation) blankDays)).set r.fullName e1, ?_⟩
        show (match
          (match grouped.get r.fullName with
            | some _ => grouped
            | none => grouped.assign r.fullName
                (Entry.mk r.fullName (some r.station.nomStation) blankDays)).get r.fullName with
          | none => none
          | some entry =>
              match recordPresence entry r with
              | none => none
              | some entry =>
                  some ((match grouped.get r.fullName with
                    | some _ => grouped
                    | none => grouped.assign r.fullName
                        (Entry.mk r.fullName (some r.station.nomStation) blankDays)).set
                      r.fullName entry)) = _
        simp only [hg, Dict.get_assign, hp, if_false, if_true, he1]
  obtain ⟨grouped', hg'⟩ := hsome
  refine ⟨grouped', hg', ?_⟩
  obtain ⟨e1, hrec, hget, -⟩ := mergePresence_some hg'
  intro n e hn d hd
  rw [hget] at hn
  by_cases hr : r.fullName = n
  · simp only [hr, if_true, Option.some.injEq] at hn
    subst hn
    have hbase : ∀ d ∈ days, (((grouped.get r.fullName).getD
        (Entry.mk r.fullName (some r.station.nomStation) blankDays)).days.get d).isSome = true := by
      cases hg : grouped.get r.fullName with
      | some e0 => exact hinv _ _ hg
      | none => exact blankDays_isSome
    obtain ⟨e2, he2, hall⟩ := key _ hbase
    rw [hrec] at he2
    simp only [Option.some.injEq] at he2
    subst he2
    exact hall d hd
  · simp only [hr, if_false] at hn
    exact hinv n e hn d hd

theorem foldlM_mergePresence_total (ps : List Presence) (grouped : Dict Entry)
    (hinv : ∀ n e, grouped.get n = some e → ∀ d ∈ days, (e.days.get d).isSome = true)
    (hj : ∀ r ∈ ps, r.jour ∈ days) :
    ∃ grouped', ps.foldlM mergePresence grouped = some grouped' := by
  induction ps generalizing grouped with
  | nil => exact ⟨grouped, rfl⟩
  | cons r rest ih =>
      obtain ⟨g1, hg1, hinv1⟩ := mergePresence_total grouped r hinv (hj r (by simp))
      obtain ⟨g2, hg2⟩ := ih g1 hinv1 (fun r' hr' => hj r' (by simp [hr']))
      exact ⟨g2, by simp [List.foldlM_cons, hg1, hg2]⟩

/-- The merge raises no error when every attendance record is for one of the
seven days. -/
theorem combinedData_total (schedules : List Schedule) (presences : List Presence)
    (employes : List Employe) (hj : ∀ r ∈ presences, r.jour ∈ days) :
    ∃ out, combinedData schedules presences employes = some out := by
  have hinv : ∀ n e, (schedules.foldl (mergeSchedule employes) []).get n = some e →
      ∀ d ∈ days, (e.days.get d).isSome = true := by
    intro n e hn
    rw [get_foldl_mergeSchedule] at hn
    split_ifs at hn
    cases hl : lastWhere (fun s => s.employeeName = n) schedules with
    | none => simp [hl] at hn
    | some p =>
        simp only [hl, Option.map_some', Option.some.injEq] at hn
        subst hn
        exact scheduleDays_isSome p
  obtain ⟨g, hg⟩ := foldlM_mergePresence_total presences _ hinv hj
  exact ⟨g.values, by simp [combinedData, groupedData, hg]⟩

theorem mem_combinedData {schedules : List Schedule} {presences : List Presence}
    {employes : List Employe} {out : List Entry}
    (h : combinedData schedules presences employes = some out) :
    ∃ grouped, groupedData schedules presences employes = some grouped ∧
      out = grouped.values ∧
      ∀ e, e ∈ out ↔ ∃ n, grouped.get n = some e := by
  unfold combinedData at h
  cases hg : groupedData schedules presences employes with
  | none => simp [hg] at h
  | some grouped =>
      simp only [hg, Option.map_some', Option.some.injEq] at h
      refine ⟨grouped, rfl, h.symm, ?_⟩
      intro e
      rw [← h, Dict.mem_values]
      have hnd := (groupedData_spec _ _ _ _ hg).1
      constructor
      · rintro ⟨k, hk⟩
        exact ⟨k, Dict.get_of_mem hnd hk⟩
      · rintro ⟨n, hn⟩
        exact ⟨n, Dict.mem_of_get hn⟩

theorem lastWhere_isSome {α : Type} {p : α → Bool} {l : List α} {a : α}
    (ha : a ∈ l) (hp : p a = true) : ∃ b, lastWhere p l = some b := by
  cases h : lastWhere p l with
  | none =>
      have := (lastWhere_eq_none p l).mp h a ha
      simp [hp] at this
  | some b => exact ⟨b, rfl⟩

/-- Every planning name has a last planning, every other name has none. -/
theorem lastPlan_cases (schedules : List Schedule) (n : String) :
    (∃ p, lastWhere (fun s => s.employeeName = n) schedules = some p ∧
      p ∈ schedules ∧ p.employeeName = n) ∨
    (lastWhere (fun s => s.employeeName = n) schedules = none ∧
      ∀ s ∈ schedules, s.employeeName ≠ n) := by
  cases h : lastWhere (fun s => decide (s.employeeName = n)) schedules with
  | none =>
      right
      refine ⟨rfl, ?_⟩
      intro s hs
      have := (lastWhere_eq_none _ _).mp h s hs
      simpa using this
  | some p =>
      left
      have := lastWhere_some h
      exact ⟨p, rfl, this.1, by simpa using this.2⟩

/-- The entries of the output are the own properties of `grouped`, each stored
under its own `employeeName`. -/
theorem combinedData_get {schedules : List Schedule} {presences : List Presence}
    {employes : List Employe} {out : List Entry}
    (h : combinedData schedules presences employes = some out) :
    ∃ grouped, groupedData schedules presences employes = some grouped ∧
      ∀ e, e ∈ out ↔ grouped.get e.employeeName = some e := by
  obtain ⟨grouped, hg, -, hmem⟩ := mem_combinedData h
  refine ⟨grouped, hg, ?_⟩
  obtain ⟨-, hA, hB, hC⟩ := groupedData_spec _ _ _ _ hg
  have hname : ∀ n e, grouped.get n = some e → e.employeeName = n := by
    intro n e hn
    by_cases hp : n = "__proto__"
    · by_cases hex : ∃ r ∈ presences, r.fullName = n
      · obtain ⟨e', he', hm⟩ := hB n (Or.inl hp) hex
        rw [hn] at he'
        cases he'
        exact hm.name
      · rw [hC n (Or.inl hp) (fun r hr heq => hex ⟨r, hr, heq⟩)] at hn
        cases hn
    · rcases lastPlan_cases schedules n with ⟨p, hpl, -, hpn⟩ | ⟨hpl, -⟩
      · obtain ⟨e', he', hm⟩ := hA n p hp hpl
        rw [hn] at he'
        cases he'
        exact hm.name.trans hpn
      · by_cases hex : ∃ r ∈ presences, r.fullName = n
        · obtain ⟨e', he', hm⟩ := hB n (Or.inr hpl) hex
          rw [hn] at he'
          cases he'
          exact hm.name
        · rw [hC n (Or.inr hpl) (fun r hr heq => hex ⟨r, hr, heq⟩)] at hn
          cases hn
  intro e
  rw [hmem]
  constructor
  · rintro ⟨n, hn⟩
    rw [hname n e hn]
    exact hn
  · intro he
    exact ⟨_, he⟩

theorem scheduleDays_schedule (p : Schedule) (day dayKey : String)
    (h : (day, dayKey) ∈ dayMapping) :
    ((scheduleDays p).get day).map DayCell.schedule = some (orNonDefini (p.dayProp dayKey)) := by
  simp only [dayMapping, List.mem_cons, Prod.mk.injEq, List.mem_singleton, List.not_mem_nil,
    or_false] at h
  rcases h with ⟨rfl, rfl⟩ | ⟨rfl, rfl⟩ | ⟨rfl, rfl⟩ | ⟨rfl, rfl⟩ | ⟨rfl, rfl⟩ | ⟨rfl, rfl⟩ |
    ⟨rfl, rfl⟩ <;> rfl

theorem MergedFrom.schedule {n : String} {base e : Entry} {ps : List Presence}
    (h : MergedFrom n base ps e) (d : String) :
    (e.days.get d).map DayCell.schedule = (base.days.get d).map DayCell.schedule := by
  rw [h.cell d]
  cases base.days.get d <;> rfl

/-- The scheduled strings of the merge, for a planning name other than
`__proto__`: the output has exactly one entry with that name, and its scheduled
string of each of the seven days is the string that the last planning of that
name stores for the day, or `Non défini` when that string is empty or missing,
whatever the attendance records are. -/
theorem combinedData_scheduled (schedules : List Schedule) (presences : List Presence)
    (employes : List Employe) (out : List Entry)
    (h : combinedData schedules presences employes = some out)
    (n : String) (p : Schedule) (hn : n ≠ "__proto__")
    (hp : lastWhere (fun s => s.employeeName = n) schedules = some p) :
    ∃ e ∈ out, e.employeeName = n ∧
      (∀ e' ∈ out, e'.employeeName = n → e' = e) ∧
      ∀ day dayKey, (day, dayKey) ∈ dayMapping →
        (e.days.get day).map DayCell.schedule = some (orNonDefini (p.dayProp dayKey)) := by
  obtain ⟨grouped, hg, hmem⟩ := combinedData_get h
  obtain ⟨-, hA, -, -⟩ := groupedData_spec _ _ _ _ hg
  obtain ⟨e, he, hm⟩ := hA n p hn hp
  have hpn : p.employeeName = n := by simpa using (lastWhere_some hp).2
  have hen : e.employeeName = n := hm.name.trans hpn
  refine ⟨e, (hmem e).mpr (by rw [hen]; exact he), hen, ?_, ?_⟩
  · intro e' he' hn'
    have := (hmem e').mp he'
    rw [hn', he] at this
    cases this
    rfl
  · intro day dayKey hd
    rw [hm.schedule day]
    exact scheduleDays_schedule p day dayKey hd

/-- C7, at the failing input. A planning whose `employeeName` is `__proto__`
leaves no entry in the output (the assignment `grouped['__proto__'] = ...`
replaces the prototype of `grouped`), so the output has no entry with the
scheduled string `8h-16h` of that planning; the same planning under the name
`Jean Dupont` gives the entry that the claim describes. -/
theorem combinedData_scheduled_proto :
    protoPlan.employeeName = "__proto__" ∧ protoPlan.monday = some "8h-16h" ∧
    combinedData [protoPlan] [] [] = some [] ∧
    (combinedData [{ protoPlan with employeeName := "Jean Dupont" }] [] []).map
        (List.map (fun e => (e.employeeName, (e.days.get "Lundi").map DayCell.schedule))) =
      some [("Jean Dupont", some "8h-16h")] := by
  decide

theorem blankDays_schedule : ∀ d ∈ days,
    (blankDays.get d).map DayCell.schedule = some "Non défini" := by
  decide

theorem blankDays_presence : ∀ d ∈ days,
    (blankDays.get d).map DayCell.presence = some none := by
  decide

theorem scheduleDays_presence (p : Schedule) : ∀ d ∈ days,
    ((scheduleDays p).get d).map DayCell.presence = some none := by
  intro d hd
  simp only [days, List.mem_cons, List.mem_singleton, List.not_mem_nil, or_false] at hd
  rcases hd with rfl | rfl | rfl | rfl | rfl | rfl | rfl <;> rfl

/-- The entry stored under a name is merged from the entry of the last planning
of that name or, without planning, from the blank entry; in both cases the
cells of the seven days start without attendance. -/
theorem grouped_entry_base {schedules : List Schedule} {presences : List Presence}
    {employes : List Employe} {grouped : Dict Entry}
    (hg : groupedData schedules presences employes = some grouped)
    {n : String} {e : Entry} (he : grouped.get n = some e) :
    ∃ base, MergedFrom n base presences e ∧ base.employeeName = n ∧
      (∀ d ∈ days, (base.days.get d).map DayCell.presence = some none) ∧
      ((n ≠ "__proto__" ∧ ∃ p, lastWhere (fun s => s.employeeName = n) schedules = some p ∧
          base = scheduleEntry employes p) ∨
        ((∀ s ∈ schedules, s.employeeName ≠ n) ∧ (∃ r ∈ presences, r.fullName = n) ∧
          base = blankEntry n)) := by
  obtain ⟨-, hA, hB, hC⟩ := groupedData_spec _ _ _ _ hg
  have hblank : ∀ hcase : (n = "__proto__" ∨
      lastWhere (fun s => s.employeeName = n) schedules = none),
      (∀ s ∈ schedules, s.employeeName ≠ n) →
      ∃ base, MergedFrom n base presences e ∧ base.employeeName = n ∧
      (∀ d ∈ days, (base.days.get d).map DayCell.presence = some none) ∧
      ((n ≠ "__proto__" ∧ ∃ p, lastWhere (fun s => s.employeeName = n) schedules = some p ∧
          base = scheduleEntry employes p) ∨
        ((∀ s ∈ schedules, s.employeeName ≠ n) ∧ (∃ r ∈ presences, r.fullName = n) ∧
          base = blankEntry n)) := by
    intro hcase hno
    by_cases hex : ∃ r ∈ presences, r.fullName = n
    · obtain ⟨e', he', hm⟩ := hB n hcase hex
      rw [he] at he'
      cases he'
      exact ⟨blankEntry n, hm, rfl, blankDays_presence, Or.inr ⟨hno, hex, rfl⟩⟩
    · rw [hC n hcase (fun r hr heq => hex ⟨r, hr, heq⟩)] at he
      cases he
  by_cases hp : n = "__proto__"
  · -- an entry named `__proto__` could only come from an attendance, whose name has a space
    by_cases hex : ∃ r ∈ presences, r.fullName = n
    · obtain ⟨r, -, hr⟩ := hex
      exact absurd (hr.trans hp) (displayName_ne_proto _ _)
    · rw [hC n (Or.inl hp) (fun r hr heq => hex ⟨r, hr, heq⟩)] at he
      cases he
  · rcases lastPlan_cases schedules n with ⟨p, hpl, -, hpn⟩ | ⟨hpl, hno⟩
    · obtain ⟨e', he', hm⟩ := hA n p hp hpl
      rw [he] at he'
      cases he'
      exact ⟨scheduleEntry employes p, hm, hpn, scheduleDays_presence p,
        Or.inl ⟨hp, p, hpl, rfl⟩⟩
    · exact hblank (Or.inr hpl) hno

/-- C8. When every attendance record is for one of the seven days, the merge
returns its output, and in it: every record whose display name is the name of
no planning has an entry with that name whose seven scheduled strings are
`Non défini`; for every record, the entry of its display name holds, at the
day of the record, the last record in input order with that name and that day;
and every day of an entry for which no record with the name of the entry
exists has no attendance. -/
theorem combinedData_attendance (schedules : List Schedule) (presences : List Presence)
    (employes : List Employe) (hj : ∀ r ∈ presences, r.jour ∈ days) :
    ∃ out, combinedData schedules presences employes = some out ∧
      (∀ r ∈ presences, (∀ s ∈ schedules, s.employeeName ≠ r.fullName) →
        ∃ e ∈ out, e.employeeName = r.fullName ∧
          ∀ d ∈ days, (e.days.get d).map DayCell.schedule = some "Non défini") ∧
      (∀ r ∈ presences, ∃ e ∈ out, e.employeeName = r.fullName ∧
        (∀ e' ∈ out, e'.employeeName = r.fullName → e' = e) ∧
        ∃ last, lastWhere (fun r' => r'.fullName = r.fullName ∧ r'.jour = r.jour) presences
            = some last ∧
          (e.days.get r.jour).map DayCell.presence = some (some last)) ∧
      (∀ e ∈ out, ∀ d ∈ days,
        (∀ r ∈ presences, ¬ (r.fullName = e.employeeName ∧ r.jour = d)) →
        (e.days.get d).map DayCell.presence = some none) := by
  obtain ⟨out, hout⟩ := combinedData_total schedules presences employes hj
  obtain ⟨grouped, hg, hmem⟩ := combinedData_get hout
  obtain ⟨-, hA, hB, hC⟩ := groupedData_spec _ _ _ _ hg
  -- every record has an entry under its display name
  have hentry : ∀ r ∈ presences, ∃ e, grouped.get r.fullName = some e := by
    intro r hr
    rcases lastPlan_cases schedules r.fullName with ⟨p, hpl, -, -⟩ | ⟨hpl, -⟩
    · obtain ⟨e, he, -⟩ := hA _ p (displayName_ne_proto _ _) hpl
      exact ⟨e, he⟩
    · obtain ⟨e, he, -⟩ := hB _ (Or.inr hpl) ⟨r, hr, rfl⟩
      exact ⟨e, he⟩
  refine ⟨out, hout, ?_, ?_, ?_⟩
  · intro r hr hno
    obtain ⟨e, he⟩ := hentry r hr
    obtain ⟨base, hm, hbn, -, hcase⟩ := grouped_entry_base hg he
    have hen : e.employeeName = r.fullName := hm.name.trans hbn
    refine ⟨e, (hmem e).mpr (by rw [hen]; exact he), hen, ?_⟩
    intro d hd
    rw [hm.schedule d]
    rcases hcase with ⟨-, p, hpl, -⟩ | ⟨-, -, rfl⟩
    · have := lastWhere_some hpl
      exact absurd (by simpa using this.2) (hno p this.1)
    · exact blankDays_schedule d hd
  · intro r hr
    obtain ⟨e, he⟩ := hentry r hr
    obtain ⟨base, hm, hbn, hbp, -⟩ := grouped_entry_base hg he
    have hen : e.employeeName = r.fullName := hm.name.trans hbn
    refine ⟨e, (hmem e).mpr (by rw [hen]; exact he), hen, ?_, ?_⟩
    · intro e' he' hn'
      have := (hmem e').mp he'
      rw [hn', he] at this
      cases this
      rfl
    · obtain ⟨last, hlast⟩ := lastWhere_isSome
        (p := fun r' => decide (r'.fullName = r.fullName ∧ r'.jour = r.jour)) hr (by simp)
      refine ⟨last, hlast, ?_⟩
      have hb := hbp r.jour (hj r hr)
      cases hc : base.days.get r.jour with
      | none => simp [hc] at hb
      | some c => simp only [hm.cell r.jour, hc, Option.map_some', hlast]
  · intro e he d hd hno
    have he' := (hmem e).mp he
    obtain ⟨base, hm, -, hbp, -⟩ := grouped_entry_base hg he'
    have hb := hbp d hd
    have hnone : lastWhere
        (fun r => decide (r.fullName = e.employeeName ∧ r.jour = d)) presences = none := by
      rw [lastWhere_eq_none]
      intro r hr
      simpa using hno r hr
    cases hc : base.days.get d with
    | none => simp [hc] at hb
    | some c =>
        simp only [hc, Option.map_some', Option.some.injEq] at hb
        simp only [hm.cell d, hc, Option.map_some', hnone, hb]

/-- C8, witness: Anne Martin has an attendance on Tuesday and no planning. -/
theorem combinedData_attendance_witness :
    (∀ r ∈ [annePresence], r.jour ∈ days) ∧
    ∃ out, combinedData [jeanPlan] [annePresence] [jeanEmploye] = some out ∧
      ∃ e ∈ out, e.employeeName = "Anne Martin" ∧
        ∀ d ∈ days, (e.days.get d).map DayCell.schedule = some "Non défini" :=
  have hj : ∀ r ∈ [annePresence], r.jour ∈ days := by decide
  ⟨hj,
    match combinedData_attendance [jeanPlan] [annePresence] [jeanEmploye] hj with
    | ⟨out, hout, h1, _, _⟩ => ⟨out, hout, h1 annePresence (by simp) (by decide)⟩⟩

/-- C9. When every attendance record is for one of the seven days, the merge
returns its output, and the station of each entry is decided as follows: when
some attendance record with the name of the entry carries a (non-empty) station
name, the station is the station name of the last such record, whatever the
roster says; otherwise, when the name has a planning, the station is that of
the first roster employee whose `nom prenom` is the name (`Non défini` when
that employee has no station or a station without name), and it is unset when
no roster employee has that name. -/
theorem combinedData_station (schedules : List Schedule) (presences : List Presence)
    (employes : List Employe) (hj : ∀ r ∈ presences, r.jour ∈ days) :
    ∃ out, combinedData schedules presences employes = some out ∧
      ∀ e ∈ out,
        ((∃ r ∈ presences, r.fullName = e.employeeName ∧ r.station.nomStation ≠ "") →
          ∃ last, lastWhere (fun r => r.fullName = e.employeeName ∧ r.station.nomStation ≠ "")
              presences = some last ∧
            e.station = some last.station.nomStation) ∧
        ((∀ r ∈ presences, r.fullName = e.employeeName → r.station.nomStation = "") →
          (∃ s ∈ schedules, s.employeeName = e.employeeName) →
          e.station =
            match employes.find?
              (fun emp => displayName emp.nomEmploye emp.prenomEmploye == e.employeeName) with
            | some emp => some (orNonDefini (emp.station.map (fun s => s.nomStation)))
            | none => none) := by
  obtain ⟨out, hout⟩ := combinedData_total schedules presences employes hj
  obtain ⟨grouped, hg, hmem⟩ := combinedData_get hout
  refine ⟨out, hout, ?_⟩
  intro e he
  have he' := (hmem e).mp he
  obtain ⟨base, hm, -, -, hcase⟩ := grouped_entry_base hg he'
  constructor
  · rintro ⟨r, hr, hrn, hrs⟩
    obtain ⟨last, hlast⟩ := lastWhere_isSome
      (p := fun r => decide (r.fullName = e.employeeName ∧ r.station.nomStation ≠ "")) hr
      (by simp [hrn, hrs])
    refine ⟨last, hlast, ?_⟩
    simp only [hm.station, hlast]
  · intro hnone hplan
    have hl : lastWhere
        (fun r => decide (r.fullName = e.employeeName ∧ r.station.nomStation ≠ ""))
        presences = none := by
      rw [lastWhere_eq_none]
      intro r hr
      by_cases hrn : r.fullName = e.employeeName
      · simp [hrn, hnone r hr hrn]
      · simp [hrn]
    rcases hcase with ⟨-, p, hpl, rfl⟩ | ⟨hno, -, -⟩
    · have hpn : p.employeeName = e.employeeName := by simpa using (lastWhere_some hpl).2
      simp only [hm.station, hl, scheduleEntry, hpn]
    · obtain ⟨s, hs, hsn⟩ := hplan
      exact absurd hsn (hno s hs)

/-- C9, witness: Jean Dupont has a planning and no attendance, and the roster
gives him the station Nord; Anne Martin has an attendance at station Sud. -/
theorem combinedData_station_witness :
    (∀ r ∈ [annePresence], r.jour ∈ days) ∧
    (combinedData [jeanPlan] [annePresence] [jeanEmploye]).map
        (List.map (fun e => (e.employeeName, e.station))) =
      some [("Jean Dupont", some "Nord"), ("Anne Martin", some "Sud")] ∧
    ∃ out, combinedData [jeanPlan] [annePresence] [jeanEmploye] = some out ∧
      ∀ e ∈ out,
        (∃ r ∈ [annePresence], r.fullName = e.employeeName ∧ r.station.nomStation ≠ "") →
          ∃ last, lastWhere (fun r => r.fullName = e.employeeName ∧ r.station.nomStation ≠ "")
              [annePresence] = some last ∧
            e.station = some last.station.nomStation :=
  have hj : ∀ r ∈ [annePresence], r.jour ∈ days := by decide
  ⟨hj, by decide,
    match combinedData_station [jeanPlan] [annePresence] [jeanEmploye] hj with
    | ⟨out, hout, h⟩ => ⟨out, hout, fun e he => (h e he).1⟩⟩

theorem grouped_key_eq_name {schedules : List Schedule} {presences : List Presence}
    {employes : List Employe} {grouped : Dict Entry}
    (hg : groupedData schedules presences employes = some grouped)
    {n : String} {e : Entry} (he : grouped.get n = some e) : e.employeeName = n := by
  obtain ⟨base, hm, hbn, -, -⟩ := grouped_entry_base hg he
  exact hm.name.trans hbn

/-- The names of the merge output: no name occurs twice, and the names are
those of the plannings, `__proto__` excepted, and those of the attendance
records. -/
theorem combinedData_names (schedules : List Schedule) (presences : List Presence)
    (employes : List Employe) (out : List Entry)
    (h : combinedData schedules presences employes = some out) :
    (out.map Entry.employeeName).Nodup ∧
    ∀ n, n ∈ out.map Entry.employeeName ↔
      ((n ≠ "__proto__" ∧ ∃ s ∈ schedules, s.employeeName = n) ∨
        ∃ r ∈ presences, r.fullName = n) := by
  obtain ⟨grouped, hg, hout, -⟩ := mem_combinedData h
  obtain ⟨grouped2, hg', hmem⟩ := combinedData_get h
  rw [hg] at hg'
  cases hg'
  obtain ⟨hnd, hA, hB, hC⟩ := groupedData_spec _ _ _ _ hg
  constructor
  · have hperm : List.Perm (out.map Entry.employeeName) (grouped.map Prod.fst) := by
      rw [hout]
      refine (List.Perm.map _ (Dict.values_perm grouped)).trans ?_
      apply List.Perm.of_eq
      rw [List.map_map]
      apply List.map_congr_left
      intro kv hkv
      exact grouped_key_eq_name hg (Dict.get_of_mem hnd (show (kv.1, kv.2) ∈ grouped from hkv))
    exact hperm.nodup_iff.mpr hnd
  · intro n
    simp only [List.mem_map]
    constructor
    · rintro ⟨e, he, rfl⟩
      have he' := (hmem e).mp he
      obtain ⟨base, -, -, -, hcase⟩ := grouped_entry_base hg he'
      rcases hcase with ⟨hp, p, hpl, -⟩ | ⟨-, hex, -⟩
      · have := lastWhere_some hpl
        exact Or.inl ⟨hp, p, this.1, by simpa using this.2⟩
      · exact Or.inr hex
    · rintro (⟨hp, s, hs, hsn⟩ | ⟨r, hr, hrn⟩)
      · obtain ⟨p, hpl⟩ := lastWhere_isSome (p := fun s => decide (s.employeeName = n)) hs
          (by simp [hsn])
        obtain ⟨e, he, hm⟩ := hA n p hp hpl
        have hen := grouped_key_eq_name hg he
        exact ⟨e, (hmem e).mpr (by rw [hen]; exact he), hen⟩
      · subst hrn
        rcases lastPlan_cases schedules r.fullName with ⟨p, hpl, -, -⟩ | ⟨hpl, -⟩
        · obtain ⟨e, he, -⟩ := hA _ p (displayName_ne_proto _ _) hpl
          have hen := grouped_key_eq_name hg he
          exact ⟨e, (hmem e).mpr (by rw [hen]; exact he), hen⟩
        · obtain ⟨e, he, -⟩ := hB _ (Or.inr hpl) ⟨r, hr, rfl⟩
          have hen := grouped_key_eq_name hg he
          exact ⟨e, (hmem e).mpr (by rw [hen]; exact he), hen⟩

/-- C10, at the failing input. With a planning named `__proto__` and one named
`Jean Dupont` the names of the output are `Jean Dupont` alone: the set of
output names is not the set of planning names united with the attendance
names. -/
theorem combinedData_names_proto :
    [protoPlan, jeanPlan].map Schedule.employeeName = ["__proto__", "Jean Dupont"] ∧
    (combinedData [protoPlan, jeanPlan] [] [jeanEmploye]).map (List.map Entry.employeeName) =
      some ["Jean Dupont"] := by
  decide

/-! ## Scenario, safety and agreement of the merge -/

/-- C11. With the single planning of Jean Dupont (week 10 of 2024, Monday
`8h-16h`, the six other days empty or missing) and no attendance record, the
merge yields, whatever the roster, exactly one entry: it is named Jean Dupont,
Monday is scheduled `8h-16h` without attendance, the six other days are
`Non défini` without attendance, and `calculateTotalHours` of the entry is 8. -/
theorem combinedData_scenario (employes : List Employe) :
    jeanPlan.employeeName = "Jean Dupont" ∧ jeanPlan.week = 10 ∧ jeanPlan.year = 2024 ∧
    (∃ station, combinedData [jeanPlan] [] employes =
      some [{ employeeName := "Jean Dupont", station := station, days := jeanDays }]) ∧
    (∃ station, combinedData [jeanPlanSparse] [] employes =
      some [{ employeeName := "Jean Dupont", station := station, days := jeanDays }]) ∧
    ∀ station, Presence.calculateTotalHours
      { employeeName := "Jean Dupont", station := station, days := jeanDays } = some 8 := by
  refine ⟨rfl, rfl, rfl, ⟨(scheduleEntry employes jeanPlan).station, ?_⟩,
    ⟨(scheduleEntry employes jeanPlanSparse).station, ?_⟩, ?_⟩
  · rfl
  · rfl
  · intro station
    rfl

theorem grouped_entry_keys {schedules : List Schedule} {presences : List Presence}
    {employes : List Employe} {grouped : Dict Entry}
    (hg : groupedData schedules presences employes = some grouped)
    {n : String} {e : Entry} (he : grouped.get n = some e) :
    e.days.map Prod.fst = days := by
  obtain ⟨base, hm, -, -, hcase⟩ := grouped_entry_base hg he
  rw [hm.keys]
  rcases hcase with ⟨-, p, -, rfl⟩ | ⟨-, -, rfl⟩
  · show (scheduleDays p).map Prod.fst = days
    rw [scheduleDays_eq]
    rfl
  · rfl

/-- C23. When the `jour` of every attendance record is one of the seven day
names, the merge returns its output without error, the day table of every
output entry has exactly the seven keys Lundi to Dimanche in that order (each
with a scheduled string and an attendance that is a record or null), and
`calculateTotalHours` returns a number on every output entry. -/
theorem combinedData_safe (schedules : List Schedule) (presences : List Presence)
    (employes : List Employe) (hj : ∀ r ∈ presences, r.jour ∈ days) :
    ∃ out, combinedData schedules presences employes = some out ∧
      ∀ e ∈ out,
        e.days.map Prod.fst =
          ["Lundi", "Mardi", "Mercredi", "Jeudi", "Vendredi", "Samedi", "Dimanche"] ∧
        (∀ day ∈ days, ∃ cell : DayCell, e.days.get day = some cell) ∧
        ∃ total : Int, Presence.calculateTotalHours e = some total ∧ 0 ≤ total := by
  obtain ⟨out, hout⟩ := combinedData_total schedules presences employes hj
  obtain ⟨grouped, hg, hmem⟩ := combinedData_get hout
  refine ⟨out, hout, ?_⟩
  intro e he
  have hkeys := grouped_entry_keys hg ((hmem e).mp he)
  have hsome : ∀ day ∈ days, (e.days.get day).isSome = true := by
    intro day hday
    rw [Dict.get_isSome_iff, hkeys]
    exact hday
  refine ⟨hkeys, ?_, ?_⟩
  · intro day hday
    exact Option.isSome_iff_exists.mp (hsome day hday)
  · exact ⟨_, presence_calculateTotalHours_eq e hsome,
      by
        have := sum_dayHours_nonneg
          (days.map (fun day => (e.days.get day).map DayCell.schedule))
        simpa [List.map_map, Function.comp_def] using this⟩

/-- C23, witness: one planning, one attendance on Tuesday. -/
theorem combinedData_safe_witness :
    (∀ r ∈ [annePresence], r.jour ∈ days) ∧
    ∃ out, combinedData [jeanPlan] [annePresence] [jeanEmploye] = some out ∧
      ∀ e ∈ out, ∃ total : Int, Presence.calculateTotalHours e = some total ∧ 0 ≤ total :=
  have hj : ∀ r ∈ [annePresence], r.jour ∈ days := by decide
  ⟨hj,
    match combinedData_safe [jeanPlan] [annePresence] [jeanEmploye] hj with
    | ⟨out, hout, h⟩ => ⟨out, hout, fun e he => (h e he).2.2⟩⟩

theorem dayHours_orNonDefini (v : Option String) :
    dayHours (some (orNonDefini v)) = dayHours v := by
  cases v with
  | none => decide
  | some s =>
      by_cases hs : s = ""
      · subst hs
        decide
      · simp [orNonDefini, hs]

/-- The two hours computations agree on every planning name other than
`__proto__`: the total of the merged entry is the total of the last planning
of that name, whatever the attendance records and the roster are. -/
theorem calculateTotalHours_agree (schedules : List Schedule) (presences : List Presence)
    (employes : List Employe) (out : List Entry)
    (h : combinedData schedules presences employes = some out)
    (n : String) (p : Schedule) (hn : n ≠ "__proto__")
    (hp : lastWhere (fun s => s.employeeName = n) schedules = some p) :
    ∃ e ∈ out, e.employeeName = n ∧ (∀ e' ∈ out, e'.employeeName = n → e' = e) ∧
      Presence.calculateTotalHours e = some (Planning.calculateTotalHours p) := by
  obtain ⟨e, he, hen, huniq, hsched⟩ :=
    combinedData_scheduled schedules presences employes out h n p hn hp
  refine ⟨e, he, hen, huniq, ?_⟩
  have hsome : ∀ day ∈ days, (e.days.get day).isSome = true := by
    intro day hday
    simp only [days, List.mem_cons, List.mem_singleton, List.not_mem_nil, or_false] at hday
    rcases hday with rfl | rfl | rfl | rfl | rfl | rfl | rfl
    · have := hsched "Lundi" "monday" (by decide)
      cases hc : e.days.get "Lundi" <;> simp [hc] at this ⊢
    · have := hsched "Mardi" "tuesday" (by decide)
      cases hc : e.days.get "Mardi" <;> simp [hc] at this ⊢
    · have := hsched "Mercredi" "wednesday" (by decide)
      cases hc : e.days.get "Mercredi" <;> simp [hc] at this ⊢
    · have := hsched "Jeudi" "thursday" (by decide)
      cases hc : e.days.get "Jeudi" <;> simp [hc] at this ⊢
    · have := hsched "Vendredi" "friday" (by decide)
      cases hc : e.days.get "Vendredi" <;> simp [hc] at this ⊢
    · have := hsched "Samedi" "saturday" (by decide)
      cases hc : e.days.get "Samedi" <;> simp [hc] at this ⊢
    · have := hsched "Dimanche" "sunday" (by decide)
      cases hc : e.days.get "Dimanche" <;> simp [hc] at this ⊢
  rw [presence_calculateTotalHours_eq e hsome]
  have h1 := hsched "Lundi" "monday" (by decide)
  have h2 := hsched "Mardi" "tuesday" (by decide)
  have h3 := hsched "Mercredi" "wednesday" (by decide)
  have h4 := hsched "Jeudi" "thursday" (by decide)
  have h5 := hsched "Vendredi" "friday" (by decide)
  have h6 := hsched "Samedi" "saturday" (by decide)
  have h7 := hsched "Dimanche" "sunday" (by decide)
  simp only [days, List.map_cons, List.map_nil, h1, h2, h3, h4, h5, h6, h7,
    dayHours_orNonDefini, Planning.calculateTotalHours, foldl_addHours, Schedule.dayFields,
    zero_add]
  rfl

/-- C29, at the failing input. The planning named `__proto__` totals 8 hours in
Planning.tsx, but the merge of Presence.tsx has no entry for it, so there is no
merged entry whose total could equal it. -/
theorem calculateTotalHours_proto :
    [protoPlan].Pairwise (fun a b => a.employeeName ≠ b.employeeName) ∧
    Planning.calculateTotalHours protoPlan = 8 ∧
    combinedData [protoPlan] [annePresence] [jeanEmploye] =
      (combinedData [] [annePresence] [jeanEmploye]) ∧
    (combinedData [protoPlan] [annePresence] [jeanEmploye]).map
      (List.map Entry.employeeName) = some ["Anne Martin"] := by
  decide

/-! ## Week navigation and initial selection -/

/-- C27, at the failing input. 2024 has 52 ISO weeks, but `getWeeksInYear 2024`
is 1, in every time zone: from (2024, 5) `handleNextWeek` goes to (2025, 1)
instead of (2024, 6), and `handlePreviousWeek` then comes back to (2024, 1),
not to (2024, 5). -/
theorem handleNextWeek_2024 (tz : TimeZone) :
    (1 : Int) ≤ 5 ∧ 5 ≤ isoWeeksInYear 2024 ∧ (5 : Int) ≠ isoWeeksInYear 2024 ∧
    handleNextWeek tz (2024, 5) = (2025, 1) ∧
    handlePreviousWeek tz (handleNextWeek tz (2024, 5)) = (2024, 1) := by
  have h1 : handleNextWeek tz (2024, 5) = (2025, 1) := by
    simp [handleNextWeek, getWeeksInYear_2024_one]
  refine ⟨by decide, by decide, by decide, h1, ?_⟩
  rw [h1]
  simp [handlePreviousWeek, getWeeksInYear_2024_one]

/-- Week navigation in a zone whose offset does not change and in a year whose
31 December is a Thursday, Friday, Saturday or Sunday (where `getWeeksInYear` is
the number of ISO weeks): `handleNextWeek` moves to the next week, or to week 1
of the next year from the last week, and `handlePreviousWeek` undoes it. -/
theorem handleNextWeek_regular (tz : TimeZone) (hfix : ∀ a b, tz.offset a = tz.offset b)
    (Y w : Int) (hY : 100 ≤ Y)
    (hdec : ¬ isoWeekday (dayFromYear (Y + 1) - 1) ≤ 2)
    (h1 : 1 ≤ w) (h2 : w ≤ isoWeeksInYear Y) :
    handleNextWeek tz (Y, w) =
      (if w = isoWeeksInYear Y then (Y + 1, 1) else (Y, w + 1)) ∧
    handlePreviousWeek tz (handleNextWeek tz (Y, w)) = (Y, w) := by
  have hw := (getWeeksInYear_eq tz hfix Y hY).1
  rw [if_neg hdec] at hw
  have hnext : handleNextWeek tz (Y, w) =
      (if w = isoWeeksInYear Y then (Y + 1, 1) else (Y, w + 1)) := by
    simp only [handleNextWeek, hw]
    by_cases hlast : w = isoWeeksInYear Y
    · simp [hlast]
    · have : w < isoWeeksInYear Y := lt_of_le_of_ne h2 hlast
      simp [hlast, this]
  refine ⟨hnext, ?_⟩
  rw [hnext]
  by_cases hlast : w = isoWeeksInYear Y
  · simp only [hlast, if_true, handlePreviousWeek]
    simp [hw]
  · simp only [hlast, if_false, handlePreviousWeek]
    have : w + 1 > 1 := by omega
    simp [this]

/-- C28, at the failing input. On Monday 30 December 2024 the calendar year is
2024 and `getWeekNumber` is 1 in every time zone (the day belongs to week 1 of
2025), so the initial selection is (2024, 1), whose span is 1 to 7 January 2024
and does not contain the date. -/
theorem initialSelection_2024_12_30 (tz : TimeZone) :
    initialSelection tz (civil 2024 11 30) = (2024, 1) ∧
    getWeekDateRange 2024 1 = (civil 2024 0 1, civil 2024 0 7) ∧
    (getWeekDateRange (initialSelection tz (civil 2024 11 30)).1
        (initialSelection tz (civil 2024 11 30)).2).2.dayNumber
      < (civil 2024 11 30).dayNumber := by
  have h : getWeekNumber tz (civil 2024 11 30) = 1 :=
    getWeekNumber_first tz (civil 2024 11 30) 2025 (by decide) (by decide) (by decide)
  simp only [initialSelection, h]
  decide

/-! ## The Planning form -/

theorem mem_run_group {a : Re} {l r : List Char} {caps cs : List (List Char)}
    (h : (r, cs) ∈ (Re.group a).run l caps) :
    ∃ cs0, (r, cs0) ∈ a.run l [] ∧ cs = caps ++ cs0 ++ [l.take (l.length - r.length)] := by
  simp only [Re.run, List.mem_map] at h
  obtain ⟨p, hp, h⟩ := h
  simp only [Prod.mk.injEq] at h
  obtain ⟨rfl, rfl⟩ := h
  exact ⟨p.2, hp, rfl⟩

theorem mem_run_formRegex {l : List Char} {cs : List (List Char)}
    (h : ([], cs) ∈ formRegex.run l []) :
    ∃ ds de, IsHourDigits ds ∧ IsHourDigits de ∧ l = ds ++ 'h' :: '-' :: (de ++ ['h']) := by
  simp only [formRegex, mem_run_seq] at h
  obtain ⟨p1, h1, p2, h2, h3⟩ := h
  obtain ⟨c1, g1, -⟩ := mem_run_group h1
  rw [mem_run_seq] at g1
  obtain ⟨q1, d1, e1⟩ := g1
  obtain ⟨-, ds, hds, hl1⟩ := mem_run_digits d1
  obtain ⟨-, hq1⟩ := mem_run_chr e1
  obtain ⟨-, hp1⟩ := mem_run_chr h2
  obtain ⟨c2, g2, -⟩ := mem_run_group h3
  rw [mem_run_seq] at g2
  obtain ⟨q2, d2, e2⟩ := g2
  obtain ⟨-, de, hde, hl2⟩ := mem_run_digits d2
  obtain ⟨-, hq2⟩ := mem_run_chr e2
  refine ⟨ds, de, hds, hde, ?_⟩
  rw [hl1, hq1, hp1, hl2, hq2]

theorem exec_formRegex_some {t : String} {cs : List (List Char)}
    (h : formRegex.exec t = some cs) :
    ∃ ds de, IsHourDigits ds ∧ IsHourDigits de ∧ t = hourRange ds de := by
  simp only [Re.exec, Option.map_eq_some'] at h
  obtain ⟨p, hp, rfl⟩ := h
  have hmem := List.mem_of_find?_eq_some hp
  have hempty := List.find?_some hp
  obtain ⟨r, cs⟩ := p
  simp only [List.isEmpty_iff] at hempty
  subst hempty
  obtain ⟨ds, de, hds, hde, hl⟩ := mem_run_formRegex hmem
  refine ⟨ds, de, hds, hde, ?_⟩
  cases t
  simp only [hourRange]
  congr

theorem exec_formRegex_shape {ds de : List Char} (hds : IsHourDigits ds)
    (hde : IsHourDigits de) :
    formRegex.exec (hourRange ds de) = some [ds ++ ['h'], de ++ ['h']] := by
  have hh : Char.isDigit 'h' = false := by decide
  rcases isHourDigits_cases hds with ⟨a, ha, rfl⟩ | ⟨a, b, ha, hb, rfl⟩ <;>
    rcases isHourDigits_cases hde with ⟨c, hc, rfl⟩ | ⟨c, d, hc, hd, rfl⟩ <;>
    simp [hourRange, Re.exec, formRegex, Re.run, *]

/-- The two time patterns accept the same strings. -/
theorem formRegex_test_eq (t : String) : formRegex.test t = timeRegex.test t := by
  unfold Re.test
  cases hf : formRegex.exec t with
  | some cs =>
      obtain ⟨ds, de, hds, hde, rfl⟩ := exec_formRegex_some hf
      rw [run_timeRegex_shape hds hde]
      rfl
  | none =>
      cases ht : timeRegex.exec t with
      | none => rfl
      | some cs =>
          obtain ⟨ds, de, hds, hde, rfl, -⟩ := exec_timeRegex_some ht
          rw [exec_formRegex_shape hds hde] at hf
          cases hf

theorem firstBadDay_eq_none (formData : PlanningForm) :
    firstBadDay formData = none ↔
      ∀ day ∈ formDays, formData.dayProp day ≠ "" → formRegex.test (formData.dayProp day) = true := by
  unfold firstBadDay
  rw [List.find?_eq_none]
  constructor
  · intro h day hday hne
    have := h day hday
    simpa [hne] using this
  · intro h day hday
    by_cases hne : formData.dayProp day = ""
    · simp [hne]
    · simp [hne, h day hday hne]

theorem firstBadDay_some {formData : PlanningForm} {day : String}
    (h : firstBadDay formData = some day) :
    day ∈ formDays ∧ formData.dayProp day ≠ "" ∧
      formRegex.test (formData.dayProp day) = false := by
  unfold firstBadDay at h
  have h1 := List.mem_of_find?_eq_some h
  have h2 := List.find?_some h
  refine ⟨h1, ?_⟩
  simpa using h2

theorem formatError_ne_missing : ∀ day ∈ formDays,
    formatError day ≠ "Aucun employé sélectionné ou employé introuvable." := by
  decide

/-- C25. Once an employee and, for an admin, a station are selected,
`handleSubmit` stops with a format error, sending no request, exactly when some
non-empty day fails the pattern `^(\d{1,2}h)-(\d{1,2}h)$`; that pattern accepts
the same strings as the pattern `^(\d{1,2})h-(\d{1,2})h$` of
`calculateTotalHours`; so when a request is sent every non-empty day of the
form has the shape `<1-2 digits>h-<1-2 digits>h` that the hours computation
parses. -/
theorem handleSubmit_format (formData : PlanningForm) (userRole : String)
    (employes : List Employe) (selectedYear selectedWeek : Int) (isEditing : Bool)
    (hemp : formData.employeeName ≠ "")
    (hst : userRole = "admin" → (formData.station.map (fun s => s._id)).getD "" ≠ "") :
    ((∃ day ∈ formDays, formData.dayProp day ≠ "" ∧
        formRegex.test (formData.dayProp day) = false) ↔
      ∃ day ∈ formDays,
        handleSubmit formData userRole employes selectedYear selectedWeek isEditing =
          .setError (formatError day)) ∧
    (∀ t : String, formRegex.test t = timeRegex.test t) ∧
    (∀ dataToSend,
      (handleSubmit formData userRole employes selectedYear selectedWeek isEditing =
          .post dataToSend ∨
        ∃ id, handleSubmit formData userRole employes selectedYear selectedWeek isEditing =
          .put id dataToSend) →
      ∀ day ∈ formDays, formData.dayProp day ≠ "" →
        timeRegex.test (formData.dayProp day) = true ∧
        ∃ ds de, IsHourDigits ds ∧ IsHourDigits de ∧
          formData.dayProp day = hourRange ds de) := by
  have hgate : ¬ (userRole = "admin" ∧ (formData.station.map (fun s => s._id)).getD "" = "") :=
    fun h => hst h.1 h.2
  refine ⟨⟨?_, ?_⟩, formRegex_test_eq, ?_⟩
  · rintro ⟨day, hday, hne, hbad⟩
    cases hf : firstBadDay formData with
    | none =>
        have := (firstBadDay_eq_none formData).mp hf day hday hne
        rw [hbad] at this
        cases this
    | some d =>
        refine ⟨d, (firstBadDay_some hf).1, ?_⟩
        simp only [handleSubmit, if_neg hemp, if_neg hgate, hf]
  · rintro ⟨day, hday, hsub⟩
    cases hf : firstBadDay formData with
    | some d =>
        obtain ⟨h1, h2, h3⟩ := firstBadDay_some hf
        exact ⟨d, h1, h2, h3⟩
    | none =>
        simp only [handleSubmit, if_neg hemp, if_neg hgate, hf] at hsub
        cases he : employes.find? (fun emp => emp._id == formData.employeeName) with
        | none =>
            simp only [he, SubmitAction.setError.injEq] at hsub
            exact absurd hsub.symm (formatError_ne_missing day hday)
        | some emp =>
            simp only [he] at hsub
            split_ifs at hsub
  · intro dataToSend hsent day hday hne
    have hnone : firstBadDay formData = none := by
      cases hf : firstBadDay formData with
      | none => rfl
      | some d =>
          simp only [handleSubmit, if_neg hemp, if_neg hgate, hf] at hsent
          rcases hsent with h | ⟨id, h⟩ <;> cases h
    have htest := (firstBadDay_eq_none formData).mp hnone day hday hne
    rw [formRegex_test_eq] at htest
    refine ⟨htest, ?_⟩
    unfold Re.test at htest
    cases hx : timeRegex.exec (formData.dayProp day) with
    | none => simp [hx] at htest
    | some cs =>
        obtain ⟨ds, de, hds, hde, ht, -⟩ := exec_timeRegex_some hx
        exact ⟨ds, de, hds, hde, ht⟩

/-- C25, witness: the form of Jean Dupont with Monday `8h-16h`, sent by a
manager. -/
theorem handleSubmit_format_witness :
    jeanForm.employeeName ≠ "" ∧
    handleSubmit jeanForm "manager" [jeanEmploye] 2024 10 false =
      .post { employeeName := some "Jean Dupont", monday := some "8h-16h", tuesday := some "",
              wednesday := some "", thursday := some "", friday := some "",
              saturday := some "", sunday := some "", year := some 2024, week := some 10,
              station := none } ∧
    handleSubmit { jeanForm with monday := "8h16h" } "manager" [jeanEmploye] 2024 10 false =
      .setError "Format invalide pour Monday. Utilisez \"8h-16h\"." ∧
    ∀ t : String, formRegex.test t = timeRegex.test t :=
  ⟨by decide, by decide, by decide,
    (handleSubmit_format jeanForm "manager" [jeanEmploye] 2024 10 false (by decide)
      (by decide)).2.1⟩

/-! ## Presence controller -/

theorem findPresence_append_new (db : Db) (doc : PresenceDoc) :
    ∃ saved, Db.findPresence { db with presences := db.presences ++ [doc] } doc._id
      = some saved := by
  unfold Db.findPresence
  cases h : (db.presences ++ [doc]).find? (fun p => p._id == doc._id) with
  | some s => exact ⟨s, rfl⟩
  | none =>
      rw [List.find?_eq_none] at h
      have := h doc (by simp)
      simp at this

/-- The outcomes of the end of `createPresence`: an error status with the store
untouched, or the status 201 with one document appended. -/
theorem createPresenceChecked_cases (validId : String → Bool) (db : Db) (user : User)
    (body : PresenceBody) (parsedSemaine parsedAnnee : Int) (jour employe station : String)
    (newId : String) (now : Int) :
    ((createPresenceChecked validId db user body parsedSemaine parsedAnnee jour employe
        station newId now).2 = db ∧
      (createPresenceChecked validId db user body parsedSemaine parsedAnnee jour employe
        station newId now).1.status ∈ [400, 403, 500]) ∨
    (validId employe = true ∧ (db.findEmploye employe).isSome = true ∧
      validId station = true ∧ (db.findStation station).isSome = true ∧
      (user.role = "admin" ∨ user.station = some station) ∧
      (∀ p ∈ db.presences, ¬ (p.semaine = parsedSemaine ∧ p.jour = jour ∧
        p.annee = parsedAnnee ∧ p.employe = employe)) ∧
      (createPresenceChecked validId db user body parsedSemaine parsedAnnee jour employe
        station newId now).2 =
        { db with presences := db.presences ++
            [{ _id := newId, idPresence := toString now, semaine := parsedSemaine,
               jour := jour, hDebut := body.hDebut.getD "", hFin := body.hFin.getD "",
               annee := parsedAnnee, employe := employe, station := station,
               isPresent := body.isPresent.getD false }] } ∧
      (createPresenceChecked validId db user body parsedSemaine parsedAnnee jour employe
        station newId now).1.status = 201) := by
  generalize hr : createPresenceChecked validId db user body parsedSemaine parsedAnnee jour
    employe station newId now = r
  unfold createPresenceChecked at hr
  split at hr
  · subst hr; left; exact ⟨rfl, by simp [createPresenceError, Response.fail]⟩
  next hve =>
  split at hr
  · subst hr; left; exact ⟨rfl, by simp [Response.fail]⟩
  next hfe =>
  split at hr
  · subst hr; left; exact ⟨rfl, by simp [createPresenceError, Response.fail]⟩
  next hvs =>
  split at hr
  · subst hr; left; exact ⟨rfl, by simp [Response.fail]⟩
  next hfs =>
  split at hr
  · subst hr; left; exact ⟨rfl, by simp [createPresenceError, Response.fail]⟩
  next hns =>
  split at hr
  · subst hr; left; exact ⟨rfl, by simp [Response.fail]⟩
  next hforb =>
  split at hr
  · subst hr; left; exact ⟨rfl, by simp [Response.fail]⟩
  next hdup =>
  simp only [] at hr
  obtain ⟨saved, hsaved⟩ := findPresence_append_new db
    { _id := newId, idPresence := toString now, semaine := parsedSemaine,
      jour := jour, hDebut := body.hDebut.getD "", hFin := body.hFin.getD "",
      annee := parsedAnnee, employe := employe, station := station,
      isPresent := body.isPresent.getD false }
  simp only [] at hsaved
  rw [hsaved] at hr
  subst hr
  right
  refine ⟨by simpa using hve, ?_, by simpa using hvs, ?_, ?_, ?_, rfl, rfl⟩
  · cases h : db.findEmploye employe <;> simp_all
  · cases h : db.findStation station <;> simp_all
  · by_cases hadm : user.role = "admin"
    · exact Or.inl hadm
    · right
      by_contra hne
      exact hforb ⟨hadm, fun h => hne h.symm⟩
  · intro p hp hk
    apply hdup
    rw [List.any_eq_true]
    exact ⟨p, hp, by simpa using hk⟩

/-- The outcomes of `createPresence`: an error status with the store untouched,
or the status 201 with one document appended, built from a request that passed
every check. -/
theorem createPresence_cases (validId : String → Bool) (db : Db) (user : Option User)
    (body : PresenceBody) (newId : String) (now : Int) :
    ((createPresence validId db user body newId now).2 = db ∧
      (createPresence validId db user body newId now).1.status ∈ [401, 400, 403, 500]) ∨
    (∃ u parsedSemaine parsedAnnee jour employe station,
      user = some u ∧
      body.semaine.bind JsNumeric.parseInt = some parsedSemaine ∧
      body.annee.bind JsNumeric.parseInt = some parsedAnnee ∧
      body.jour = some jour ∧ body.employe = some employe ∧ body.station = some station ∧
      1 ≤ parsedSemaine ∧ parsedSemaine ≤ 53 ∧ 2000 ≤ parsedAnnee ∧ parsedAnnee ≤ 2100 ∧
      jour ∈ validDays ∧
      validId employe = true ∧ (db.findEmploye employe).isSome = true ∧
      validId station = true ∧ (db.findStation station).isSome = true ∧
      (u.role = "admin" ∨ u.station = some station) ∧
      (∀ p ∈ db.presences, ¬ (p.semaine = parsedSemaine ∧ p.jour = jour ∧
        p.annee = parsedAnnee ∧ p.employe = employe)) ∧
      (createPresence validId db user body newId now).2 =
        { db with presences := db.presences ++
            [{ _id := newId, idPresence := toString now, semaine := parsedSemaine,
               jour := jour, hDebut := body.hDebut.getD "", hFin := body.hFin.getD "",
               annee := parsedAnnee, employe := employe, station := station,
               isPresent := body.isPresent.getD false }] } ∧
      (createPresence validId db user body newId now).1.status = 201) := by
  unfold createPresence
  split
  · left; exact ⟨rfl, by simp [Response.fail]⟩
  next u =>
  split
  · left; exact ⟨rfl, by simp [Response.fail]⟩
  next hreq =>
  split
  next parsedSemaine parsedAnnee hps hpa =>
    unfold createPresenceParsed
    split
    · left; exact ⟨rfl, by simp [Response.fail]⟩
    next hw =>
    split
    · left; exact ⟨rfl, by simp [Response.fail]⟩
    next hy =>
    split
    · left; exact ⟨rfl, by simp [Response.fail]⟩
    next hj =>
    rcases createPresenceChecked_cases validId db u body parsedSemaine parsedAnnee
      (body.jour.getD "") (body.employe.getD "") (body.station.getD "") newId now with
      h | ⟨h1, h2, h3, h4, h5, h6, h7, h8⟩
    · left
      refine ⟨h.1, ?_⟩
      have := h.2
      simp only [List.mem_cons, List.mem_singleton, List.mem_nil_iff, or_false] at this ⊢
      omega
    · right
      have hjs : body.jour = some (body.jour.getD "") := by
        cases hb : body.jour with
        | none => simp [hb, truthyStr] at hreq
        | some j => rfl
      have hes : body.employe = some (body.employe.getD "") := by
        cases hb : body.employe with
        | none => simp [hb, truthyStr] at hreq
        | some j => rfl
      have hss : body.station = some (body.station.getD "") := by
        cases hb : body.station with
        | none => simp [hb, truthyStr] at hreq
        | some j => rfl
      exact ⟨u, parsedSemaine, parsedAnnee, body.jour.getD "", body.employe.getD "",
        body.station.getD "", rfl, hps, hpa, hjs, hes, hss, by omega, by omega, by omega,
        by omega, by simpa using hj, h1, h2, h3, h4, h5, h6, h7, h8⟩
  · left; exact ⟨rfl, by simp [Response.fail]⟩

theorem assignSemaine_ok {body : PresenceBody} {p q : PresenceDoc}
    (h : assignSemaine body p = .ok q) :
    ∃ n, q = { p with semaine := n } ∧
      (match body.semaine with
        | none => n = p.semaine
        | some s => s.parseInt = some n ∧ 1 ≤ n ∧ n ≤ 53) := by
  unfold assignSemaine at h
  cases hb : body.semaine with
  | none =>
      rw [hb] at h
      simp only [Except.ok.injEq] at h
      exact ⟨p.semaine, h.symm, rfl⟩
  | some s =>
      rw [hb] at h
      simp only at h
      cases hp : s.parseInt with
      | none => rw [hp] at h; simp at h
      | some n =>
          rw [hp] at h
          simp only at h
          split at h
          · simp at h
          · simp only [Except.ok.injEq] at h
            exact ⟨n, h.symm, hp, by omega, by omega⟩

theorem assignSemaine_error {body : PresenceBody} {p : PresenceDoc} {e : Response Presence}
    (h : assignSemaine body p = .error e) : e.status = 400 := by
  unfold assignSemaine at h
  cases hb : body.semaine with
  | none => rw [hb] at h; simp at h
  | some s =>
      rw [hb] at h
      simp only at h
      cases hp : s.parseInt with
      | none =>
          rw [hp] at h
          simp only [Except.error.injEq] at h
          subst h; rfl
      | some n =>
          rw [hp] at h
          simp only at h
          split at h
          · simp only [Except.error.injEq] at h
            subst h; rfl
          · simp at h

theorem assignJour_ok {body : PresenceBody} {p q : PresenceDoc}
    (h : assignJour body p = .ok q) :
    ∃ j, q = { p with jour := j } ∧
      (match body.jour with
        | none => j = p.jour
        | some s => s = j ∧ j ∈ validDays) := by
  unfold assignJour at h
  cases hb : body.jour with
  | none =>
      rw [hb] at h
      simp only [Except.ok.injEq] at h
      exact ⟨p.jour, h.symm, rfl⟩
  | some s =>
      rw [hb] at h
      simp only at h
      split at h
      · simp at h
      next hj =>
        simp only [Except.ok.injEq] at h
        exact ⟨s, h.symm, rfl, by simpa using hj⟩

theorem assignJour_error {body : PresenceBody} {p : PresenceDoc} {e : Response Presence}
    (h : assignJour body p = .error e) : e.status = 400 := by
  unfold assignJour at h
  cases hb : body.jour with
  | none => rw [hb] at h; simp at h
  | some s =>
      rw [hb] at h
      simp only at h
      split at h
      · simp only [Except.error.injEq] at h
        subst h; rfl
      · simp at h

theorem assignAnnee_ok {body : PresenceBody} {p q : PresenceDoc}
    (h : assignAnnee body p = .ok q) :
    ∃ n, q = { p with annee := n } ∧
      (match body.annee with
        | none => n = p.annee
        | some s => s.parseInt = some n ∧ 2000 ≤ n ∧ n ≤ 2100) := by
  unfold assignAnnee at h
  cases hb : body.annee with
  | none =>
      rw [hb] at h
      simp only [Except.ok.injEq] at h
      exact ⟨p.annee, h.symm, rfl⟩
  | some s =>
      rw [hb] at h
      simp only at h
      cases hp : s.parseInt with
      | none => rw [hp] at h; simp at h
      | some n =>
          rw [hp] at h
          simp only at h
          split at h
          · simp at h
          · simp only [Except.ok.injEq] at h
            exact ⟨n, h.symm, hp, by omega, by omega⟩

theorem assignAnnee_error {body : PresenceBody} {p : PresenceDoc} {e : Response Presence}
    (h : assignAnnee body p = .error e) : e.status = 400 := by
  unfold assignAnnee at h
  cases hb : body.annee with
  | none => rw [hb] at h; simp at h
  | some s =>
      rw [hb] at h
      simp only at h
      cases hp : s.parseInt with
      | none =>
          rw [hp] at h
          simp only [Except.error.injEq] at h
          subst h; rfl
      | some n =>
          rw [hp] at h
          simp only at h
          split at h
          · simp only [Except.error.injEq] at h
            subst h; rfl
          · simp at h

theorem assignEmploye_ok {validId : String → Bool} {db : Db} {body : PresenceBody}
    {p q : PresenceDoc} (h : assignEmploye validId db body p = .ok q) :
    ∃ e, q = { p with employe := e } ∧
      (match body.employe with
        | none => e = p.employe
        | some s => s = e ∧ validId e = true ∧ (db.findEmploye e).isSome = true) := by
  unfold assignEmploye at h
  cases hb : body.employe with
  | none =>
      rw [hb] at h
      simp only [Except.ok.injEq] at h
      exact ⟨p.employe, h.symm, rfl⟩
  | some s =>
      rw [hb] at h
      simp only at h
      split at h
      · simp at h
      next hv =>
        split at h
        · simp at h
        next hf =>
          simp only [Except.ok.injEq] at h
          refine ⟨s, h.symm, rfl, by simpa using hv, ?_⟩
          cases hx : db.findEmploye s <;> simp_all

theorem assignEmploye_error {validId : String → Bool} {db : Db} {body : PresenceBody}
    {p : PresenceDoc} {e : Response Presence}
    (h : assignEmploye validId db body p = .error e) : e.status = 400 ∨ e.status = 500 := by
  unfold assignEmploye at h
  cases hb : body.employe with
  | none => rw [hb] at h; simp at h
  | some s =>
      rw [hb] at h
      simp only at h
      split at h
      · simp only [Except.error.injEq] at h
        subst h; right; rfl
      · split at h
        · simp only [Except.error.injEq] at h
          subst h; left; rfl
        · simp at h

theorem assignStation_ok {validId : String → Bool} {db : Db} {user : User}
    {body : PresenceBody} {p q : PresenceDoc}
    (h : assignStation validId db user body p = .ok q) :
    ∃ s, q = { p with station := s } ∧
      (match body.station with
        | none => s = p.station
        | some t => t = s ∧ validId s = true ∧ (db.findStation s).isSome = true ∧
            (user.role = "admin" ∨ user.station = some s)) := by
  unfold assignStation at h
  cases hb : body.station with
  | none =>
      rw [hb] at h
      simp only [Except.ok.injEq] at h
      exact ⟨p.station, h.symm, rfl⟩
  | some s =>
      rw [hb] at h
      simp only at h
      split at h
      · simp at h
      next hv =>
        split at h
        · simp at h
        next hf =>
          split at h
          · simp at h
          next hn =>
            split at h
            · simp at h
            next hforb =>
              simp only [Except.ok.injEq] at h
              refine ⟨s, h.symm, rfl, by simpa using hv, ?_, ?_⟩
              · cases hx : db.findStation s <;> simp_all
              · by_cases hadm : user.role = "admin"
                · exact Or.inl hadm
                · right
                  by_contra hne
                  exact hforb ⟨hadm, fun h => hne h.symm⟩

theorem assignStation_error {validId : String → Bool} {db : Db} {user : User}
    {body : PresenceBody} {p : PresenceDoc} {e : Response Presence}
    (h : assignStation validId db user body p = .error e) :
    e.status = 400 ∨ e.status = 403 ∨ e.status = 500 := by
  unfold assignStation at h
  cases hb : body.station with
  | none => rw [hb] at h; simp at h
  | some s =>
      rw [hb] at h
      simp only at h
      split at h
      · simp only [Except.error.injEq] at h
        subst h; right; right; rfl
      · split at h
        · simp only [Except.error.injEq] at h
          subst h; left; rfl
        · split at h
          · simp only [Except.error.injEq] at h
            subst h; right; right; rfl
          · split at h
            · simp only [Except.error.injEq] at h
              subst h; right; left; rfl
            · simp at h

/-- What a successful run of the checks and assignments of `updatePresence`
gives: each field of the request that is provided has passed its check and is
assigned, every other field is the one of the loaded document. -/
theorem assignFields_ok {validId : String → Bool} {db : Db} {user : User}
    {body : PresenceBody} {old new : PresenceDoc}
    (h : assignFields validId db user body old = .ok new) :
    new._id = old._id ∧ new.idPresence = old.idPresence ∧
    (match body.semaine with
      | none => new.semaine = old.semaine
      | some s => s.parseInt = some new.semaine ∧ 1 ≤ new.semaine ∧ new.semaine ≤ 53) ∧
    (match body.jour with
      | none => new.jour = old.jour
      | some s => s = new.jour ∧ new.jour ∈ validDays) ∧
    (match body.annee with
      | none => new.annee = old.annee
      | some s => s.parseInt = some new.annee ∧ 2000 ≤ new.annee ∧ new.annee ≤ 2100) ∧
    (match body.employe with
      | none => new.employe = old.employe
      | some s => s = new.employe ∧ validId new.employe = true ∧
          (db.findEmploye new.employe).isSome = true) ∧
    (match body.station with
      | none => new.station = old.station
      | some t => t = new.station ∧ validId new.station = true ∧
          (db.findStation new.station).isSome = true ∧
          (user.role = "admin" ∨ user.station = some new.station)) ∧
    new.hDebut = body.hDebut.getD old.hDebut ∧ new.hFin = body.hFin.getD old.hFin ∧
    new.isPresent = body.isPresent.getD old.isPresent := by
  unfold assignFields at h
  cases h1 : assignSemaine body old with
  | error e => rw [h1] at h; simp [Except.bind] at h
  | ok p1 =>
  rw [h1] at h
  simp only [Except.bind] at h
  cases h2 : assignJour body p1 with
  | error e => rw [h2] at h; simp at h
  | ok p2 =>
  rw [h2] at h
  simp only at h
  cases h3 : assignAnnee body p2 with
  | error e => rw [h3] at h; simp at h
  | ok p3 =>
  rw [h3] at h
  simp only at h
  cases h4 : assignEmploye validId db body p3 with
  | error e => rw [h4] at h; simp at h
  | ok p4 =>
  rw [h4] at h
  simp only at h
  cases h5 : assignStation validId db user body p4 with
  | error e => rw [h5] at h; simp at h
  | ok p5 =>
  rw [h5] at h
  simp only [Except.ok.injEq] at h
  obtain ⟨n1, e1, c1⟩ := assignSemaine_ok h1
  obtain ⟨n2, e2, c2⟩ := assignJour_ok h2
  obtain ⟨n3, e3, c3⟩ := assignAnnee_ok h3
  obtain ⟨n4, e4, c4⟩ := assignEmploye_ok h4
  obtain ⟨n5, e5, c5⟩ := assignStation_ok h5
  subst h e5 e4 e3 e2 e1
  refine ⟨rfl, rfl, ?_, ?_, ?_, ?_, ?_, rfl, rfl, rfl⟩
  · exact c1
  · exact c2
  · exact c3
  · exact c4
  · exact c5

theorem assignFields_error {validId : String → Bool} {db : Db} {user : User}
    {body : PresenceBody} {old : PresenceDoc} {e : Response Presence}
    (h : assignFields validId db user body old = .error e) :
    e.status = 400 ∨ e.status = 403 ∨ e.status = 500 := by
  unfold assignFields at h
  cases h1 : assignSemaine body old with
  | error e1 =>
      rw [h1] at h; simp only [Except.bind, Except.error.injEq] at h
      subst h; exact Or.inl (assignSemaine_error h1)
  | ok p1 =>
  rw [h1] at h
  simp only [Except.bind] at h
  cases h2 : assignJour body p1 with
  | error e1 =>
      rw [h2] at h; simp only [Except.error.injEq] at h
      subst h; exact Or.inl (assignJour_error h2)
  | ok p2 =>
  rw [h2] at h
  simp only at h
  cases h3 : assignAnnee body p2 with
  | error e1 =>
      rw [h3] at h; simp only [Except.error.injEq] at h
      subst h; exact Or.inl (assignAnnee_error h3)
  | ok p3 =>
  rw [h3] at h
  simp only at h
  cases h4 : assignEmploye validId db body p3 with
  | error e1 =>
      rw [h4] at h; simp only [Except.error.injEq] at h
      subst h
      rcases assignEmploye_error h4 with h | h
      · exact Or.inl h
      · exact Or.inr (Or.inr h)
  | ok p4 =>
  rw [h4] at h
  simp only at h
  cases h5 : assignStation validId db user body p4 with
  | error e1 =>
      rw [h5] at h; simp only [Except.error.injEq] at h
      subst h; exact assignStation_error h5
  | ok p5 =>
  rw [h5] at h
  simp at h

theorem find?_replaceFirst {α : Type} (p : α → Bool) (new : α) (hnew : p new = true)
    (l : List α) (old : α) (h : l.find? p = some old) :
    (replaceFirst p new l).find? p = some new := by
  induction l with
  | nil => simp at h
  | cons x xs ih =>
      unfold replaceFirst
      by_cases hx : p x = true
      · simp [hx, hnew]
      · simp only [hx, Bool.false_eq_true, if_false]
        rw [List.find?_cons_of_neg _ hx] at h ⊢
        exact ih h

/-- The outcomes of `updatePresence`: an error status with the store untouched,
or the status 200 with the loaded document replaced by the document after the
assignments. -/
theorem updatePresence_cases (validId : String → Bool) (db : Db) (user : Option User)
    (id : String) (body : PresenceBody) :
    ((updatePresence validId db user id body).2 = db ∧
      (updatePresence validId db user id body).1.status ∈ [401, 404, 400, 403, 500]) ∨
    (∃ u old new,
      user = some u ∧ validId id = true ∧ db.findPresence id = some old ∧
      (u.role = "admin" ∨ u.station = some old.station) ∧
      assignFields validId db u body old = .ok new ∧
      ((body.semaine.isSome ∨ body.jour.isSome ∨ body.annee.isSome ∨ body.employe.isSome) →
        duplicateOf db id body new = false) ∧
      (updatePresence validId db user id body).2 =
        { db with presences := replaceFirst (fun p => p._id == id) new db.presences } ∧
      (updatePresence validId db user id body).1.status = 200) := by
  unfold updatePresence
  split
  · left; exact ⟨rfl, by simp [Response.fail]⟩
  next u =>
  split
  · left; exact ⟨rfl, by simp [Response.fail, updatePresenceError]⟩
  next hv =>
  split
  · left; exact ⟨rfl, by simp [Response.fail]⟩
  next old hold =>
  split
  · left; exact ⟨rfl, by simp [Response.fail, updatePresenceError]⟩
  next hns =>
  split
  · left; exact ⟨rfl, by simp [Response.fail]⟩
  next hforb =>
  split
  next e he =>
    left
    refine ⟨rfl, ?_⟩
    rcases assignFields_error he with h | h | h <;> simp [h]
  next new hnew =>
  split
  · left; exact ⟨rfl, by simp [Response.fail]⟩
  next hdup =>
  simp only []
  have hid : new._id = old._id := (assignFields_ok hnew).1
  have hold2 : (old._id == id) = true := by
    have := List.find?_some hold
    simpa using this
  have hfound := find?_replaceFirst (fun p : PresenceDoc => p._id == id) new
    (by simpa [hid] using hold2) db.presences old hold
  have hfound2 : Db.findPresence
      { db with presences := replaceFirst (fun p => p._id == id) new db.presences } id
      = some new := hfound
  rw [hfound2]
  right
  refine ⟨u, old, new, rfl, by simpa using hv, hold, ?_, hnew, ?_, rfl, rfl⟩
  · by_cases hadm : u.role = "admin"
    · exact Or.inl hadm
    · right
      by_contra hne
      exact hforb ⟨hadm, fun h => hne h.symm⟩
  · intro hp
    by_contra hd
    exact hdup ⟨hp, by simpa using hd⟩

/-- The outcomes of `deletePresence`: an error status with the store untouched,
or the status 200 with the loaded document removed. -/
theorem deletePresence_cases (validId : String → Bool) (db : Db) (user : Option User)
    (id : String) :
    ((deletePresence validId db user id).2 = db ∧
      (deletePresence validId db user id).1.status ∈ [401, 404, 403, 500]) ∨
    (∃ u old,
      user = some u ∧ validId id = true ∧ db.findPresence id = some old ∧
      (u.role = "admin" ∨ u.station = some old.station) ∧
      (deletePresence validId db user id).2 =
        { db with presences := removeFirst (fun p => p._id == id) db.presences } ∧
      (deletePresence validId db user id).1.status = 200) := by
  unfold deletePresence
  split
  · left; exact ⟨rfl, by simp [Response.fail]⟩
  next u =>
  split
  · left; exact ⟨rfl, by simp [Response.fail]⟩
  next hv =>
  split
  · left; exact ⟨rfl, by simp [Response.fail]⟩
  next old hold =>
  split
  · left; exact ⟨rfl, by simp [Response.fail]⟩
  next hns =>
  split
  · left; exact ⟨rfl, by simp [Response.fail]⟩
  next hforb =>
  right
  refine ⟨u, old, rfl, by simpa using hv, hold, ?_, rfl, rfl⟩
  by_cases hadm : u.role = "admin"
  · exact Or.inl hadm
  · right
    by_contra hne
    exact hforb ⟨hadm, fun h => hne h.symm⟩

/-! ## Invariants of the presence store -/

theorem removeFirst_sublist {α : Type} (p : α → Bool) (l : List α) :
    (removeFirst p l).Sublist l := by
  induction l with
  | nil => exact List.Sublist.refl _
  | cons x xs ih =>
      unfold removeFirst
      split
      · exact List.sublist_cons_self x xs
      · exact ih.cons₂ x

theorem mem_replaceFirst {α : Type} (p : α → Bool) (new : α) (l : List α) (y : α)
    (h : y ∈ replaceFirst p new l) : y ∈ l ∨ y = new := by
  induction l with
  | nil => simp [replaceFirst] at h
  | cons x xs ih =>
      unfold replaceFirst at h
      split at h
      · rcases List.mem_cons.1 h with h | h
        · exact Or.inr h
        · exact Or.inl (List.mem_cons_of_mem _ h)
      · rcases List.mem_cons.1 h with h | h
        · exact Or.inl (h ▸ List.mem_cons_self _ _)
        · rcases ih h with h | h
          · exact Or.inl (List.mem_cons_of_mem _ h)
          · exact Or.inr h

/-- Replacing the document of an identifier keeps the keys distinct, when the
identifiers are distinct and every stored document with the key of the new one
has this identifier. -/
theorem nodup_replaceFirst {α β γ : Type} [DecidableEq γ] (f : α → β) (g : α → γ) (id : γ)
    (new : α) (l : List α) (hkey : (l.map f).Nodup) (hid : (l.map g).Nodup)
    (hnew : ∀ x ∈ l, f x = f new → g x = id) :
    ((replaceFirst (fun x => g x == id) new l).map f).Nodup := by
  induction l with
  | nil => simp [replaceFirst]
  | cons x xs ih =>
      rw [List.map_cons, List.nodup_cons] at hkey hid
      unfold replaceFirst
      by_cases hx : g x = id
      · simp only [hx, beq_self_eq_true, if_true, List.map_cons, List.nodup_cons]
        refine ⟨?_, hkey.2⟩
        intro hmem
        obtain ⟨y, hy, hfy⟩ := List.mem_map.1 hmem
        have hgy : g y = id := hnew y (List.mem_cons_of_mem _ hy) hfy
        exact hid.1 (List.mem_map.2 ⟨y, hy, hgy.trans hx.symm⟩)
      · have hx2 : (g x == id) = false := by simpa using hx
        simp only [hx2, Bool.false_eq_true, if_false, List.map_cons, List.nodup_cons]
        refine ⟨?_, ih hkey.2 hid.2 (fun y hy => hnew y (List.mem_cons_of_mem _ hy))⟩
        intro hmem
        obtain ⟨y, hy, hfy⟩ := List.mem_map.1 hmem
        rcases mem_replaceFirst _ _ _ _ hy with hy | hy
        · exact hkey.1 (List.mem_map.2 ⟨y, hy, hfy⟩)
        · subst hy
          exact hx (hnew x (List.mem_cons_self _ _) hfy.symm)

/-- After the assignments of `updatePresence` the query of its duplicate check
is the key of the document to save. -/
theorem duplicateOf_eq {validId : String → Bool} {db : Db} {user : User}
    {body : PresenceBody} {old new : PresenceDoc} (id : String)
    (h : assignFields validId db user body old = .ok new) :
    duplicateOf db id body new =
      db.presences.any (fun p => decide (p.key = new.key ∧ p._id ≠ id)) := by
  obtain ⟨-, -, hs, hj, ha, he, -⟩ := assignFields_ok h
  have e1 : (body.semaine.bind JsNumeric.parseInt).getD new.semaine = new.semaine := by
    cases hb : body.semaine with
    | none => rfl
    | some s =>
        rw [hb] at hs
        simp only [Option.bind, hs.1, Option.getD_some]
  have e2 : (if truthyStr body.jour then body.jour.getD "" else new.jour) = new.jour := by
    cases hb : body.jour with
    | none => simp [truthyStr]
    | some s =>
        rw [hb] at hj
        simp [hj.1]
  have e3 : (body.annee.bind JsNumeric.parseInt).getD new.annee = new.annee := by
    cases hb : body.annee with
    | none => rfl
    | some s =>
        rw [hb] at ha
        simp only [Option.bind, ha.1, Option.getD_some]
  have e4 : (if truthyStr body.employe then body.employe.getD "" else new.employe)
      = new.employe := by
    cases hb : body.employe with
    | none => simp [truthyStr]
    | some s =>
        rw [hb] at he
        simp [he.1]
  unfold duplicateOf
  simp only [e1, e2, e3, e4, PresenceDoc.key, Prod.mk.injEq, and_assoc]

/-- C17: if no two stored presences share the key (semaine, jour, annee,
employe), and the identifiers of the stored documents are distinct (the unique
index of the database on `_id`), then after one call of `createPresence`, of
`updatePresence` or of `deletePresence`, whatever its request and its caller,
still no two stored presences share the key. -/
theorem presence_key_unique (validId : String → Bool) (db : Db) (user : Option User)
    (id : String) (body : PresenceBody) (newId : String) (now : Int)
    (hid : (db.presences.map (fun p => p._id)).Nodup)
    (hkey : (db.presences.map PresenceDoc.key).Nodup) :
    ((createPresence validId db user body newId now).2.presences.map PresenceDoc.key).Nodup ∧
    ((updatePresence validId db user id body).2.presences.map PresenceDoc.key).Nodup ∧
    ((deletePresence validId db user id).2.presences.map PresenceDoc.key).Nodup := by
  refine ⟨?_, ?_, ?_⟩
  · rcases createPresence_cases validId db user body newId now with h |
      ⟨u, ps, pa, j, e, s, -, -, -, -, -, -, -, -, -, -, -, -, -, -, -, -, hdup, hdb, -⟩
    · rw [h.1]; exact hkey
    · rw [hdb]
      simp only [List.map_append, List.map_cons, List.map_nil]
      rw [List.nodup_append]
      refine ⟨hkey, List.nodup_singleton _, ?_⟩
      intro k hk hk2
      rw [List.mem_singleton] at hk2
      subst hk2
      obtain ⟨p, hp, hpk⟩ := List.mem_map.1 hk
      simp only [PresenceDoc.key, Prod.mk.injEq] at hpk
      exact hdup p hp hpk
  · rcases updatePresence_cases validId db user id body with h |
      ⟨u, old, new, -, -, hold, -, hnew, hdup, hdb, -⟩
    · rw [h.1]; exact hkey
    · rw [hdb]
      apply nodup_replaceFirst PresenceDoc.key (fun p : PresenceDoc => p._id) id new
        db.presences hkey hid
      intro x hx hfx
      have hoid : old._id = id := by
        have := List.find?_some hold
        simpa using this
      have hnid : new._id = old._id := (assignFields_ok hnew).1
      by_cases hprov : body.semaine.isSome ∨ body.jour.isSome ∨ body.annee.isSome ∨
          body.employe.isSome
      · have hd := hdup hprov
        rw [duplicateOf_eq id hnew] at hd
        by_contra hne
        have : (db.presences.any (fun p => decide (p.key = new.key ∧ p._id ≠ id))) = true := by
          rw [List.any_eq_true]
          exact ⟨x, hx, by simpa using ⟨hfx, hne⟩⟩
        rw [hd] at this
        exact Bool.false_ne_true this
      · obtain ⟨-, -, hs, hj, ha, he, -⟩ := assignFields_ok hnew
        have b1 : body.semaine = none := by
          cases hb : body.semaine with
          | none => rfl
          | some s => exact absurd (Or.inl (by simp [hb])) hprov
        have b2 : body.jour = none := by
          cases hb : body.jour with
          | none => rfl
          | some s => exact absurd (Or.inr (Or.inl (by simp [hb]))) hprov
        have b3 : body.annee = none := by
          cases hb : body.annee with
          | none => rfl
          | some s => exact absurd (Or.inr (Or.inr (Or.inl (by simp [hb])))) hprov
        have b4 : body.employe = none := by
          cases hb : body.employe with
          | none => rfl
          | some s => exact absurd (Or.inr (Or.inr (Or.inr (by simp [hb])))) hprov
        rw [b1] at hs
        rw [b2] at hj
        rw [b3] at ha
        rw [b4] at he
        have hk : new.key = old.key := by
          simp only [PresenceDoc.key, Prod.mk.injEq]
          exact ⟨hs, hj, ha, he⟩
        have hmem : old ∈ db.presences := List.mem_of_find?_eq_some hold
        have hxo : x = old :=
          List.inj_on_of_nodup_map hkey hx hmem (hfx.trans hk)
        rw [hxo]; exact hoid
  · rcases deletePresence_cases validId db user id with h | ⟨u, old, -, -, -, -, hdb, -⟩
    · rw [h.1]; exact hkey
    · rw [hdb]
      exact hkey.sublist ((removeFirst_sublist _ _).map _)

/-- C17, witness: the sample store, whose one presence is that of Anne Martin,
and the request of the manager of station Nord for Jean Dupont. -/
theorem presence_key_unique_witness :
    ((createPresence (fun _ => true) sampleStore (some managerNord) jeanMonday "r2"
        1709700000000).2.presences.map PresenceDoc.key).Nodup ∧
    ((updatePresence (fun _ => true) sampleStore (some managerNord) "r1"
        jeanMonday).2.presences.map PresenceDoc.key).Nodup ∧
    ((deletePresence (fun _ => true) sampleStore (some managerNord)
        "r1").2.presences.map PresenceDoc.key).Nodup :=
  presence_key_unique (fun _ => true) sampleStore (some managerNord) "r1" jeanMonday "r2"
    1709700000000 (by decide) (by decide)

/-- C22: a `createPresence` that ends with a status other than 201, and an
`updatePresence` that ends with a status other than 200, leave the store as it
was before the request: nothing is inserted and no field of a stored document
changes, the assignments of `updatePresence` being made on the loaded copy. -/
theorem presence_failure_keeps_store (validId : String → Bool) (db : Db)
    (user : Option User) (id : String) (body : PresenceBody) (newId : String) (now : Int) :
    ((createPresence validId db user body newId now).1.status ≠ 201 →
      (createPresence validId db user body newId now).2 = db) ∧
    ((updatePresence validId db user id body).1.status ≠ 200 →
      (updatePresence validId db user id body).2 = db) := by
  constructor
  · intro hs
    rcases createPresence_cases validId db user body newId now with h | h
    · exact h.1
    · obtain ⟨u, ps, pa, j, e, s, h⟩ := h
      exact absurd h.2.2.2.2.2.2.2.2.2.2.2.2.2.2.2.2.2.2 hs
  · intro hs
    rcases updatePresence_cases validId db user id body with h | h
    · exact h.1
    · obtain ⟨u, old, new, h⟩ := h
      exact absurd h.2.2.2.2.2.2.2 hs

/-- C22, witness: the manager of station Nord asks for a presence of Anne
Martin at station Sud (403); an admin asks to move the presence of Anne Martin
to week 54 (400). -/
theorem presence_failure_keeps_store_witness :
    (createPresence (fun _ => true) sampleStore (some managerNord)
        { jeanMonday with employe := some "e2", station := some "s2" } "r2"
        1709700000000).1.status = 403 ∧
    (createPresence (fun _ => true) sampleStore (some managerNord)
        { jeanMonday with employe := some "e2", station := some "s2" } "r2"
        1709700000000).2 = sampleStore ∧
    (updatePresence (fun _ => true) sampleStore (some adminUser) "r1"
        { flagOnly false with semaine := some (.num 54) }).1.status = 400 ∧
    (updatePresence (fun _ => true) sampleStore (some adminUser) "r1"
        { flagOnly false with semaine := some (.num 54) }).2 = sampleStore :=
  ⟨by decide,
    (presence_failure_keeps_store (fun _ => true) sampleStore (some managerNord) "r1"
      { jeanMonday with employe := some "e2", station := some "s2" } "r2"
      1709700000000).1 (by decide),
    by decide,
    (presence_failure_keeps_store (fun _ => true) sampleStore (some adminUser) "r1"
      { flagOnly false with semaine := some (.num 54) } "r2" 1709700000000).2 (by decide)⟩

/-! ## Validation and authorization of the presence controller -/

/-- On a safe integer `parseInt` of the number is the number. -/
theorem numberParseInt_safe (n : Int) (h : n.natAbs < 9007199254740992) :
    numberParseInt n = some n := by
  unfold numberParseInt roundToDouble
  simp only [h, if_true]
  have h2 : n.natAbs < 10 ^ 21 := by
    have : (9007199254740992 : Nat) < 10 ^ 21 := by norm_num
    omega
  simp only [h2, if_true, Option.some.injEq]
  split <;> omega

/-- Samples of `parseInt` on a number: 2^53 + 1 is the Number 2^53; the text of
1e21 is `1e+21`, which reads as 1, and so does the text of 999999999999999999999,
the same Number; the text of 1234567890123456789012345 is
`1.2345678901234568e+24`. -/
theorem numberParseInt_samples :
    numberParseInt 53 = some 53 ∧
    numberParseInt 9007199254740993 = some 9007199254740992 ∧
    numberParseInt 1000000000000000000000 = some 1 ∧
    numberParseInt (-1000000000000000000000) = some (-1) ∧
    numberParseInt 999999999999999999999 = some 1 ∧
    numberParseInt 7000000000000000000000 = some 7 ∧
    numberParseInt 1234567890123456789012345 = some 1 := by
  decide

/-- A request for week 1e21 is accepted: `parseInt(1e21)` is 1, and the record
is stored with week 1. -/
theorem createPresence_1e21 :
    validSemaine (some (.num 1000000000000000000000)) ∧
    (createPresence (fun _ => true) sampleStore (some managerNord)
      { jeanMonday with semaine := some (.num 1000000000000000000000) } "r2"
      1709700000000).1.status = 201 ∧
    ((createPresence (fun _ => true) sampleStore (some managerNord)
      { jeanMonday with semaine := some (.num 1000000000000000000000) } "r2"
      1709700000000).2.presences.map fun p => (p._id, p.semaine)) =
      [("r1", 10), ("r2", 1)] := by
  refine ⟨⟨1, by decide, by decide, by decide⟩, by decide, by decide⟩

/-- An authenticated `createPresence` whose day, week or year is not valid
answers 400. -/
theorem createPresence_invalid (validId : String → Bool) (db : Db) (u : User)
    (body : PresenceBody) (newId : String) (now : Int)
    (h : ¬ (validJour body.jour ∧ validSemaine body.semaine ∧ validAnnee body.annee)) :
    (createPresence validId db (some u) body newId now).1.status = 400 := by
  unfold createPresence
  simp only []
  split
  · rfl
  next hreq =>
  split
  next ps pa hps hpa =>
    unfold createPresenceParsed
    split
    · rfl
    next hw =>
    split
    · rfl
    next hy =>
    split
    · rfl
    next hj =>
    exfalso
    apply h
    have hjs : body.jour = some (body.jour.getD "") := by
      cases hb : body.jour with
      | none => simp [hb, truthyStr] at hreq
      | some j => rfl
    exact ⟨⟨_, hjs, by simpa using hj⟩, ⟨ps, hps, by omega, by omega⟩,
      ⟨pa, hpa, by omega, by omega⟩⟩
  · rfl

/-- An `updatePresence` that reaches its validation with a provided week, day
or year that is not valid answers 400. -/
theorem updatePresence_invalid (validId : String → Bool) (db : Db) (u : User)
    (id : String) (body : PresenceBody) (old : PresenceDoc)
    (hv : validId id = true) (hold : db.findPresence id = some old)
    (hperm : u.role = "admin" ∨ u.station = some old.station)
    (h : (body.semaine.isSome = true ∧ ¬ validSemaine body.semaine) ∨
      (body.jour.isSome = true ∧ ¬ validJour body.jour) ∨
      (body.annee.isSome = true ∧ ¬ validAnnee body.annee)) :
    (updatePresence validId db (some u) id body).1.status = 400 := by
  have h1 : ¬ (u.role ≠ "admin" ∧ u.station.isNone = true) := by
    rintro ⟨hr, hs⟩
    rcases hperm with hp | hp
    · exact hr hp
    · rw [hp] at hs; simp at hs
  have h2 : ¬ (u.role ≠ "admin" ∧ some old.station ≠ u.station) := by
    rintro ⟨hr, hs⟩
    rcases hperm with hp | hp
    · exact hr hp
    · exact hs hp.symm
  unfold updatePresence
  simp only [hv, Bool.not_true, Bool.false_eq_true, if_false, hold, h1, h2]
  unfold assignFields
  cases e1 : assignSemaine body old with
  | error e => exact assignSemaine_error e1
  | ok p1 =>
  obtain ⟨n1, -, c1⟩ := assignSemaine_ok e1
  simp only [Except.bind]
  cases e2 : assignJour body p1 with
  | error e => exact assignJour_error e2
  | ok p2 =>
  obtain ⟨n2, -, c2⟩ := assignJour_ok e2
  simp only []
  cases e3 : assignAnnee body p2 with
  | error e => exact assignAnnee_error e3
  | ok p3 =>
  obtain ⟨n3, -, c3⟩ := assignAnnee_ok e3
  exfalso
  rcases h with ⟨hs, hn⟩ | ⟨hs, hn⟩ | ⟨hs, hn⟩
  · cases hb : body.semaine with
    | none => rw [hb] at hs; simp at hs
    | some s =>
        rw [hb] at c1 hn
        exact hn ⟨n1, c1.1, c1.2.1, c1.2.2⟩
  · cases hb : body.jour with
    | none => rw [hb] at hs; simp at hs
    | some s =>
        rw [hb] at c2 hn
        exact hn ⟨s, rfl, c2.1 ▸ c2.2⟩
  · cases hb : body.annee with
    | none => rw [hb] at hs; simp at hs
    | some s =>
        rw [hb] at c3 hn
        exact hn ⟨n3, c3.1, c3.2.1, c3.2.2⟩

/-- C24: for an authenticated caller, `createPresence` answers 201 only if the
day is one of the seven French day names, the week parses to an integer in
1..53 and the year to an integer in 2000..2100, and answers 400 when one of the
three fails; `updatePresence` answers 200 only if each of the three fields that
the request provides passes the same check, and answers 400 when one fails and
the request has reached the validation (record found, caller admitted for its
station); hence both handlers keep every stored presence well formed. -/
theorem presence_validation (validId : String → Bool) (db : Db) (u : User) (id : String)
    (body : PresenceBody) (newId : String) (now : Int) :
    ((createPresence validId db (some u) body newId now).1.status = 201 →
      validJour body.jour ∧ validSemaine body.semaine ∧ validAnnee body.annee) ∧
    (¬ (validJour body.jour ∧ validSemaine body.semaine ∧ validAnnee body.annee) →
      (createPresence validId db (some u) body newId now).1.status = 400) ∧
    ((updatePresence validId db (some u) id body).1.status = 200 →
      (body.jour.isSome = true → validJour body.jour) ∧
      (body.semaine.isSome = true → validSemaine body.semaine) ∧
      (body.annee.isSome = true → validAnnee body.annee)) ∧
    (∀ old, validId id = true → db.findPresence id = some old →
      (u.role = "admin" ∨ u.station = some old.station) →
      ((body.semaine.isSome = true ∧ ¬ validSemaine body.semaine) ∨
        (body.jour.isSome = true ∧ ¬ validJour body.jour) ∨
        (body.annee.isSome = true ∧ ¬ validAnnee body.annee)) →
      (updatePresence validId db (some u) id body).1.status = 400) ∧
    ((∀ p ∈ db.presences, p.WellFormed) →
      (∀ p ∈ (createPresence validId db (some u) body newId now).2.presences,
        p.WellFormed) ∧
      (∀ p ∈ (updatePresence validId db (some u) id body).2.presences, p.WellFormed)) := by
  refine ⟨?_, createPresence_invalid validId db u body newId now, ?_,
    fun old hv hold hperm h => updatePresence_invalid validId db u id body old hv hold hperm h,
    ?_⟩
  · intro hs
    rcases createPresence_cases validId db (some u) body newId now with h |
      ⟨u2, ps, pa, j, e, s, -, hps, hpa, hj, -, -, h1, h2, h3, h4, hjv, -⟩
    · rw [hs] at h; simp at h
    · exact ⟨⟨j, hj, hjv⟩, ⟨ps, hps, h1, h2⟩, ⟨pa, hpa, h3, h4⟩⟩
  · intro hs
    rcases updatePresence_cases validId db (some u) id body with h |
      ⟨u2, old, new, -, -, -, -, hnew, -⟩
    · rw [hs] at h; simp at h
    · obtain ⟨-, -, c1, c2, c3, -⟩ := assignFields_ok hnew
      refine ⟨?_, ?_, ?_⟩
      · intro hp
        cases hb : body.jour with
        | none => rw [hb] at hp; simp at hp
        | some s =>
            rw [hb] at c2
            exact ⟨s, rfl, c2.1 ▸ c2.2⟩
      · intro hp
        cases hb : body.semaine with
        | none => rw [hb] at hp; simp at hp
        | some s =>
            rw [hb] at c1
            exact ⟨new.semaine, c1.1, c1.2.1, c1.2.2⟩
      · intro hp
        cases hb : body.annee with
        | none => rw [hb] at hp; simp at hp
        | some s =>
            rw [hb] at c3
            exact ⟨new.annee, c3.1, c3.2.1, c3.2.2⟩
  · intro hall
    constructor
    · rcases createPresence_cases validId db (some u) body newId now with h |
        ⟨u2, ps, pa, j, e, s, -, -, -, -, -, -, h1, h2, h3, h4, hjv, -, -, -, -, -, -, hdb, -⟩
      · rw [h.1]; exact hall
      · rw [hdb]
        intro p hp
        rcases List.mem_append.1 hp with hp | hp
        · exact hall p hp
        · rw [List.mem_singleton] at hp
          subst hp
          exact ⟨hjv, h1, h2, h3, h4⟩
    · rcases updatePresence_cases validId db (some u) id body with h |
        ⟨u2, old, new, -, -, hold, -, hnew, -, hdb, -⟩
      · rw [h.1]; exact hall
      · rw [hdb]
        intro p hp
        rcases mem_replaceFirst _ _ _ _ hp with hp | hp
        · exact hall p hp
        · subst hp
          obtain ⟨ho1, ho2, ho3, ho4, ho5⟩ := hall old (List.mem_of_find?_eq_some hold)
          obtain ⟨-, -, c1, c2, c3, -⟩ := assignFields_ok hnew
          refine ⟨?_, ?_, ?_, ?_, ?_⟩
          · cases hb : body.jour with
            | none => rw [hb] at c2; rw [c2]; exact ho1
            | some s => rw [hb] at c2; exact c2.2
          · cases hb : body.semaine with
            | none => rw [hb] at c1; rw [c1]; exact ho2
            | some s => rw [hb] at c1; exact c1.2.1
          · cases hb : body.semaine with
            | none => rw [hb] at c1; rw [c1]; exact ho3
            | some s => rw [hb] at c1; exact c1.2.2
          · cases hb : body.annee with
            | none => rw [hb] at c3; rw [c3]; exact ho4
            | some s => rw [hb] at c3; exact c3.2.1
          · cases hb : body.annee with
            | none => rw [hb] at c3; rw [c3]; exact ho5
            | some s => rw [hb] at c3; exact c3.2.2

/-- C24, witness: on the sample store the request for Jean Dupont on Monday is
accepted, the same request for the day `Monday` is answered 400, and an update
to week 54 is answered 400. -/
theorem presence_validation_witness :
    (createPresence (fun _ => true) sampleStore (some managerNord) jeanMonday "r2"
      1709700000000).1.status = 201 ∧
    (validJour jeanMonday.jour ∧ validSemaine jeanMonday.semaine ∧
      validAnnee jeanMonday.annee) ∧
    (createPresence (fun _ => true) sampleStore (some managerNord)
      { jeanMonday with jour := some "Monday" } "r2" 1709700000000).1.status = 400 ∧
    (updatePresence (fun _ => true) sampleStore (some adminUser) "r1"
      { flagOnly false with semaine := some (.num 54) }).1.status = 400 ∧
    (∀ p ∈ (createPresence (fun _ => true) sampleStore (some managerNord) jeanMonday "r2"
      1709700000000).2.presences, p.WellFormed) :=
  ⟨by decide,
    (presence_validation (fun _ => true) sampleStore managerNord "r1" jeanMonday "r2"
      1709700000000).1 (by decide),
    (presence_validation (fun _ => true) sampleStore managerNord "r1"
      { jeanMonday with jour := some "Monday" } "r2" 1709700000000).2.1
      (by
        rintro ⟨⟨j, hj, hjv⟩, -⟩
        simp only [Option.some.injEq] at hj
        subst hj
        revert hjv
        decide),
    (presence_validation (fun _ => true) sampleStore adminUser "r1"
      { flagOnly false with semaine := some (.num 54) } "r2" 1709700000000).2.2.2.1
      anneTuesday rfl (by decide) (Or.inl rfl)
      (Or.inl ⟨rfl, by
        rintro ⟨n, hn, -, h53⟩
        have h54 : numberParseInt 54 = some 54 := by decide
        simp only [Option.bind, JsNumeric.parseInt, h54, Option.some.injEq] at hn
        omega⟩),
    ((presence_validation (fun _ => true) sampleStore managerNord "r1" jeanMonday "r2"
      1709700000000).2.2.2.2 (by decide)).1⟩

theorem truthyNum_of_validSemaine {v : Option JsNumeric} (h : validSemaine v) :
    truthyNum v = true := by
  obtain ⟨n, hn, h1, -⟩ := h
  cases v with
  | none => simp at hn
  | some x =>
      cases x with
      | num m =>
          simp only [truthyNum, decide_eq_true_eq]
          intro hm
          subst hm
          have h0 : numberParseInt 0 = some 0 := by decide
          simp only [Option.bind, JsNumeric.parseInt, h0, Option.some.injEq] at hn
          omega
      | str t =>
          simp only [truthyNum, decide_eq_true_eq]
          intro ht
          subst ht
          have hnone : parseIntString "" = none := by decide
          simp only [Option.bind, JsNumeric.parseInt, hnone] at hn
          exact absurd hn (by simp)

theorem truthyNum_of_validAnnee {v : Option JsNumeric} (h : validAnnee v) :
    truthyNum v = true := by
  obtain ⟨n, hn, h1, -⟩ := h
  cases v with
  | none => simp at hn
  | some x =>
      cases x with
      | num m =>
          simp only [truthyNum, decide_eq_true_eq]
          intro hm
          subst hm
          have h0 : numberParseInt 0 = some 0 := by decide
          simp only [Option.bind, JsNumeric.parseInt, h0, Option.some.injEq] at hn
          omega
      | str t =>
          simp only [truthyNum, decide_eq_true_eq]
          intro ht
          subst ht
          have hnone : parseIntString "" = none := by decide
          simp only [Option.bind, JsNumeric.parseInt, hnone] at hn
          exact absurd hn (by simp)

theorem truthyStr_of_validJour {v : Option String} (h : validJour v) :
    truthyStr v = true := by
  obtain ⟨j, hj, hjv⟩ := h
  subst hj
  simp only [truthyStr, decide_eq_true_eq]
  intro h0
  subst h0
  revert hjv
  decide

/-- A valid `createPresence` of a caller who is not admin, for a station that
exists and is not the one of the caller, is answered 403. -/
theorem createPresence_forbidden (validId : String → Bool) (db : Db) (u : User)
    (body : PresenceBody) (newId : String) (now : Int) (s t e : String)
    (hrole : u.role ≠ "admin") (hs : u.station = some s)
    (ht : body.station = some t) (hts : t ≠ s) (ht0 : t ≠ "")
    (hj : validJour body.jour) (hw : validSemaine body.semaine) (hy : validAnnee body.annee)
    (he : body.employe = some e) (he0 : e ≠ "")
    (hve : validId e = true) (hfe : (db.findEmploye e).isSome = true)
    (hvt : validId t = true) (hft : (db.findStation t).isSome = true) :
    (createPresence validId db (some u) body newId now).1.status = 403 := by
  have t1 := truthyNum_of_validSemaine hw
  have t2 := truthyNum_of_validAnnee hy
  have t3 := truthyStr_of_validJour hj
  obtain ⟨j, hj1, hj2⟩ := hj
  obtain ⟨ps, hps, hps1, hps2⟩ := hw
  obtain ⟨pa, hpa, hpa1, hpa2⟩ := hy
  have t4 : truthyStr body.employe = true := by simp [he, truthyStr, he0]
  have t5 : truthyStr body.station = true := by simp [ht, truthyStr, ht0]
  have r1 : ¬ (ps < 1 ∨ ps > 53) := by omega
  have r2 : ¬ (pa < 2000 ∨ pa > 2100) := by omega
  have hfe2 : (db.findEmploye e).isNone = false := by
    cases h : db.findEmploye e <;> simp_all
  have hft2 : (db.findStation t).isNone = false := by
    cases h : db.findStation t <;> simp_all
  have hne : some t ≠ some s := fun h => hts (Option.some.inj h)
  unfold createPresence
  simp only [t1, t2, t3, t4, t5, Bool.not_true, Bool.or_self, Bool.false_eq_true, if_false,
    hps, hpa]
  unfold createPresenceParsed
  simp only [r1, r2, if_false, hj1, Option.getD_some, hj2, not_true_eq_false, he, ht]
  unfold createPresenceChecked
  simp only [hve, hvt, Bool.not_true, Bool.false_eq_true, if_false, hfe2, hft2, hs,
    Option.isNone_some, and_false, hrole, ne_eq, not_false_eq_true, hne, and_self, if_true]
  rfl

/-- An `updatePresence` or a `deletePresence` of a caller who is not admin on a
record of another station is answered 403 and changes nothing. -/
theorem presence_other_station (validId : String → Bool) (db : Db) (u : User) (id : String)
    (body : PresenceBody) (s : String) (old : PresenceDoc)
    (hrole : u.role ≠ "admin") (hs : u.station = some s)
    (hv : validId id = true) (hold : db.findPresence id = some old)
    (hos : old.station ≠ s) :
    (updatePresence validId db (some u) id body).1.status = 403 ∧
    (updatePresence validId db (some u) id body).2 = db ∧
    (deletePresence validId db (some u) id).1.status = 403 ∧
    (deletePresence validId db (some u) id).2 = db := by
  have hne : some old.station ≠ some s := fun h => hos (Option.some.inj h)
  unfold updatePresence deletePresence
  simp only [hv, Bool.not_true, Bool.false_eq_true, if_false, hold, hs, Option.isNone_some,
    and_false, hrole, ne_eq, not_false_eq_true, hne, and_self, if_true]
  simp [Response.fail]

/-- The first four blocks of `assignFields` succeed when each provided field
is valid. -/
theorem assignFields_station (validId : String → Bool) (db : Db) (u : User)
    (body : PresenceBody) (old : PresenceDoc)
    (hw : body.semaine.isSome = true → validSemaine body.semaine)
    (hj : body.jour.isSome = true → validJour body.jour)
    (hy : body.annee.isSome = true → validAnnee body.annee)
    (he : ∀ e, body.employe = some e → validId e = true ∧ (db.findEmploye e).isSome = true) :
    ∃ p4, p4.station = old.station ∧
      assignFields validId db u body old =
        (assignStation validId db u body p4).bind fun p5 => .ok (assignRest body p5) := by
  unfold assignFields
  have e1 : ∃ p1, assignSemaine body old = .ok p1 ∧ p1.station = old.station := by
    unfold assignSemaine
    cases hb : body.semaine with
    | none => exact ⟨old, rfl, rfl⟩
    | some x =>
        obtain ⟨n, hn, h1, h2⟩ := hw (by simp [hb])
        rw [hb] at hn
        simp only [Option.bind] at hn
        have r : ¬ (n < 1 ∨ n > 53) := by omega
        simp only [hn, r, if_false]
        exact ⟨_, rfl, rfl⟩
  obtain ⟨p1, hp1, hs1⟩ := e1
  have e2 : ∃ p2, assignJour body p1 = .ok p2 ∧ p2.station = old.station := by
    unfold assignJour
    cases hb : body.jour with
    | none => exact ⟨p1, rfl, hs1⟩
    | some x =>
        obtain ⟨j, hj1, hj2⟩ := hj (by simp [hb])
        rw [hb] at hj1
        simp only [Option.some.injEq] at hj1
        subst hj1
        simp only [hj2, not_true_eq_false, if_false]
        exact ⟨_, rfl, hs1⟩
  obtain ⟨p2, hp2, hs2⟩ := e2
  have e3 : ∃ p3, assignAnnee body p2 = .ok p3 ∧ p3.station = old.station := by
    unfold assignAnnee
    cases hb : body.annee with
    | none => exact ⟨p2, rfl, hs2⟩
    | some x =>
        obtain ⟨n, hn, h1, h2⟩ := hy (by simp [hb])
        rw [hb] at hn
        simp only [Option.bind] at hn
        have r : ¬ (n < 2000 ∨ n > 2100) := by omega
        simp only [hn, r, if_false]
        exact ⟨_, rfl, hs2⟩
  obtain ⟨p3, hp3, hs3⟩ := e3
  have e4 : ∃ p4, assignEmploye validId db body p3 = .ok p4 ∧ p4.station = old.station := by
    unfold assignEmploye
    cases hb : body.employe with
    | none => exact ⟨p3, rfl, hs3⟩
    | some x =>
        obtain ⟨h1, h2⟩ := he x hb
        have h3 : (db.findEmploye x).isNone = false := by
          cases h : db.findEmploye x <;> simp_all
        simp only [h1, h3, Bool.not_true, Bool.false_eq_true, if_false]
        exact ⟨_, rfl, hs3⟩
  obtain ⟨p4, hp4, hs4⟩ := e4
  refine ⟨p4, hs4, ?_⟩
  rw [hp1]
  simp only [Except.bind]
  rw [hp2]
  simp only []
  rw [hp3]
  simp only []
  rw [hp4]

/-- An authenticated `createPresence` is never answered 401. -/
theorem createPresence_ne_401 (validId : String → Bool) (db : Db) (u : User)
    (body : PresenceBody) (newId : String) (now : Int) :
    (createPresence validId db (some u) body newId now).1.status ≠ 401 := by
  unfold createPresence
  simp only []
  split
  · simp [Response.fail, createPresenceError, updatePresenceError]
  split
  · unfold createPresenceParsed
    split
    · simp [Response.fail, createPresenceError, updatePresenceError]
    split
    · simp [Response.fail, createPresenceError, updatePresenceError]
    split
    · simp [Response.fail, createPresenceError, updatePresenceError]
    unfold createPresenceChecked
    split
    · simp [Response.fail, createPresenceError, updatePresenceError]
    split
    · simp [Response.fail, createPresenceError, updatePresenceError]
    split
    · simp [Response.fail, createPresenceError, updatePresenceError]
    split
    · simp [Response.fail, createPresenceError, updatePresenceError]
    split
    · simp [Response.fail, createPresenceError, updatePresenceError]
    split
    · simp [Response.fail, createPresenceError, updatePresenceError]
    split
    · simp [Response.fail, createPresenceError, updatePresenceError]
    simp only []
    split <;> simp [Response.fail]
  · simp [Response.fail, createPresenceError, updatePresenceError]

/-- An authenticated `updatePresence` is never answered 401. -/
theorem updatePresence_ne_401 (validId : String → Bool) (db : Db) (u : User) (id : String)
    (body : PresenceBody) :
    (updatePresence validId db (some u) id body).1.status ≠ 401 := by
  unfold updatePresence
  simp only []
  split
  · simp [Response.fail, createPresenceError, updatePresenceError]
  split
  · simp [Response.fail, createPresenceError, updatePresenceError]
  split
  · simp [Response.fail, createPresenceError, updatePresenceError]
  split
  · simp [Response.fail, createPresenceError, updatePresenceError]
  split
  next e he =>
    rcases assignFields_error he with h | h | h <;> simp [h]
  split
  · simp [Response.fail, createPresenceError, updatePresenceError]
  split <;> simp [Response.fail]

/-- C18, as the code has it: for a caller who is not admin and whose token
carries the station `s`.  A `createPresence` for another station leaves the
store unchanged and is answered 400, 403 or 500; the answer is 403 when the
request passes the checks that come before the station check (required fields,
week, day, year, employee and station found).  An `updatePresence` that names
another station leaves the store unchanged and is answered 400, 403, 404 or
500; the answer is 403 when the record is found and the request passes the
checks that come before the station check (the week, the day and the year that
it provides, the employee that it provides found, the station found).  An
`updatePresence`, whatever its body, and a `deletePresence` on a record of
another station are answered 403 and leave the store unchanged. -/
theorem presence_station_scope (validId : String → Bool) (db : Db) (u : User) (id : String)
    (body : PresenceBody) (newId : String) (now : Int) (s : String)
    (hrole : u.role ≠ "admin") (hs : u.station = some s) :
    (∀ t, body.station = some t → t ≠ s →
      (createPresence validId db (some u) body newId now).2 = db ∧
      (createPresence validId db (some u) body newId now).1.status ∈ [400, 403, 500] ∧
      (t ≠ "" → validJour body.jour → validSemaine body.semaine → validAnnee body.annee →
        (∃ e, body.employe = some e ∧ e ≠ "" ∧ validId e = true ∧
          (db.findEmploye e).isSome = true) →
        validId t = true → (db.findStation t).isSome = true →
        (createPresence validId db (some u) body newId now).1.status = 403)) ∧
    (∀ t, body.station = some t → t ≠ s →
      (updatePresence validId db (some u) id body).2 = db ∧
      (updatePresence validId db (some u) id body).1.status ∈ [400, 403, 404, 500] ∧
      (∀ old, validId id = true → db.findPresence id = some old →
        (body.semaine.isSome = true → validSemaine body.semaine) →
        (body.jour.isSome = true → validJour body.jour) →
        (body.annee.isSome = true → validAnnee body.annee) →
        (∀ e, body.employe = some e →
          validId e = true ∧ (db.findEmploye e).isSome = true) →
        validId t = true → (db.findStation t).isSome = true →
        (updatePresence validId db (some u) id body).1.status = 403)) ∧
    (∀ old, validId id = true → db.findPresence id = some old → old.station ≠ s →
      (updatePresence validId db (some u) id body).1.status = 403 ∧
      (updatePresence validId db (some u) id body).2 = db ∧
      (deletePresence validId db (some u) id).1.status = 403 ∧
      (deletePresence validId db (some u) id).2 = db) := by
  have hnot : ∀ t, t ≠ s → ¬ (u.role = "admin" ∨ u.station = some t) := by
    intro t hts
    rintro (h | h)
    · exact hrole h
    · rw [hs] at h
      exact hts (Option.some.inj h).symm
  refine ⟨?_, ?_, ?_⟩
  · intro t ht hts
    have h401 := createPresence_ne_401 validId db u body newId now
    have hkeep : (createPresence validId db (some u) body newId now).2 = db ∧
        (createPresence validId db (some u) body newId now).1.status ∈ [400, 403, 500] := by
      rcases createPresence_cases validId db (some u) body newId now with h |
        ⟨u2, ps, pa, j, e, st, hu, -, -, -, -, hst, -, -, -, -, -, -, -, -, -, hperm, -⟩
      · refine ⟨h.1, ?_⟩
        have h2 := h.2
        simp only [List.mem_cons, List.mem_singleton, List.not_mem_nil, or_false] at h2 ⊢
        omega
      · exfalso
        simp only [Option.some.injEq] at hu
        subst hu
        rw [ht] at hst
        simp only [Option.some.injEq] at hst
        subst hst
        exact hnot t hts hperm
    refine ⟨hkeep.1, hkeep.2, ?_⟩
    intro ht0 hj hw hy ⟨e, he, he0, hve, hfe⟩ hvt hft
    exact createPresence_forbidden validId db u body newId now s t e hrole hs ht hts ht0 hj
      hw hy he he0 hve hfe hvt hft
  · intro t ht hts
    have h401 := updatePresence_ne_401 validId db u id body
    have hkeep : (updatePresence validId db (some u) id body).2 = db ∧
        (updatePresence validId db (some u) id body).1.status ∈ [400, 403, 404, 500] := by
      rcases updatePresence_cases validId db (some u) id body with h |
        ⟨u2, old, new, hu, -, -, -, hnew, -⟩
      · refine ⟨h.1, ?_⟩
        have h2 := h.2
        simp only [List.mem_cons, List.mem_singleton, List.not_mem_nil, or_false] at h2 ⊢
        omega
      · exfalso
        simp only [Option.some.injEq] at hu
        subst hu
        obtain ⟨-, -, -, -, -, -, c5, -⟩ := assignFields_ok hnew
        rw [ht] at c5
        apply hnot t hts
        rw [c5.1]
        exact c5.2.2.2
    refine ⟨hkeep.1, hkeep.2, ?_⟩
    intro old hv hold hw hj hy he hvt hft
    by_cases hos : old.station = s
    · obtain ⟨p4, hp4, hfields⟩ := assignFields_station validId db u body old hw hj hy he
      have hft2 : (db.findStation t).isNone = false := by
        cases h : db.findStation t <;> simp_all
      have hne : some t ≠ some s := fun h => hts (Option.some.inj h)
      have hst : assignStation validId db u body p4 = .error (Response.fail 403
          "Accès refusé: Vous ne pouvez modifier que les présences de votre station.") := by
        unfold assignStation
        simp only [ht, hvt, Bool.not_true, Bool.false_eq_true, if_false, hft2, hs,
          Option.isNone_some, and_false, hrole, ne_eq, not_false_eq_true, hne, and_self,
          if_true]
      unfold updatePresence
      simp only [hv, Bool.not_true, Bool.false_eq_true, if_false, hold, hs, Option.isNone_some,
        and_false, hos, not_true_eq_false, hfields, hst, Except.bind]
      split <;> rfl
    · exact (presence_other_station validId db u id body s old hrole hs hv hold hos).1
  · intro old hv hold hos
    exact presence_other_station validId db u id body s old hrole hs hv hold hos

/-- C18, witness: the manager of station Nord asks for a presence of Anne
Martin at station Sud, asks to move the presence of Jean Dupont to station Sud,
and asks to change the flag of the stored presence of Anne Martin and to
delete it. -/
theorem presence_station_scope_witness :
    managerNord.role ≠ "admin" ∧
    ((createPresence (fun _ => true) sampleStore (some managerNord)
        { jeanMonday with employe := some "e2", station := some "s2" } "r2"
        1709700000000).2 = sampleStore ∧
      (createPresence (fun _ => true) sampleStore (some managerNord)
        { jeanMonday with employe := some "e2", station := some "s2" } "r2"
        1709700000000).1.status = 403) ∧
    ((updatePresence (fun _ => true) homonymStore (some managerNord) "r2"
        { flagOnly true with station := some "s2" }).2 = homonymStore ∧
      (updatePresence (fun _ => true) homonymStore (some managerNord) "r2"
        { flagOnly true with station := some "s2" }).1.status = 403) ∧
    ((updatePresence (fun _ => true) sampleStore (some managerNord) "r1"
        (flagOnly false)).1.status = 403 ∧
      (updatePresence (fun _ => true) sampleStore (some managerNord) "r1"
        (flagOnly false)).2 = sampleStore ∧
      (deletePresence (fun _ => true) sampleStore (some managerNord) "r1").1.status = 403 ∧
      (deletePresence (fun _ => true) sampleStore (some managerNord) "r1").2 = sampleStore) :=
  ⟨by decide,
    ⟨((presence_station_scope (fun _ => true) sampleStore managerNord "r1"
        { jeanMonday with employe := some "e2", station := some "s2" } "r2" 1709700000000
        "s1" (by decide) rfl).1 "s2" rfl (by decide)).1,
      ((presence_station_scope (fun _ => true) sampleStore managerNord "r1"
        { jeanMonday with employe := some "e2", station := some "s2" } "r2" 1709700000000
        "s1" (by decide) rfl).1 "s2" rfl (by decide)).2.2 (by decide)
        ⟨"Lundi", rfl, by decide⟩ ⟨10, by decide, by decide, by decide⟩
        ⟨2024, by decide, by decide, by decide⟩ ⟨"e2", rfl, by decide, rfl, by decide⟩ rfl
        (by decide)⟩,
    ⟨((presence_station_scope (fun _ => true) homonymStore managerNord "r2"
        { flagOnly true with station := some "s2" } "r9" 1709700000000
        "s1" (by decide) rfl).2.1 "s2" rfl (by decide)).1,
      ((presence_station_scope (fun _ => true) homonymStore managerNord "r2"
        { flagOnly true with station := some "s2" } "r9" 1709700000000
        "s1" (by decide) rfl).2.1 "s2" rfl (by decide)).2.2
        { _id := "r2", idPresence := "1709700000000", semaine := 10, jour := "Lundi",
          hDebut := "9h", hFin := "17h", annee := 2024, employe := "e1", station := "s1",
          isPresent := true }
        rfl (by decide) (fun h => absurd h (by decide)) (fun h => absurd h (by decide))
        (fun h => absurd h (by decide)) (fun e h => by simp [flagOnly] at h) rfl (by decide)⟩,
    (presence_station_scope (fun _ => true) sampleStore managerNord "r1"
      (flagOnly false) "r2" 1709700000000 "s1" (by decide) rfl).2.2 anneTuesday rfl
      (by decide) (by decide)⟩

/-- C18, counterexample: the manager of station Nord asks for a presence at
station Sud on the day `Monday`, and the answer is 400, the day being checked
before the station; a main manager, whose token has no station, asks for a
presence at station Sud, and the answer is 500. -/
theorem createPresence_other_station_400 :
    managerNord.role ≠ "admin" ∧ managerNord.station ≠ some "s2" ∧
    (createPresence (fun _ => true) sampleStore (some managerNord)
      { jeanMonday with jour := some "Monday", employe := some "e2", station := some "s2" }
      "r2" 1709700000000).1.status = 400 ∧
    mainManagerUser.role ≠ "admin" ∧ mainManagerUser.station ≠ some "s2" ∧
    (createPresence (fun _ => true) sampleStore (some mainManagerUser)
      { jeanMonday with employe := some "e2", station := some "s2" }
      "r2" 1709700000000).1.status = 500 := by
  decide

/-! ## Registration and callers without station -/

/-- A `createPresence` of a caller who is not admin and whose token has no
station is answered 400 or 500 and changes nothing. -/
theorem createPresence_null_station (validId : String → Bool) (db : Db) (u : User)
    (body : PresenceBody) (newId : String) (now : Int)
    (hrole : u.role ≠ "admin") (hs : u.station = none) :
    (createPresence validId db (some u) body newId now).2 = db ∧
    ((createPresence validId db (some u) body newId now).1.status = 400 ∨
      (createPresence validId db (some u) body newId now).1.status = 500) := by
  unfold createPresence
  simp only []
  split
  · exact ⟨rfl, Or.inl rfl⟩
  split
  next ps pa hps hpa =>
    unfold createPresenceParsed
    split
    · exact ⟨rfl, Or.inl rfl⟩
    split
    · exact ⟨rfl, Or.inl rfl⟩
    split
    · exact ⟨rfl, Or.inl rfl⟩
    unfold createPresenceChecked
    split
    · exact ⟨rfl, Or.inr rfl⟩
    split
    · exact ⟨rfl, Or.inl rfl⟩
    split
    · exact ⟨rfl, Or.inr rfl⟩
    split
    · exact ⟨rfl, Or.inl rfl⟩
    split
    · exact ⟨rfl, Or.inr rfl⟩
    next hn =>
      exact absurd ⟨hrole, by simp [hs]⟩ hn
  · exact ⟨rfl, Or.inl rfl⟩

/-- C30: `register` leaves the users as they are or adds one document, whose
station is set only when its role is `manager`, and the token it issues for
another role carries the station null; and a `createPresence` of a caller who
is not admin and whose token station is null answers 400 or 500 (neither 201
nor 403) and stores nothing, whatever the request. -/
theorem register_station (lower : String → String) (saveOk : UserDoc → Bool)
    (users : List UserDoc) (rbody : RegisterBody) (newUserId : String)
    (validId : String → Bool) (db : Db) (u : User) (body : PresenceBody) (newId : String)
    (now : Int) :
    (((register lower saveOk users rbody newUserId).2 = users ∧
        (register lower saveOk users rbody newUserId).1.token = none ∧
        (register lower saveOk users rbody newUserId).1.status ≠ 201) ∨
      (∃ d token, (register lower saveOk users rbody newUserId).2 = users ++ [d] ∧
        (register lower saveOk users rbody newUserId).1.status = 201 ∧
        (register lower saveOk users rbody newUserId).1.token = some token ∧
        some d.role = rbody.role ∧ token.role = d.role ∧
        (d.station ≠ none → d.role = "manager") ∧
        (d.role ≠ "manager" → token.station = none))) ∧
    (u.role ≠ "admin" → u.station = none →
      (createPresence validId db (some u) body newId now).2 = db ∧
      ((createPresence validId db (some u) body newId now).1.status = 400 ∨
        (createPresence validId db (some u) body newId now).1.status = 500)) := by
  refine ⟨?_, createPresence_null_station validId db u body newId now⟩
  unfold register
  by_cases hreq : (!truthyStr rbody.nom || !truthyStr rbody.email ||
      !truthyStr rbody.password || !truthyStr rbody.role) = true
  · rw [if_pos hreq]
    left; exact ⟨rfl, rfl, by simp⟩
  rw [if_neg hreq]
  simp only []
  by_cases hrole : ¬ rbody.role.getD "" ∈ validRoles
  · rw [if_pos hrole]
    left; exact ⟨rfl, rfl, by simp⟩
  rw [if_neg hrole]
  by_cases hdup : (users.any fun u =>
      u.email == lower (jsTrim (rbody.email.getD ""))) = true
  · rw [if_pos hdup]
    left; exact ⟨rfl, rfl, by simp⟩
  rw [if_neg hdup]
  by_cases hsave : (!saveOk
      { _id := newUserId, nom := rbody.nom.getD "",
        email := lower (jsTrim (rbody.email.getD "")), role := rbody.role.getD "",
        station := if rbody.role.getD "" = "manager" then rbody.station else none }) = true
  · rw [if_pos hsave]
    left; exact ⟨rfl, rfl, by simp⟩
  rw [if_neg hsave]
  right
  refine ⟨_, _, rfl, rfl, rfl, ?_, rfl, ?_, ?_⟩
  · cases hb : rbody.role with
    | none => simp [hb, truthyStr] at hreq
    | some r => rfl
  · intro hst
    by_contra hr
    simp only [hr, if_false] at hst
    exact hst rfl
  · intro hr
    simp only [hr, if_false, truthyStr]
    rfl

/-- C30, witness: the registration of a main manager with a station in the
request, and the request of this main manager for Jean Dupont. -/
theorem register_station_witness :
    (register (fun s => s) (fun _ => true) []
      { nom := some "Marie", email := some "marie@example.org", password := some "secret",
        role := some "mainManager", station := some "s1" } "u2").1.token
      = some mainManagerUser ∧
    (createPresence (fun _ => true) sampleStore (some mainManagerUser) jeanMonday "r2"
      1709700000000).2 = sampleStore ∧
    (createPresence (fun _ => true) sampleStore (some mainManagerUser) jeanMonday "r2"
      1709700000000).1.status = 500 :=
  ⟨by decide,
    ((register_station (fun s => s) (fun _ => true) []
      { nom := some "Marie", email := some "marie@example.org", password := some "secret",
        role := some "mainManager", station := some "s1" } "u2" (fun _ => true) sampleStore
      mainManagerUser jeanMonday "r2" 1709700000000).2 (by decide) rfl).1,
    by decide⟩

/-! ## Planning controller -/

theorem planningStation_ok {validId : String → Bool} {db : Db} {user : User}
    {body : PlanningBody} {error : Response PlanningDoc} {station : String}
    (h : planningStation validId db user body error = .ok station) :
    station ≠ "" ∧ truthyStr body.employeeName = true ∧ truthyInt body.year = true ∧
    truthyInt body.week = true ∧
    (isAdminRole user.role = true →
      body.station = some station ∧ validId station = true ∧
        (db.findStation station).isSome = true) ∧
    (isAdminRole user.role = false → user.station = some station) := by
  unfold planningStation at h
  cases hadm : isAdminRole user.role with
  | true =>
      simp only [hadm, if_true, Bool.not_true, Bool.false_eq_true, false_and, if_false,
        true_and] at h
      split at h
      · simp at h
      next h2 =>
      split at h
      · simp at h
      next h3 =>
      split at h
      · simp at h
      next h4 =>
      split at h
      · simp at h
      next h5 =>
      simp only [Except.ok.injEq] at h
      simp only [Bool.or_eq_true, Bool.not_eq_true', not_or, Bool.not_eq_false] at h2 h3 h4
      have hst : body.station = some station := by
        cases hb : body.station with
        | none => rw [hb] at h2; simp [truthyStr] at h2
        | some s => rw [hb] at h; simp only [Option.getD_some] at h; rw [h]
      refine ⟨?_, h3.1.1, h3.1.2, h3.2, ?_, ?_⟩
      · rw [hst] at h2
        simpa [truthyStr] using h2
      · intro _
        rw [h] at h4 h5
        refine ⟨hst, h4, ?_⟩
        cases hx : db.findStation station <;> simp_all
      · intro hf; simp at hf
  | false =>
      simp only [hadm, Bool.false_eq_true, if_false, Bool.not_false, true_and, false_and]
        at h
      split at h
      · simp at h
      next h1 =>
      split at h
      · simp at h
      next h3 =>
      simp only [Except.ok.injEq] at h
      simp only [Bool.or_eq_true, Bool.not_eq_true', not_or, Bool.not_eq_false] at h1 h3
      have hst : user.station = some station := by
        cases hb : user.station with
        | none => rw [hb] at h1; simp [truthyStr] at h1
        | some s => rw [hb] at h; simp only [Option.getD_some] at h; rw [h]
      refine ⟨?_, h3.1.1, h3.1.2, h3.2, ?_, ?_⟩
      · rw [hst] at h1
        simpa [truthyStr] using h1
      · intro hf; simp at hf
      · intro _; exact hst

theorem planningStation_error {validId : String → Bool} {db : Db} {user : User}
    {body : PlanningBody} {error e : Response PlanningDoc}
    (h : planningStation validId db user body error = .error e) :
    e.status = 400 ∨ e = error := by
  unfold planningStation at h
  cases hadm : isAdminRole user.role with
  | true =>
      simp only [hadm, if_true, Bool.not_true, Bool.false_eq_true, false_and, if_false,
        true_and] at h
      split at h
      · simp only [Except.error.injEq] at h; subst h; left; rfl
      split at h
      · simp only [Except.error.injEq] at h; subst h; left; rfl
      split at h
      · simp only [Except.error.injEq] at h; subst h; right; rfl
      split at h
      · simp only [Except.error.injEq] at h; subst h; left; rfl
      · simp at h
  | false =>
      simp only [hadm, Bool.false_eq_true, if_false, Bool.not_false, true_and, false_and]
        at h
      split at h
      · simp only [Except.error.injEq] at h; subst h; left; rfl
      split at h
      · simp only [Except.error.injEq] at h; subst h; left; rfl
      · simp at h

/-- The outcomes of `createPlanning`: an error status with the store untouched,
or the status 201 with the document of the request appended. -/
theorem createPlanning_cases (validId : String → Bool) (db : Db) (user : Option User)
    (body : PlanningBody) (newId : String) (now : Int) :
    ((createPlanning validId db user body newId now).2 = db ∧
      (createPlanning validId db user body newId now).1.status ∈ [401, 400, 500]) ∨
    (∃ u station,
      user = some u ∧ u.role ≠ "" ∧
      planningStation validId db u body createPlanningError = .ok station ∧
      1 ≤ body.week.getD 0 ∧ body.week.getD 0 ≤ 53 ∧ validId station = true ∧
      (createPlanning validId db user body newId now).2 =
        { db with plannings := db.plannings ++ [newPlanning body station newId now] } ∧
      (createPlanning validId db user body newId now).1.status = 201) := by
  unfold createPlanning
  split
  · left; exact ⟨rfl, by simp [Response.fail]⟩
  next u =>
  split
  · left; exact ⟨rfl, by simp [Response.fail]⟩
  next hrole =>
  split
  next e he =>
    left
    refine ⟨rfl, ?_⟩
    rcases planningStation_error he with h | h
    · simp [h]
    · simp [h, createPlanningError, Response.fail]
  next station hst =>
  split
  · left; exact ⟨rfl, by simp [createPlanningError, Response.fail]⟩
  next hvalid =>
  right
  simp only [planningValid, Bool.not_eq_true', decide_eq_false_iff_not, not_not] at hvalid
  exact ⟨u, station, rfl, hrole, hst, hvalid.1, hvalid.2.1, hvalid.2.2, rfl, rfl⟩

/-- The outcomes of `updatePlanning`: an error status with the store untouched,
or the status 200 with the loaded document replaced. -/
theorem updatePlanning_cases (validId : String → Bool) (db : Db) (user : Option User)
    (id : String) (body : PlanningBody) :
    ((updatePlanning validId db user id body).2 = db ∧
      (updatePlanning validId db user id body).1.status ∈ [401, 400, 404, 403, 500]) ∨
    (∃ u planning station,
      user = some u ∧ u.role ≠ "" ∧ validId id = true ∧
      db.findPlanning id = some planning ∧
      (isAdminRole u.role = true ∨ planning.station = u.station) ∧
      planningStation validId db u body updatePlanningError = .ok station ∧
      1 ≤ body.week.getD 0 ∧ body.week.getD 0 ≤ 53 ∧ validId station = true ∧
      (updatePlanning validId db user id body).2 =
        { db with
          plannings := replaceFirst (fun p => p._id == id)
                         (changedPlanning planning body station) db.plannings } ∧
      (updatePlanning validId db user id body).1.status = 200) := by
  unfold updatePlanning
  split
  · left; exact ⟨rfl, by simp [Response.fail]⟩
  next u =>
  split
  · left; exact ⟨rfl, by simp [Response.fail]⟩
  next hrole =>
  split
  · left; exact ⟨rfl, by simp [updatePlanningError, Response.fail]⟩
  next hv =>
  split
  · left; exact ⟨rfl, by simp [Response.fail]⟩
  next planning hfind =>
  split
  · left; exact ⟨rfl, by simp [updatePlanningError, Response.fail]⟩
  next hnone =>
  split
  · left; exact ⟨rfl, by simp [Response.fail]⟩
  next hforb =>
  split
  next e he =>
    left
    refine ⟨rfl, ?_⟩
    rcases planningStation_error he with h | h
    · simp [h]
    · simp [h, updatePlanningError, Response.fail]
  next station hst =>
  split
  · left; exact ⟨rfl, by simp [updatePlanningError, Response.fail]⟩
  next hvalid =>
  right
  simp only [planningValid, Bool.not_eq_true', decide_eq_false_iff_not, not_not] at hvalid
  refine ⟨u, planning, station, rfl, hrole, by simpa using hv, hfind, ?_, hst, hvalid.1,
    hvalid.2.1, hvalid.2.2, rfl, rfl⟩
  cases hadm : isAdminRole u.role with
  | true => exact Or.inl rfl
  | false =>
      right
      by_contra hne
      exact hforb ⟨by simp [hadm], hne⟩

/-- C19, as the code has it: neither the Planning form nor `createPlanning` or
`updatePlanning` looks for a stored plan with the (employeeName, year, week) of
the request.  With the plans of the store distinct on this key (and their
identifiers distinct), the plans stay distinct on it after `createPlanning`
when no stored plan has the key of the request, and after `updatePlanning` when
no other stored plan has it. -/
theorem planning_key_unique (validId : String → Bool) (db : Db) (user : Option User)
    (id : String) (body : PlanningBody) (newId : String) (now : Int)
    (hid : (db.plannings.map (fun p => p._id)).Nodup)
    (hkey : (db.plannings.map PlanningDoc.key).Nodup) :
    ((∀ p ∈ db.plannings, p.key ≠ body.key) →
      ((createPlanning validId db user body newId now).2.plannings.map
        PlanningDoc.key).Nodup) ∧
    ((∀ p ∈ db.plannings, p._id ≠ id → p.key ≠ body.key) →
      ((updatePlanning validId db user id body).2.plannings.map PlanningDoc.key).Nodup) := by
  constructor
  · intro hfree
    rcases createPlanning_cases validId db user body newId now with h |
      ⟨u, station, -, -, -, -, -, -, hdb, -⟩
    · rw [h.1]; exact hkey
    · rw [hdb]
      simp only [List.map_append, List.map_cons, List.map_nil]
      rw [List.nodup_append]
      refine ⟨hkey, List.nodup_singleton _, ?_⟩
      intro k hk hk2
      rw [List.mem_singleton] at hk2
      subst hk2
      obtain ⟨p, hp, hpk⟩ := List.mem_map.1 hk
      exact hfree p hp hpk
  · intro hfree
    rcases updatePlanning_cases validId db user id body with h |
      ⟨u, planning, station, -, -, -, -, -, -, -, -, -, hdb, -⟩
    · rw [h.1]; exact hkey
    · rw [hdb]
      apply nodup_replaceFirst PlanningDoc.key (fun p : PlanningDoc => p._id) id _
        db.plannings hkey hid
      intro x hx hfx
      by_contra hne
      exact hfree x hx hne hfx

/-- C19, witness: on the sample store a plan for Anne Martin is created, and
the plan of Jean Dupont is changed. -/
theorem planning_key_unique_witness :
    ((createPlanning (fun _ => true) sampleStore (some managerNord)
        { jeanRequest with employeeName := some "Anne Martin" } "p2"
        1709800000000).2.plannings.map PlanningDoc.key).Nodup ∧
    ((updatePlanning (fun _ => true) sampleStore (some managerNord) "p1"
        { jeanRequest with tuesday := some "9h-17h" }).2.plannings.map
        PlanningDoc.key).Nodup :=
  ⟨(planning_key_unique (fun _ => true) sampleStore (some managerNord) "p1"
      { jeanRequest with employeeName := some "Anne Martin" } "p2" 1709800000000
      (by decide) (by decide)).1 (by decide),
    (planning_key_unique (fun _ => true) sampleStore (some managerNord) "p1"
      { jeanRequest with tuesday := some "9h-17h" } "p2" 1709800000000
      (by decide) (by decide)).2 (by decide)⟩

/-- C19, counterexample: the store holds the plan of Jean Dupont for week 10 of
2024; the Planning form, filled again for Jean Dupont and this week, sends its
request, `createPlanning` answers 201, and the store holds two plans with the
key (Jean Dupont, 2024, 10). -/
theorem createPlanning_duplicate :
    (sampleStore.plannings.map PlanningDoc.key).Nodup ∧
    handleSubmit jeanForm "manager" [jeanEmploye] 2024 10 false = .post jeanRequest ∧
    (createPlanning (fun _ => true) sampleStore (some managerNord) jeanRequest "p2"
      1709800000000).1.status = 201 ∧
    (createPlanning (fun _ => true) sampleStore (some managerNord) jeanRequest "p2"
      1709800000000).2.plannings.map PlanningDoc.key =
      [("Jean Dupont", 2024, 10), ("Jean Dupont", 2024, 10)] := by
  decide

/-- For an admin, the checks of `planningStation` pass on a request with an
employee name, a year, a week and a station that exists. -/
theorem planningStation_admin (validId : String → Bool) (db : Db) (u : User)
    (body : PlanningBody) (error : Response PlanningDoc) (s : String)
    (hadm : isAdminRole u.role = true) (hs : body.station = some s) (hs0 : s ≠ "")
    (hv : validId s = true) (hf : (db.findStation s).isSome = true)
    (hn : truthyStr body.employeeName = true) (hy : truthyInt body.year = true)
    (hw : truthyInt body.week = true) :
    planningStation validId db u body error = .ok s := by
  have hf2 : (db.findStation s).isNone = false := by
    cases h : db.findStation s <;> simp_all
  have ht : truthyStr (some s) = true := by simp [truthyStr, hs0]
  unfold planningStation
  simp only [hadm, if_true, hs, ht, hn, hy, hw, hv, hf2, Bool.not_true, Bool.false_eq_true,
    false_and, and_false, if_false, Bool.or_self, Option.getD_some]

theorem isAdminRole_ne_empty {role : String} (h : isAdminRole role = true) : role ≠ "" := by
  intro h0
  subst h0
  revert h
  decide

/-- C20: for a caller who is not admin, `createPlanning` and `updatePlanning`
do not read the station of the request (two requests that differ only in
`station` have the same outcome), the plan they store has the station of the
caller, and `updatePlanning` or `deletePlanning` on a plan of another station
answers 403 and changes nothing; for an admin, a request with an employee
name, a year, a week from 1 to 53 and a station that exists is stored with
that station. -/
theorem planning_station_scope (validId : String → Bool) (db : Db) (u : User) (id : String)
    (body : PlanningBody) (newId : String) (now : Int) :
    (isAdminRole u.role = false →
      (∀ t, createPlanning validId db (some u) { body with station := t } newId now =
        createPlanning validId db (some u) body newId now) ∧
      (∀ t, updatePlanning validId db (some u) id { body with station := t } =
        updatePlanning validId db (some u) id body) ∧
      ((createPlanning validId db (some u) body newId now).1.status = 201 →
        ∃ doc, (createPlanning validId db (some u) body newId now).2.plannings =
          db.plannings ++ [doc] ∧ doc.station = u.station) ∧
      ((updatePlanning validId db (some u) id body).1.status = 200 →
        ∃ doc, (updatePlanning validId db (some u) id body).2.plannings =
          replaceFirst (fun p => p._id == id) doc db.plannings ∧ doc.station = u.station) ∧
      (∀ plan t, u.role ≠ "" → validId id = true → db.findPlanning id = some plan →
        plan.station = some t → some t ≠ u.station →
        (updatePlanning validId db (some u) id body).1.status = 403 ∧
        (updatePlanning validId db (some u) id body).2 = db ∧
        (deletePlanning validId db (some u) id).1.status = 403 ∧
        (deletePlanning validId db (some u) id).2 = db)) ∧
    (isAdminRole u.role = true →
      ∀ s, body.station = some s → s ≠ "" → validId s = true →
        (db.findStation s).isSome = true → truthyStr body.employeeName = true →
        truthyInt body.year = true → 1 ≤ body.week.getD 0 → body.week.getD 0 ≤ 53 →
        ((createPlanning validId db (some u) body newId now).1.status = 201 ∧
          (createPlanning validId db (some u) body newId now).2.plannings =
            db.plannings ++ [newPlanning body s newId now] ∧
          (newPlanning body s newId now).station = some s) ∧
        (∀ plan, validId id = true → db.findPlanning id = some plan →
          (updatePlanning validId db (some u) id body).1.status = 200 ∧
          (updatePlanning validId db (some u) id body).2.plannings =
            replaceFirst (fun p => p._id == id) (changedPlanning plan body s) db.plannings ∧
          (changedPlanning plan body s).station = some s)) := by
  constructor
  · intro hadm
    refine ⟨?_, ?_, ?_, ?_, ?_⟩
    · intro t
      unfold createPlanning planningStation
      simp only [hadm, Bool.false_eq_true, if_false, false_and, Bool.not_false, true_and]
    · intro t
      unfold updatePlanning planningStation
      simp only [hadm, Bool.false_eq_true, if_false, false_and, Bool.not_false, true_and]
    · intro hs
      rcases createPlanning_cases validId db (some u) body newId now with h |
        ⟨u2, station, hu, -, hst, -, -, -, hdb, -⟩
      · rw [hs] at h; simp at h
      · simp only [Option.some.injEq] at hu
        subst hu
        refine ⟨newPlanning body station newId now, by rw [hdb], ?_⟩
        exact ((planningStation_ok hst).2.2.2.2.2 hadm).symm
    · intro hs
      rcases updatePlanning_cases validId db (some u) id body with h |
        ⟨u2, planning, station, hu, -, -, -, -, hst, -, -, -, hdb, -⟩
      · rw [hs] at h; simp at h
      · simp only [Option.some.injEq] at hu
        subst hu
        refine ⟨changedPlanning planning body station, by rw [hdb], ?_⟩
        exact ((planningStation_ok hst).2.2.2.2.2 hadm).symm
    · intro plan t hrole hv hfind hpt hne
      have hne2 : plan.station ≠ u.station := by rw [hpt]; exact hne
      unfold updatePlanning deletePlanning
      simp only [hrole, if_false, hv, Bool.not_true, Bool.false_eq_true, hfind, hadm,
        Bool.not_false, true_and, hpt, Option.isNone_some, ne_eq, hne,
        not_false_eq_true, if_true]
      simp [Response.fail]
  · intro hadm s hs hs0 hv hf hn hy hw1 hw2
    have hrole := isAdminRole_ne_empty hadm
    have hw : truthyInt body.week = true := by
      cases hb : body.week with
      | none => rw [hb] at hw1; simp at hw1
      | some w =>
          rw [hb] at hw1
          simp only [Option.getD_some] at hw1
          simp only [truthyInt, decide_eq_true_eq]
          omega
    have hvalid : planningValid validId (body.week.getD 0) s = true := by
      simp [planningValid, hw1, hw2, hv]
    constructor
    · have hst := planningStation_admin validId db u body createPlanningError s hadm hs hs0
        hv hf hn hy hw
      unfold createPlanning
      simp only [hrole, if_false, hst, hvalid, Bool.not_true, Bool.false_eq_true]
      refine ⟨?_, ?_, ?_⟩ <;> first | rfl | trivial
    · intro plan hvid hfind
      have hst := planningStation_admin validId db u body updatePlanningError s hadm hs hs0
        hv hf hn hy hw
      unfold updatePlanning
      simp only [hrole, if_false, hvid, hfind, hadm, Bool.not_true, Bool.false_eq_true,
        false_and, hst, hvalid]
      refine ⟨?_, ?_, ?_⟩ <;> first | rfl | trivial

/-- C20, witness: the manager of station Nord names station Sud in the request
and gets the outcome of the request without station; the manager of station
Sud is refused on the plan of station Nord; the admin stores a plan for
station Sud. -/
theorem planning_station_scope_witness :
    isAdminRole managerNord.role = false ∧
    createPlanning (fun _ => true) sampleStore (some managerNord)
        { jeanRequest with station := some "s2" } "p2" 1709800000000 =
      createPlanning (fun _ => true) sampleStore (some managerNord) jeanRequest "p2"
        1709800000000 ∧
    (updatePlanning (fun _ => true) sampleStore (some managerSud) "p1"
      jeanRequest).1.status = 403 ∧
    (createPlanning (fun _ => true) sampleStore (some adminUser)
      { jeanRequest with station := some "s2" } "p2" 1709800000000).1.status = 201 :=
  ⟨by decide,
    ((planning_station_scope (fun _ => true) sampleStore managerNord "p1" jeanRequest "p2"
      1709800000000).1 (by decide)).1 (some "s2"),
    (((planning_station_scope (fun _ => true) sampleStore managerSud "p1" jeanRequest "p2"
      1709800000000).1 (by decide)).2.2.2.2 jeanStored "s1" (by decide) rfl (by decide) rfl
      (by decide)).1,
    ((planning_station_scope (fun _ => true) sampleStore adminUser "p1"
      { jeanRequest with station := some "s2" } "p2" 1709800000000).2 (by decide) "s2" rfl
      (by decide) rfl (by decide) (by decide) (by decide) (by decide) (by decide)).1.1⟩

/-- C21, as the code has it: a plan stored by a successful `createPlanning` or
`updatePlanning` has a week from 1 to 53 (the validators of the schema) and the
seven day-slots of the request as they are: the handlers do not look at them.
The slots are empty or of the form `<startHour>h-<endHour>h` in every request
that the Planning form sends. -/
theorem planning_stored_fields (validId : String → Bool) (db : Db) (user : Option User)
    (id : String) (body : PlanningBody) (newId : String) (now : Int) :
    ((createPlanning validId db user body newId now).1.status = 201 →
      ∃ doc, (createPlanning validId db user body newId now).2.plannings =
          db.plannings ++ [doc] ∧
        1 ≤ doc.week ∧ doc.week ≤ 53 ∧ doc.slots = body.slots) ∧
    ((updatePlanning validId db user id body).1.status = 200 →
      ∃ doc, (updatePlanning validId db user id body).2.plannings =
          replaceFirst (fun p => p._id == id) doc db.plannings ∧
        1 ≤ doc.week ∧ doc.week ≤ 53 ∧ doc.slots = body.slots) ∧
    (∀ (formData : PlanningForm) (userRole : String) (employes : List Employe)
        (selectedYear selectedWeek : Int) (isEditing : Bool),
      (handleSubmit formData userRole employes selectedYear selectedWeek isEditing =
          .post body ∨
        ∃ target, handleSubmit formData userRole employes selectedYear selectedWeek
          isEditing = .put target body) →
      ∀ slot ∈ body.slots, wellFormedSlot slot) := by
  refine ⟨?_, ?_, ?_⟩
  · intro hs
    rcases createPlanning_cases validId db user body newId now with h |
      ⟨u, station, -, -, -, hw1, hw2, -, hdb, -⟩
    · rw [hs] at h; simp at h
    · exact ⟨newPlanning body station newId now, by rw [hdb], hw1, hw2, rfl⟩
  · intro hs
    rcases updatePlanning_cases validId db user id body with h |
      ⟨u, planning, station, -, -, -, -, -, -, hw1, hw2, -, hdb, -⟩
    · rw [hs] at h; simp at h
    · exact ⟨changedPlanning planning body station, by rw [hdb], hw1, hw2, rfl⟩
  · intro formData userRole employes selectedYear selectedWeek isEditing hsent
    have hbody : firstBadDay formData = none ∧
        body.slots = [some formData.monday, some formData.tuesday, some formData.wednesday,
          some formData.thursday, some formData.friday, some formData.saturday,
          some formData.sunday] := by
      unfold handleSubmit at hsent
      split at hsent
      · rcases hsent with h | ⟨t, h⟩ <;> simp at h
      split at hsent
      · rcases hsent with h | ⟨t, h⟩ <;> simp at h
      split at hsent
      · rcases hsent with h | ⟨t, h⟩ <;> simp at h
      next hbad =>
      split at hsent
      · rcases hsent with h | ⟨t, h⟩ <;> simp at h
      next emp hemp =>
      refine ⟨hbad, ?_⟩
      simp only [] at hsent
      split at hsent
      · rcases hsent with h | ⟨t, h⟩
        · simp at h
        · simp only [SubmitAction.put.injEq] at h
          rw [← h.2]; rfl
      · rcases hsent with h | ⟨t, h⟩
        · simp only [SubmitAction.post.injEq] at h
          rw [← h]; rfl
        · simp at h
    obtain ⟨hbad, hslots⟩ := hbody
    rw [firstBadDay_eq_none] at hbad
    rw [hslots]
    intro slot hslot
    have key : ∀ day ∈ formDays, wellFormedSlot (some (formData.dayProp day)) := by
      intro day hday
      by_cases h0 : formData.dayProp day = ""
      · exact Or.inl h0
      · exact Or.inr (hbad day hday h0)
    simp only [List.mem_cons, List.mem_singleton, List.mem_nil_iff, or_false] at hslot
    rcases hslot with h | h | h | h | h | h | h
    · rw [h]; exact key "monday" (by decide)
    · rw [h]; exact key "tuesday" (by decide)
    · rw [h]; exact key "wednesday" (by decide)
    · rw [h]; exact key "thursday" (by decide)
    · rw [h]; exact key "friday" (by decide)
    · rw [h]; exact key "saturday" (by decide)
    · rw [h]; exact key "sunday" (by decide)

/-- C21, witness: the request of the Planning form for Jean Dupont, sent by the
manager of station Nord. -/
theorem planning_stored_fields_witness :
    (createPlanning (fun _ => true) sampleStore (some managerNord) jeanRequest "p2"
      1709800000000).1.status = 201 ∧
    (∃ doc, (createPlanning (fun _ => true) sampleStore (some managerNord) jeanRequest "p2"
          1709800000000).2.plannings = sampleStore.plannings ++ [doc] ∧
        1 ≤ doc.week ∧ doc.week ≤ 53 ∧ doc.slots = jeanRequest.slots) ∧
    (∀ slot ∈ jeanRequest.slots, wellFormedSlot slot) :=
  ⟨by decide,
    (planning_stored_fields (fun _ => true) sampleStore (some managerNord) "p1" jeanRequest
      "p2" 1709800000000).1 (by decide),
    (planning_stored_fields (fun _ => true) sampleStore (some managerNord) "p1" jeanRequest
      "p2" 1709800000000).2.2 jeanForm "manager" [jeanEmploye] 2024 10 false
      (Or.inl (by decide))⟩

/-- C21, counterexample: a request with the text `hello` for Monday is
answered 201 and stored as it is. -/
theorem createPlanning_unchecked_slot :
    formRegex.test "hello" = false ∧
    (createPlanning (fun _ => true) sampleStore (some managerNord)
      { jeanRequest with employeeName := some "Anne Martin", monday := some "hello" } "p2"
      1709800000000).1.status = 201 ∧
    (createPlanning (fun _ => true) sampleStore (some managerNord)
      { jeanRequest with employeeName := some "Anne Martin", monday := some "hello" } "p2"
      1709800000000).2.plannings.map (fun p => (p.employeeName, p.monday)) =
      [("Jean Dupont", some "8h-16h"), ("Anne Martin", some "hello")] := by
  decide

/-! ## Reading plans and presences -/

theorem filter_and_station {α : Type} (P S : α → Prop) [DecidablePred P] [DecidablePred S]
    (l : List α) :
    l.filter (fun p => decide (P p ∧ S p)) =
      (l.filter (fun p => decide (S p))).filter (fun p => decide (P p)) := by
  rw [List.filter_filter]
  congr 1
  funext p
  simp only [Bool.decide_and, Bool.and_comm]

/-- C26: for a caller who is not admin, `getPlannings` and `getPresences`
answer 200 only with the stored records of the requested year and week whose
station is the station of the caller, so that two stores with the same records
of this station get the same answer; for an admin the records of the requested
year and week are returned whatever their station (`getPresences` answers 404
when there is none). -/
theorem get_station_filter (validId : String → Bool) (db : Db) (u : User)
    (year week : Option String) :
    (isAdminRole u.role = false →
      (∀ docs, (getPlannings validId db (some u) year week).data = some docs →
        ∃ y w, parseIntString (year.getD "") = some y ∧
          parseIntString (week.getD "") = some w ∧
          docs = db.plannings.filter (fun p =>
            decide (p.year = y ∧ p.week = w ∧ p.station = u.station))) ∧
      (∀ db2 : Db,
        db2.plannings.filter (fun p => decide (p.station = u.station)) =
          db.plannings.filter (fun p => decide (p.station = u.station)) →
        getPlannings validId db2 (some u) year week =
          getPlannings validId db (some u) year week)) ∧
    (u.role ≠ "admin" →
      (∀ docs, (getPresences validId db (some u) year week).data = some docs →
        ∃ y w, parseIntString (year.getD "") = some y ∧
          parseIntString (week.getD "") = some w ∧
          docs = db.presences.filter (fun p =>
            decide (p.annee = y ∧ p.semaine = w ∧ some p.station = u.station))) ∧
      (∀ db2 : Db,
        db2.presences.filter (fun p => decide (some p.station = u.station)) =
          db.presences.filter (fun p => decide (some p.station = u.station)) →
        getPresences validId db2 (some u) year week =
          getPresences validId db (some u) year week)) ∧
    (isAdminRole u.role = true →
      ∀ y w, truthyStr year = true → truthyStr week = true →
        parseIntString (year.getD "") = some y → parseIntString (week.getD "") = some w →
        (getPlannings validId db (some u) year week).status = 200 ∧
        (getPlannings validId db (some u) year week).data =
          some (db.plannings.filter (fun p => decide (p.year = y ∧ p.week = w)))) ∧
    (u.role = "admin" →
      ∀ y w, truthyStr year = true → truthyStr week = true →
        parseIntString (year.getD "") = some y → parseIntString (week.getD "") = some w →
        2000 ≤ y → y ≤ 2100 → 1 ≤ w → w ≤ 53 →
        (db.presences.filter (fun p => decide (p.annee = y ∧ p.semaine = w)) ≠ [] →
          (getPresences validId db (some u) year week).status = 200 ∧
          (getPresences validId db (some u) year week).data =
            some (db.presences.filter (fun p => decide (p.annee = y ∧ p.semaine = w)))) ∧
        (db.presences.filter (fun p => decide (p.annee = y ∧ p.semaine = w)) = [] →
          (getPresences validId db (some u) year week).status = 404)) := by
  refine ⟨?_, ?_, ?_, ?_⟩
  · intro hadm
    constructor
    · intro docs hdocs
      unfold getPlannings at hdocs
      simp only [hadm, Bool.false_eq_true, false_or, Bool.not_false, true_and] at hdocs
      split at hdocs
      · simp [Response.fail] at hdocs
      split at hdocs
      · simp [Response.fail] at hdocs
      split at hdocs
      · simp [Response.fail] at hdocs
      split at hdocs
      next y w hy hw =>
        split at hdocs
        · simp [Response.fail] at hdocs
        · simp only [Option.some.injEq] at hdocs
          exact ⟨y, w, hy, hw, hdocs.symm⟩
      · simp [Response.fail] at hdocs
    · intro db2 hsame
      have key : ∀ (d : Db) (y w : Int),
          d.plannings.filter (fun p =>
            decide (p.year = y ∧ p.week = w ∧ (isAdminRole u.role = true ∨
              p.station = u.station))) =
          (d.plannings.filter (fun p => decide (p.station = u.station))).filter
            (fun p => decide (p.year = y ∧ p.week = w)) := by
        intro d y w
        rw [← filter_and_station]
        congr 1
        funext p
        simp only [hadm, Bool.false_eq_true, false_or, and_assoc]
      unfold getPlannings
      simp only [key, hsame]
  · intro hrole
    constructor
    · intro docs hdocs
      unfold getPresences at hdocs
      simp only [hrole, false_or] at hdocs
      split at hdocs
      · simp [Response.fail] at hdocs
      split at hdocs
      next y w hy hw =>
        split at hdocs
        · simp [Response.fail] at hdocs
        split at hdocs
        · simp [Response.fail] at hdocs
        split at hdocs
        · simp [Response.fail] at hdocs
        split at hdocs
        · simp [Response.fail] at hdocs
        · simp only [Option.some.injEq] at hdocs
          exact ⟨y, w, hy, hw, hdocs.symm⟩
      · simp [Response.fail] at hdocs
    · intro db2 hsame
      have key : ∀ (d : Db) (y w : Int),
          d.presences.filter (fun p =>
            decide (p.annee = y ∧ p.semaine = w ∧ (u.role = "admin" ∨
              some p.station = u.station))) =
          (d.presences.filter (fun p => decide (some p.station = u.station))).filter
            (fun p => decide (p.annee = y ∧ p.semaine = w)) := by
        intro d y w
        rw [← filter_and_station]
        congr 1
        funext p
        simp only [hrole, false_or, and_assoc]
      unfold getPresences
      simp only [key, hsame]
  · intro hadm y w hty htw hy hw
    have hrole := isAdminRole_ne_empty hadm
    unfold getPlannings
    simp only [hrole, if_false, hty, htw, Bool.not_true, Bool.or_self, Bool.false_eq_true,
      hadm, false_and, hy, hw, true_or, and_true]
  · intro hadm y w hty htw hy hw hy1 hy2 hw1 hw2
    have r1 : ¬ (y < 2000 ∨ y > 2100) := by omega
    have r2 : ¬ (w < 1 ∨ w > 53) := by omega
    constructor
    · intro hne
      have hemp : (db.presences.filter
          (fun p => decide (p.annee = y ∧ p.semaine = w))).isEmpty = false := by
        cases h : db.presences.filter (fun p => decide (p.annee = y ∧ p.semaine = w)) with
        | nil => exact absurd h hne
        | cons a l => rfl
      unfold getPresences
      simp only [hty, htw, Bool.not_true, Bool.or_self, Bool.false_eq_true, if_false, hy, hw,
        r1, r2, hadm, ne_eq, not_true_eq_false, false_and, true_or, and_true, hemp]
    · intro hnil
      unfold getPresences
      simp only [hty, htw, Bool.not_true, Bool.or_self, Bool.false_eq_true, if_false, hy, hw,
        r1, r2, hadm, ne_eq, not_true_eq_false, false_and, true_or, and_true, hnil,
        List.isEmpty_nil, if_true]
      rfl

/-- C26, witness: on the sample store, week 10 of 2024 read by the manager of
station Sud (no plan of station Nord in the answer), by the admin (the plan of
station Nord), and the presences read by the manager of station Nord, who has
none (404, no list). -/
theorem get_station_filter_witness :
    (getPlannings (fun _ => true) sampleStore (some managerSud) (some "2024")
      (some "10")).data = some [] ∧
    (getPlannings (fun _ => true) sampleStore (some adminUser) (some "2024")
      (some "10")).data =
      some (sampleStore.plannings.filter (fun p => decide (p.year = 2024 ∧ p.week = 10))) ∧
    sampleStore.plannings.filter (fun p => decide (p.year = 2024 ∧ p.week = 10)) =
      [jeanStored] ∧
    (getPresences (fun _ => true) sampleStore (some adminUser) (some "2024")
      (some "10")).data =
      some (sampleStore.presences.filter
        (fun p => decide (p.annee = 2024 ∧ p.semaine = 10))) ∧
    (getPresences (fun _ => true) sampleStore (some managerNord) (some "2024")
      (some "10")).status = 404 ∧
    getPresences (fun _ => true) { sampleStore with presences := [] } (some managerNord)
        (some "2024") (some "10") =
      getPresences (fun _ => true) sampleStore (some managerNord) (some "2024") (some "10") :=
  ⟨by decide,
    ((get_station_filter (fun _ => true) sampleStore adminUser (some "2024")
      (some "10")).2.2.1 (by decide) 2024 10 rfl rfl (by decide) (by decide)).2,
    by decide,
    (((get_station_filter (fun _ => true) sampleStore adminUser (some "2024")
      (some "10")).2.2.2 rfl 2024 10 rfl rfl (by decide) (by decide) (by decide)
      (by decide) (by decide) (by decide)).1 (by decide)).2,
    by decide,
    ((get_station_filter (fun _ => true) sampleStore managerNord (some "2024")
      (some "10")).2.1 (by decide)).2 { sampleStore with presences := [] } (by decide)⟩

/-! ## The presence toggle -/

/-- C12: a toggle for an employee name that no loaded plan carries shows the
error of the missing plan, sends no request, and leaves the loaded presences
and the store as they are, whatever its other arguments. -/
theorem toggle_without_plan (validId : String → Bool) (db : Db) (page : PresencePage)
    (employeeName day : String) (isPresent : Bool) (existingPresence : Option Presence)
    (newId : String) (now : Int)
    (hplan : ∀ s ∈ page.schedules, s.employeeName ≠ employeeName) :
    handlePresenceToggle page employeeName day isPresent existingPresence =
      .toastError "Planning introuvable pour cet employé." ∧
    presenceToggleRound validId db page employeeName day isPresent existingPresence newId now
      = (page, db) := by
  have hfind : page.schedules.find? (fun s => s.employeeName == employeeName) = none := by
    rw [List.find?_eq_none]
    intro s hs
    simpa using hplan s hs
  have h1 : handlePresenceToggle page employeeName day isPresent existingPresence =
      .toastError "Planning introuvable pour cet employé." := by
    unfold handlePresenceToggle
    rw [hfind]
  refine ⟨h1, ?_⟩
  unfold presenceToggleRound
  rw [h1]

/-- C12, witness: on the page of Jean Dupont a toggle for Anne Martin, who has
no plan, with the stored presence of Anne Martin as the cell record. -/
theorem toggle_without_plan_witness :
    handlePresenceToggle jeanPage "Anne Martin" "Mardi" false (some annePresence) =
      .toastError "Planning introuvable pour cet employé." ∧
    presenceToggleRound (fun _ => true) sampleStore jeanPage "Anne Martin" "Mardi" false
      (some annePresence) "r2" 1709700000000 = (jeanPage, sampleStore) :=
  toggle_without_plan (fun _ => true) sampleStore jeanPage "Anne Martin" "Mardi" false
    (some annePresence) "r2" 1709700000000 (by decide)

/-- C16, the third failure mode: the token has no station and the roster
employee has the station null.  Reading `employee.station._id` throws, the
`catch` shows the generic error of `handleApiError`, and the message
`Station de l'employé non définie.` is not shown; no request is sent. -/
theorem toggle_null_station :
    noStationPage.token = some mainManagerUser ∧ mainManagerUser.station = none ∧
    noStationPage.employes = [{ jeanEmploye with station := none }] ∧
    handlePresenceToggle noStationPage "Jean Dupont" "Lundi" true none =
      .thrown .typeError ∧
    handlePresenceToggle noStationPage "Jean Dupont" "Lundi" true none ≠
      .toastError "Station de l'employé non définie." ∧
    presenceToggleRound (fun _ => true) sampleStore noStationPage "Jean Dupont" "Lundi" true
      none "r2" 1709700000000 = (noStationPage, sampleStore) := by
  decide

/-- The creation branch of the toggle: with a plan, a roster employee, no
loaded presence, a token that is not expired and a station, the POST is sent
with the object `newPresence`. -/
theorem handlePresenceToggle_create (page : PresencePage) (employeeName day : String)
    (isPresent : Bool) (employee : Employe) (u : User) (station : String)
    (hplan : (page.schedules.find? (fun s => s.employeeName == employeeName)).isSome = true)
    (hemp : page.employes.find? (fun emp =>
      displayName emp.nomEmploye emp.prenomEmploye == employeeName) = some employee)
    (hnone : findLoaded page employeeName day = none)
    (htok : page.token = some u) (hexp : page.tokenExpired = false)
    (hst : toggleStation u employee = some station) (hst0 : station ≠ "") :
    handlePresenceToggle page employeeName day isPresent none =
      .post (newPresence page day isPresent employee station) := by
  unfold handlePresenceToggle
  cases hp : page.schedules.find? (fun s => s.employeeName == employeeName) with
  | none => rw [hp] at hplan; simp at hplan
  | some s =>
      simp only [hemp, hnone, Option.isSome_none, Bool.false_eq_true, or_self, if_false, htok,
        hst, hst0, hexp]

/-- The update branch of the toggle: with a plan, a roster employee, a loaded
presence `r` found for the name, the day, the week and the year, the cell
record absent or `r` itself, and a token that is not expired, the PUT is sent
for `r` with the times, the employee and the station of `r`. -/
theorem handlePresenceToggle_update (page : PresencePage) (employeeName day : String)
    (isPresent : Bool) (existingPresence : Option Presence) (r : Presence) (u : User)
    (hplan : (page.schedules.find? (fun s => s.employeeName == employeeName)).isSome = true)
    (hemp : (page.employes.find? (fun emp =>
      displayName emp.nomEmploye emp.prenomEmploye == employeeName)).isSome = true)
    (hfound : findLoaded page employeeName day = some r)
    (hex : existingPresence = none ∨ existingPresence = some r)
    (htok : page.token = some u) (hexp : page.tokenExpired = false) :
    handlePresenceToggle page employeeName day isPresent existingPresence =
      .put (some r._id)
        { semaine := some (.num page.selectedWeek), jour := some day,
          hDebut := some r.hDebut, hFin := some r.hFin,
          annee := some (.num page.selectedYear), employe := some r.employe._id,
          station := some r.station._id, isPresent := some isPresent } := by
  have j1 : ∀ a : String, jsOr (some a) (some a) = some a := by
    intro a; unfold jsOr; split <;> rfl
  have j2 : ∀ a : String, jsOr none (some a) = some a := by
    intro a; rfl
  have j3 : ∀ a : String, jsOr (some a) (some "") = some a := by
    intro a
    unfold jsOr
    by_cases h : a = ""
    · subst h; split <;> rfl
    · simp [truthyStr, h]
  unfold handlePresenceToggle
  cases hp : page.schedules.find? (fun s => s.employeeName == employeeName) with
  | none => rw [hp] at hplan; simp at hplan
  | some s =>
  cases he : page.employes.find? (fun emp =>
      displayName emp.nomEmploye emp.prenomEmploye == employeeName) with
  | none => rw [he] at hemp; simp at hemp
  | some employee =>
  simp only [hfound, Option.isSome_some, or_true, if_true, htok, Option.isNone_some,
    Bool.false_eq_true, hexp, or_self, if_false, updatedPresence, Option.map_some']
  rcases hex with hex | hex
  · subst hex
    simp only [Option.map_none', j2, j3]
  · subst hex
    simp only [Option.map_some', j1, j3]

theorem createPresenceChecked_data (validId : String → Bool) (db : Db) (user : User)
    (body : PresenceBody) (parsedSemaine parsedAnnee : Int) (jour employe station : String)
    (newId : String) (now : Int)
    (h : (createPresenceChecked validId db user body parsedSemaine parsedAnnee jour employe
      station newId now).1.status = 201) :
    (createPresenceChecked validId db user body parsedSemaine parsedAnnee jour employe
      station newId now).1 =
      { status := 201, message := "",
        data := ((createPresenceChecked validId db user body parsedSemaine parsedAnnee jour
          employe station newId now).2.findPresence newId).bind
            (populatePresence (createPresenceChecked validId db user body parsedSemaine
              parsedAnnee jour employe station newId now).2) } := by
  revert h
  unfold createPresenceChecked
  split
  · intro h; simp [createPresenceError, Response.fail] at h
  split
  · intro h; simp [Response.fail] at h
  split
  · intro h; simp [createPresenceError, Response.fail] at h
  split
  · intro h; simp [Response.fail] at h
  split
  · intro h; simp [createPresenceError, Response.fail] at h
  split
  · intro h; simp [Response.fail] at h
  split
  · intro h; simp [Response.fail] at h
  simp only []
  split
  · intro h; simp [Response.fail] at h
  next saved hsaved =>
    intro _
    rw [hsaved]
    rfl

/-- The answer 201 of `createPresence` carries the populated JSON of the
document that `findById` finds under the new identifier. -/
theorem createPresence_data (validId : String → Bool) (db : Db) (user : Option User)
    (body : PresenceBody) (newId : String) (now : Int)
    (h : (createPresence validId db user body newId now).1.status = 201) :
    (createPresence validId db user body newId now).1 =
      { status := 201, message := "",
        data := ((createPresence validId db user body newId now).2.findPresence newId).bind
          (populatePresence (createPresence validId db user body newId now).2) } := by
  revert h
  unfold createPresence
  split
  · intro h; simp [Response.fail] at h
  split
  · intro h; simp [Response.fail] at h
  split
  next ps pa hps hpa =>
    unfold createPresenceParsed
    split
    · intro h; simp [Response.fail] at h
    split
    · intro h; simp [Response.fail] at h
    split
    · intro h; simp [Response.fail] at h
    intro h
    exact createPresenceChecked_data validId db _ body ps pa _ _ _ newId now h
  · intro h; simp [Response.fail] at h

theorem find?_append_fresh {α : Type} (p : α → Bool) (l : List α) (x : α)
    (hl : ∀ y ∈ l, p y = false) (hx : p x = true) : (l ++ [x]).find? p = some x := by
  induction l with
  | nil => simp [hx]
  | cons a l ih =>
      have ha : p a = false := hl a (List.mem_cons_self _ _)
      simp only [List.cons_append, List.find?_cons, ha]
      exact ih (fun y hy => hl y (List.mem_cons_of_mem _ hy))

theorem replaceFirst_append_fresh {α : Type} (p : α → Bool) (l : List α) (x new : α)
    (hl : ∀ y ∈ l, p y = false) (hx : p x = true) :
    replaceFirst p new (l ++ [x]) = l ++ [new] := by
  induction l with
  | nil => simp [replaceFirst, hx]
  | cons a l ih =>
      have ha : p a = false := hl a (List.mem_cons_self _ _)
      have := ih (fun y hy => hl y (List.mem_cons_of_mem _ hy))
      simp only [List.cons_append, replaceFirst, ha, Bool.false_eq_true, if_false]
      exact congrArg (List.cons a) this

/-- The success of `updatePresence`: with the record found, the caller
admitted, the assignments passed and no duplicate, the answer is 200 with the
populated record, and the record replaces the loaded one. -/
theorem updatePresence_ok (validId : String → Bool) (db : Db) (u : User) (id : String)
    (body : PresenceBody) (old new : PresenceDoc)
    (hv : validId id = true) (hold : db.findPresence id = some old)
    (hperm : u.role = "admin" ∨ u.station = some old.station)
    (hnew : assignFields validId db u body old = .ok new)
    (hdup : duplicateOf db id body new = false) :
    updatePresence validId db (some u) id body =
      ({ status := 200, message := "",
         data := populatePresence
           { db with presences := replaceFirst (fun p => p._id == id) new db.presences } new },
        { db with presences := replaceFirst (fun p => p._id == id) new db.presences }) := by
  have h1 : ¬ (u.role ≠ "admin" ∧ u.station.isNone = true) := by
    rintro ⟨hr, hs⟩
    rcases hperm with hp | hp
    · exact hr hp
    · rw [hp] at hs; simp at hs
  have h2 : ¬ (u.role ≠ "admin" ∧ some old.station ≠ u.station) := by
    rintro ⟨hr, hs⟩
    rcases hperm with hp | hp
    · exact hr hp
    · exact hs hp.symm
  have hid : new._id = old._id := (assignFields_ok hnew).1
  have hold2 : (old._id == id) = true := by
    have := List.find?_some hold
    simpa using this
  have hfound : Db.findPresence
      { db with presences := replaceFirst (fun p => p._id == id) new db.presences } id
      = some new :=
    find?_replaceFirst (fun p : PresenceDoc => p._id == id) new
      (by simpa [hid] using hold2) db.presences old hold
  unfold updatePresence
  simp only [hv, Bool.not_true, Bool.false_eq_true, if_false, hold, h1, h2, hnew, hdup,
    and_false, hfound]

/-- An `updatePresence` that sends back the week, the day, the year, the
employee and the station of the stored record `d`, with times and a flag: when
`d` is well formed, its references exist, the caller is admitted and no other
record has the key of `d`, the record is stored with these times and this flag
and nothing else changes. -/
theorem updatePresence_flag (validId : String → Bool) (db : Db) (u : User)
    (d : PresenceDoc) (hDebut hFin : String) (isPresent : Bool)
    (hv : validId d._id = true) (hold : db.findPresence d._id = some d)
    (hperm : u.role = "admin" ∨ u.station = some d.station)
    (hwf : d.WellFormed)
    (hve : validId d.employe = true) (hfe : (db.findEmploye d.employe).isSome = true)
    (hvs : validId d.station = true) (hfs : (db.findStation d.station).isSome = true)
    (hkey : ∀ p ∈ db.presences, p.key = d.key → p._id = d._id) :
    updatePresence validId db (some u) d._id
        { semaine := some (.num d.semaine), jour := some d.jour, hDebut := some hDebut,
          hFin := some hFin, annee := some (.num d.annee), employe := some d.employe,
          station := some d.station, isPresent := some isPresent } =
      ({ status := 200, message := "",
         data := populatePresence
           { db with
             presences := replaceFirst (fun p => p._id == d._id)
               { d with hDebut := hDebut, hFin := hFin, isPresent := isPresent }
               db.presences }
           { d with hDebut := hDebut, hFin := hFin, isPresent := isPresent } },
        { db with
          presences := replaceFirst (fun p => p._id == d._id)
            { d with hDebut := hDebut, hFin := hFin, isPresent := isPresent }
            db.presences }) := by
  obtain ⟨w1, w2, w3, w4, w5⟩ := hwf
  have r1 : ¬ (d.semaine < 1 ∨ d.semaine > 53) := by omega
  have r2 : ¬ (d.annee < 2000 ∨ d.annee > 2100) := by omega
  have hfe2 : (db.findEmploye d.employe).isNone = false := by
    cases h : db.findEmploye d.employe <;> simp_all
  have hfs2 : (db.findStation d.station).isNone = false := by
    cases h : db.findStation d.station <;> simp_all
  have h1 : ¬ (u.role ≠ "admin" ∧ u.station.isNone = true) := by
    rintro ⟨hr, hs⟩
    rcases hperm with hp | hp
    · exact hr hp
    · rw [hp] at hs; simp at hs
  have h2 : ¬ (u.role ≠ "admin" ∧ some d.station ≠ u.station) := by
    rintro ⟨hr, hs⟩
    rcases hperm with hp | hp
    · exact hr hp
    · exact hs hp.symm
  have hnew : assignFields validId db u
      { semaine := some (.num d.semaine), jour := some d.jour, hDebut := some hDebut,
        hFin := some hFin, annee := some (.num d.annee), employe := some d.employe,
        station := some d.station, isPresent := some isPresent } d =
      .ok { d with hDebut := hDebut, hFin := hFin, isPresent := isPresent } := by
    have p1 : numberParseInt d.semaine = some d.semaine :=
      numberParseInt_safe d.semaine (by omega)
    have p2 : numberParseInt d.annee = some d.annee :=
      numberParseInt_safe d.annee (by omega)
    simp only [assignFields, assignSemaine, JsNumeric.parseInt, p1, p2, r1, if_false,
      Except.bind,
      assignJour, w1, not_true_eq_false, assignAnnee, r2, assignEmploye, hve, Bool.not_true,
      Bool.false_eq_true, hfe2, assignStation, hvs, hfs2, h1, h2, assignRest,
      Option.getD_some]
  apply updatePresence_ok validId db u d._id _ d _ hv hold hperm hnew
  rw [duplicateOf_eq d._id hnew]
  cases hany : db.presences.any (fun p => decide (p.key =
      ({ d with hDebut := hDebut, hFin := hFin, isPresent := isPresent } : PresenceDoc).key ∧
        p._id ≠ d._id)) with
  | false => rfl
  | true =>
      rw [List.any_eq_true] at hany
      obtain ⟨p, hp, hpk⟩ := hany
      simp only [decide_eq_true_eq] at hpk
      exact absurd (hkey p hp hpk.1) hpk.2

theorem presenceToggleRound_post (validId : String → Bool) (db : Db) (page : PresencePage)
    (employeeName day : String) (isPresent : Bool) (existingPresence : Option Presence)
    (newId : String) (now : Int) (body : PresenceBody)
    (h : handlePresenceToggle page employeeName day isPresent existingPresence = .post body) :
    (presenceToggleRound validId db page employeeName day isPresent existingPresence newId
      now).2 = (createPresence validId db page.token body newId now).2 := by
  unfold presenceToggleRound
  rw [h]
  simp only []
  split <;> rfl

/-- The record that a successful `createPresence` appends for the object
`newPresence` of the toggle. -/
theorem createPresence_newPresence (validId : String → Bool) (db : Db) (user : Option User)
    (page : PresencePage) (day : String) (isPresent : Bool) (employee : Employe)
    (station : String) (newId : String) (now : Int)
    (h : (createPresence validId db user (newPresence page day isPresent employee station)
      newId now).1.status = 201) :
    (∃ u, user = some u ∧ (u.role = "admin" ∨ u.station = some station)) ∧
    1 ≤ page.selectedWeek ∧ page.selectedWeek ≤ 53 ∧
    2000 ≤ page.selectedYear ∧ page.selectedYear ≤ 2100 ∧ day ∈ validDays ∧
    validId employee._id = true ∧ (db.findEmploye employee._id).isSome = true ∧
    validId station = true ∧ (db.findStation station).isSome = true ∧
    (∀ p ∈ db.presences, ¬ (p.semaine = page.selectedWeek ∧ p.jour = day ∧
        p.annee = page.selectedYear ∧ p.employe = employee._id)) ∧
    (createPresence validId db user (newPresence page day isPresent employee station)
      newId now).2 =
      { db with presences := db.presences ++
          [{ _id := newId, idPresence := toString now, semaine := page.selectedWeek,
             jour := day, hDebut := "", hFin := "", annee := page.selectedYear,
             employe := employee._id, station := station, isPresent := isPresent }] } := by
  rcases createPresence_cases validId db user (newPresence page day isPresent employee station)
    newId now with hc | ⟨u, ps, pa, j, e, s, hu, hps, hpa, hj, he, hs, h1, h2, h3, h4, h5, h6,
      h7, h8, h9, h10, h11, hdb, -⟩
  · rw [h] at hc; simp at hc
  · simp only [newPresence, Option.bind, JsNumeric.parseInt,
      numberParseInt_safe _ page.weekSafe, numberParseInt_safe _ page.yearSafe,
      Option.some.injEq] at hps hpa
    simp only [newPresence, Option.some.injEq] at hj he hs
    subst hps hpa hj he hs
    exact ⟨⟨u, hu, h10⟩, h1, h2, h3, h4, h5, h6, h7, h8, h9, h11, hdb⟩

/-- C13: when the toggle finds a plan and a roster employee, no loaded
presence for the name, the day and the selected week and year, and no cell
record, it sends the POST with the object `newPresence`; and the record that
`createPresence` stores for it (answer 201) has empty `hDebut` and `hFin`, the
selected week and year, the day, the identifier of the roster employee, the
requested flag, and as station the station of the token when the token has
one, the station of the employee otherwise. -/
theorem toggle_creates (validId : String → Bool) (db : Db) (page : PresencePage)
    (employeeName day : String) (isPresent : Bool) (employee : Employe) (u : User)
    (station : String) (newId : String) (now : Int)
    (hplan : (page.schedules.find? (fun s => s.employeeName == employeeName)).isSome = true)
    (hemp : page.employes.find? (fun emp =>
      displayName emp.nomEmploye emp.prenomEmploye == employeeName) = some employee)
    (hnone : findLoaded page employeeName day = none)
    (htok : page.token = some u) (hexp : page.tokenExpired = false)
    (hst : toggleStation u employee = some station) (hst0 : station ≠ "") :
    handlePresenceToggle page employeeName day isPresent none =
      .post (newPresence page day isPresent employee station) ∧
    ((truthyStr u.station = true ∧ u.station = some station) ∨
      (truthyStr u.station = false ∧ ∃ st, employee.station = some st ∧ st._id = station)) ∧
    (presenceToggleRound validId db page employeeName day isPresent none newId now).2 =
      (createPresence validId db (some u) (newPresence page day isPresent employee station)
        newId now).2 ∧
    ((createPresence validId db (some u) (newPresence page day isPresent employee station)
        newId now).1.status = 201 →
      (createPresence validId db (some u) (newPresence page day isPresent employee station)
        newId now).2.presences = db.presences ++
          [{ _id := newId, idPresence := toString now, semaine := page.selectedWeek,
             jour := day, hDebut := "", hFin := "", annee := page.selectedYear,
             employe := employee._id, station := station, isPresent := isPresent }]) := by
  have h1 := handlePresenceToggle_create page employeeName day isPresent employee u station
    hplan hemp hnone htok hexp hst hst0
  refine ⟨h1, ?_, ?_, ?_⟩
  · unfold toggleStation at hst
    cases ht : truthyStr u.station with
    | true =>
        rw [ht] at hst
        exact Or.inl ⟨rfl, hst⟩
    | false =>
        rw [ht] at hst
        simp only [Bool.false_eq_true, if_false] at hst
        right
        refine ⟨rfl, ?_⟩
        cases hes : employee.station with
        | none => rw [hes] at hst; simp at hst
        | some st =>
            rw [hes] at hst
            simp only [Option.map_some', Option.some.injEq] at hst
            exact ⟨st, rfl, hst⟩
  · rw [presenceToggleRound_post validId db page employeeName day isPresent none newId now _
      h1, htok]
  · intro h201
    have := (createPresence_newPresence validId db (some u) page day isPresent employee
      station newId now h201).2.2.2.2.2.2.2.2.2.2.2
    rw [this]

/-- C13, witness: the manager of station Nord marks Jean Dupont present on
Monday; the stored record is at station Nord, the station of the token. -/
theorem toggle_creates_witness :
    handlePresenceToggle jeanPage "Jean Dupont" "Lundi" true none =
      .post (newPresence jeanPage "Lundi" true jeanEmploye "s1") ∧
    (createPresence (fun _ => true) sampleStore (some managerNord)
      (newPresence jeanPage "Lundi" true jeanEmploye "s1") "r2"
      1709700000000).2.presences = sampleStore.presences ++
        [{ _id := "r2", idPresence := "1709700000000", semaine := 10, jour := "Lundi",
           hDebut := "", hFin := "", annee := 2024, employe := "e1", station := "s1",
           isPresent := true }] :=
  ⟨(toggle_creates (fun _ => true) sampleStore jeanPage "Jean Dupont" "Lundi" true
      jeanEmploye managerNord "s1" "r2" 1709700000000 (by decide) (by decide) (by decide) rfl
      rfl (by decide) (by decide)).1,
    (toggle_creates (fun _ => true) sampleStore jeanPage "Jean Dupont" "Lundi" true
      jeanEmploye managerNord "s1" "r2" 1709700000000 (by decide) (by decide) (by decide) rfl
      rfl (by decide) (by decide)).2.2.2 (by decide)⟩

/-- C14, failing input: two roster employees are named Jean Dupont; the first
has a presence on Monday from 9h to 17h, the second a presence on Monday
without times, which is the one the merged view shows in the cell.  The toggle
of the cell sends the PUT for the second record with the times of the first
(`existingPresence?.hDebut || presence?.hDebut`), and `updatePresence` stores
them: the record keeps its employee, station, week, day and year, but its
`hDebut` and `hFin` change from empty to `9h` and `17h`. -/
theorem toggle_homonym_times :
    (combinedData homonymPage.schedules homonymPage.presences homonymPage.employes).map
      (fun entries => entries.map fun e =>
        (e.employeeName, (e.days.get "Lundi").map fun c => c.presence)) =
      some [("Jean Dupont", some (some homonymLoaded))] ∧
    homonymStore.findPresence "r3" =
      some { _id := "r3", idPresence := "1709700000001", semaine := 10, jour := "Lundi",
             hDebut := "", hFin := "", annee := 2024, employe := "e3", station := "s1",
             isPresent := true } ∧
    populatePresence homonymStore
      { _id := "r3", idPresence := "1709700000001", semaine := 10, jour := "Lundi",
        hDebut := "", hFin := "", annee := 2024, employe := "e3", station := "s1",
        isPresent := true } = some homonymLoaded ∧
    handlePresenceToggle homonymPage "Jean Dupont" "Lundi" false (some homonymLoaded) =
      .put (some "r3")
        { semaine := some (.num 10), jour := some "Lundi", hDebut := some "9h",
          hFin := some "17h", annee := some (.num 2024), employe := some "e3",
          station := some "s1", isPresent := some false } ∧
    (presenceToggleRound (fun _ => true) homonymStore homonymPage "Jean Dupont" "Lundi" false
      (some homonymLoaded) "r9" 1709800000000).2.findPresence "r3" =
      some { _id := "r3", idPresence := "1709700000001", semaine := 10, jour := "Lundi",
             hDebut := "9h", hFin := "17h", annee := 2024, employe := "e3", station := "s1",
             isPresent := false } := by
  decide

theorem presenceToggleRound_put (validId : String → Bool) (db : Db) (page : PresencePage)
    (employeeName day : String) (isPresent : Bool) (existingPresence : Option Presence)
    (newId : String) (now : Int) (presenceId : Option String) (body : PresenceBody)
    (h : handlePresenceToggle page employeeName day isPresent existingPresence =
      .put presenceId body) :
    (presenceToggleRound validId db page employeeName day isPresent existingPresence newId
      now).2 =
      (updatePresence validId db page.token (presenceId.getD "undefined") body).2 := by
  unfold presenceToggleRound
  rw [h]
  simp only []
  split <;> rfl

/-- The first, successful toggle of a cell without record: the store gets the
new record, and the page gets its populated JSON, whose employee and station
are those of the request. -/
theorem presenceToggleRound_created (validId : String → Bool) (db : Db)
    (page : PresencePage) (employeeName day : String) (isPresent : Bool)
    (employee : Employe) (u : User) (station : String) (newId : String) (now : Int)
    (hplan : (page.schedules.find? (fun s => s.employeeName == employeeName)).isSome = true)
    (hemp : page.employes.find? (fun emp =>
      displayName emp.nomEmploye emp.prenomEmploye == employeeName) = some employee)
    (hnone : findLoaded page employeeName day = none)
    (htok : page.token = some u) (hexp : page.tokenExpired = false)
    (hst : toggleStation u employee = some station) (hst0 : station ≠ "")
    (hfresh : ∀ p ∈ db.presences, p._id ≠ newId)
    (h201 : (createPresence validId db (some u)
      (newPresence page day isPresent employee station) newId now).1.status = 201) :
    ∃ e s, db.findEmploye employee._id = some e ∧ db.findStation station = some s ∧
      presenceToggleRound validId db page employeeName day isPresent none newId now =
        ({ page with
           presences := page.presences ++
             [{ _id := newId, semaine := page.selectedWeek, jour := day, hDebut := "",
                hFin := "", annee := page.selectedYear,
                employe := { _id := employee._id, nomEmploye := e.nomEmploye,
                             prenomEmploye := e.prenomEmploye },
                station := { _id := station, nomStation := s.nomStation },
                isPresent := some isPresent }] },
          { db with
            presences := db.presences ++
              [{ _id := newId, idPresence := toString now, semaine := page.selectedWeek,
                 jour := day, hDebut := "", hFin := "", annee := page.selectedYear,
                 employe := employee._id, station := station, isPresent := isPresent }] }) := by
  obtain ⟨-, -, -, -, -, -, -, hfe, -, hfs, -, hdb⟩ :=
    createPresence_newPresence validId db (some u) page day isPresent employee station newId
      now h201
  have hdata := createPresence_data validId db (some u) _ newId now h201
  cases he : db.findEmploye employee._id with
  | none => rw [he] at hfe; simp at hfe
  | some e =>
  cases hs : db.findStation station with
  | none => rw [hs] at hfs; simp at hfs
  | some s =>
  have heid : e._id = employee._id := by
    have := List.find?_some he
    simpa using this
  have hsid : s._id = station := by
    have := List.find?_some hs
    simpa using this
  refine ⟨e, s, rfl, rfl, ?_⟩
  have hfound : Db.findPresence
      { db with
        presences := db.presences ++
          [{ _id := newId, idPresence := toString now, semaine := page.selectedWeek,
             jour := day, hDebut := "", hFin := "", annee := page.selectedYear,
             employe := employee._id, station := station, isPresent := isPresent }] } newId =
      some { _id := newId, idPresence := toString now, semaine := page.selectedWeek,
             jour := day, hDebut := "", hFin := "", annee := page.selectedYear,
             employe := employee._id, station := station, isPresent := isPresent } := by
    apply find?_append_fresh
    · intro y hy
      simpa using hfresh y hy
    · simp
  rw [hdb, hfound] at hdata
  have hpop : populatePresence
      { db with
        presences := db.presences ++
          [{ _id := newId, idPresence := toString now, semaine := page.selectedWeek,
             jour := day, hDebut := "", hFin := "", annee := page.selectedYear,
             employe := employee._id, station := station, isPresent := isPresent }] }
      { _id := newId, idPresence := toString now, semaine := page.selectedWeek,
        jour := day, hDebut := "", hFin := "", annee := page.selectedYear,
        employe := employee._id, station := station, isPresent := isPresent } =
      some { _id := newId, semaine := page.selectedWeek, jour := day, hDebut := "",
             hFin := "", annee := page.selectedYear,
             employe := { _id := employee._id, nomEmploye := e.nomEmploye,
                          prenomEmploye := e.prenomEmploye },
             station := { _id := station, nomStation := s.nomStation },
             isPresent := some isPresent } := by
    unfold populatePresence
    have he2 : Db.findEmploye
        { db with
          presences := db.presences ++
            [{ _id := newId, idPresence := toString now, semaine := page.selectedWeek,
               jour := day, hDebut := "", hFin := "", annee := page.selectedYear,
               employe := employee._id, station := station, isPresent := isPresent }] }
        employee._id = some e := he
    have hs2 : Db.findStation
        { db with
          presences := db.presences ++
            [{ _id := newId, idPresence := toString now, semaine := page.selectedWeek,
               jour := day, hDebut := "", hFin := "", annee := page.selectedYear,
               employe := employee._id, station := station, isPresent := isPresent }] }
        station = some s := hs
    simp only [he2, hs2, heid, hsid]
  simp only [Option.bind, hpop] at hdata
  have h1 := handlePresenceToggle_create page employeeName day isPresent employee u station
    hplan hemp hnone htok hexp hst hst0
  unfold presenceToggleRound
  rw [h1]
  simp only [htok]
  generalize createPresence validId db (some u)
    (newPresence page day isPresent employee station) newId now = r at hdata hdb
  obtain ⟨r1, r2⟩ := r
  simp only at hdata hdb
  subst hdata hdb
  rfl

/-- C15: from a page with a plan and a roster entry for the employee and no
loaded presence for the day, a successful toggle followed by a second toggle of
the same employee and day (the cell record absent or the record that the first
toggle loaded) leaves in the store, for the employee, the day, the week and the
year, exactly the record that the first toggle created, with the flag of the
second toggle.  The new identifier is a fresh ObjectId, and the store names the
employee as the roster does. -/
theorem toggle_twice (validId : String → Bool) (db : Db) (page : PresencePage)
    (employeeName day : String) (first second : Bool) (existingPresence : Option Presence)
    (employee : Employe) (u : User) (station : String) (newId : String) (now : Int)
    (newId2 : String) (now2 : Int)
    (hplan : (page.schedules.find? (fun s => s.employeeName == employeeName)).isSome = true)
    (hemp : page.employes.find? (fun emp =>
      displayName emp.nomEmploye emp.prenomEmploye == employeeName) = some employee)
    (hnone : findLoaded page employeeName day = none)
    (htok : page.token = some u) (hexp : page.tokenExpired = false)
    (hst : toggleStation u employee = some station) (hst0 : station ≠ "")
    (hname : ∀ e, db.findEmploye employee._id = some e →
      displayName e.nomEmploye e.prenomEmploye = employeeName)
    (hfresh : ∀ p ∈ db.presences, p._id ≠ newId) (hvalid : validId newId = true)
    (h201 : (createPresence validId db (some u)
      (newPresence page day first employee station) newId now).1.status = 201)
    (hcell : existingPresence = none ∨
      existingPresence = (presenceToggleRound validId db page employeeName day first none
        newId now).1.presences.getLast?) :
    (presenceToggleRound validId
        (presenceToggleRound validId db page employeeName day first none newId now).2
        (presenceToggleRound validId db page employeeName day first none newId now).1
        employeeName day second existingPresence newId2 now2).2.presences =
      db.presences ++
        [{ _id := newId, idPresence := toString now, semaine := page.selectedWeek,
           jour := day, hDebut := "", hFin := "", annee := page.selectedYear,
           employe := employee._id, station := station, isPresent := second }] ∧
    (presenceToggleRound validId
        (presenceToggleRound validId db page employeeName day first none newId now).2
        (presenceToggleRound validId db page employeeName day first none newId now).1
        employeeName day second existingPresence newId2 now2).2.presences.filter
        (fun p => decide (p.key =
          (page.selectedWeek, day, page.selectedYear, employee._id))) =
      [{ _id := newId, idPresence := toString now, semaine := page.selectedWeek,
         jour := day, hDebut := "", hFin := "", annee := page.selectedYear,
         employe := employee._id, station := station, isPresent := second }] := by
  obtain ⟨⟨u2, hu2, hperm⟩, hw1, hw2, hy1, hy2, hday, hve, hfe, hvs, hfs, hnodup, -⟩ :=
    createPresence_newPresence validId db (some u) page day first employee station newId
      now h201
  simp only [Option.some.injEq] at hu2
  subst hu2
  obtain ⟨e, s, he, hs, hround⟩ := presenceToggleRound_created validId db page employeeName
    day first employee u station newId now hplan hemp hnone htok hexp hst hst0 hfresh h201
  rw [hround] at hcell ⊢
  simp only [List.getLast?_concat] at hcell
  have hloaded : ∀ y ∈ page.presences,
      (displayName y.employe.nomEmploye y.employe.prenomEmploye == employeeName &&
        y.jour == day && y.semaine == page.selectedWeek && y.annee == page.selectedYear)
        = false := by
    unfold findLoaded at hnone
    rw [List.find?_eq_none] at hnone
    intro y hy
    simpa using hnone y hy
  have hput := handlePresenceToggle_update
    { page with
      presences := page.presences ++
        [{ _id := newId, semaine := page.selectedWeek, jour := day, hDebut := "",
           hFin := "", annee := page.selectedYear,
           employe := { _id := employee._id, nomEmploye := e.nomEmploye,
                        prenomEmploye := e.prenomEmploye },
           station := { _id := station, nomStation := s.nomStation },
           isPresent := some first }] }
    employeeName day second existingPresence
    { _id := newId, semaine := page.selectedWeek, jour := day, hDebut := "",
      hFin := "", annee := page.selectedYear,
      employe := { _id := employee._id, nomEmploye := e.nomEmploye,
                   prenomEmploye := e.prenomEmploye },
      station := { _id := station, nomStation := s.nomStation },
      isPresent := some first } u hplan (by rw [hemp]; rfl)
    (by
      unfold findLoaded
      apply find?_append_fresh
      · exact hloaded
      · simp [hname e he])
    hcell htok hexp
  rw [presenceToggleRound_put validId _ _ employeeName day second existingPresence newId2 now2
    _ _ hput]
  have hflag := updatePresence_flag validId
    { db with
      presences := db.presences ++
        [{ _id := newId, idPresence := toString now, semaine := page.selectedWeek,
           jour := day, hDebut := "", hFin := "", annee := page.selectedYear,
           employe := employee._id, station := station, isPresent := first }] }
    u
    { _id := newId, idPresence := toString now, semaine := page.selectedWeek,
      jour := day, hDebut := "", hFin := "", annee := page.selectedYear,
      employe := employee._id, station := station, isPresent := first }
    "" "" second hvalid
    (by
      apply find?_append_fresh
      · intro y hy
        simpa using hfresh y hy
      · simp)
    hperm ⟨hday, hw1, hw2, hy1, hy2⟩ hve hfe hvs hfs
    (by
      intro p hp hk
      rcases List.mem_append.1 hp with hp | hp
      · exfalso
        simp only [PresenceDoc.key, Prod.mk.injEq] at hk
        exact hnodup p hp hk
      · rw [List.mem_singleton] at hp
        rw [hp])
  have hrep : replaceFirst (fun p : PresenceDoc => p._id == newId)
      { _id := newId, idPresence := toString now, semaine := page.selectedWeek,
        jour := day, hDebut := "", hFin := "", annee := page.selectedYear,
        employe := employee._id, station := station, isPresent := second }
      (db.presences ++
        [{ _id := newId, idPresence := toString now, semaine := page.selectedWeek,
           jour := day, hDebut := "", hFin := "", annee := page.selectedYear,
           employe := employee._id, station := station, isPresent := first }]) =
      db.presences ++
        [{ _id := newId, idPresence := toString now, semaine := page.selectedWeek,
           jour := day, hDebut := "", hFin := "", annee := page.selectedYear,
           employe := employee._id, station := station, isPresent := second }] := by
    apply replaceFirst_append_fresh
    · intro y hy
      simpa using hfresh y hy
    · simp
  have hstore : (updatePresence validId
      { db with
        presences := db.presences ++
          [{ _id := newId, idPresence := toString now, semaine := page.selectedWeek,
             jour := day, hDebut := "", hFin := "", annee := page.selectedYear,
             employe := employee._id, station := station, isPresent := first }] }
      (some u) newId
      { semaine := some (.num page.selectedWeek), jour := some day, hDebut := some "",
        hFin := some "", annee := some (.num page.selectedYear),
        employe := some employee._id, station := some station,
        isPresent := some second }).2.presences =
      db.presences ++
        [{ _id := newId, idPresence := toString now, semaine := page.selectedWeek,
           jour := day, hDebut := "", hFin := "", annee := page.selectedYear,
           employe := employee._id, station := station, isPresent := second }] := by
    have := congrArg (fun r => r.2.presences) hflag
    simp only [] at this
    rw [hrep] at this
    exact this
  simp only [htok, Option.getD_some]
  refine ⟨hstore, ?_⟩
  rw [hstore, List.filter_append]
  have hnil : db.presences.filter (fun p => decide (p.key =
      (page.selectedWeek, day, page.selectedYear, employee._id))) = [] := by
    rw [List.filter_eq_nil_iff]
    intro p hp
    simp only [PresenceDoc.key, Prod.mk.injEq, decide_eq_true_eq]
    exact hnodup p hp
  rw [hnil]
  simp [PresenceDoc.key]

/-- C15, witness: the manager of station Nord marks Jean Dupont present on
Monday, then absent; the store holds the presence of Anne Martin and one
presence of Jean Dupont, marked absent. -/
theorem toggle_twice_witness :
    (presenceToggleRound (fun _ => true)
        (presenceToggleRound (fun _ => true) sampleStore jeanPage "Jean Dupont" "Lundi" true
          none "r2" 1709700000000).2
        (presenceToggleRound (fun _ => true) sampleStore jeanPage "Jean Dupont" "Lundi" true
          none "r2" 1709700000000).1
        "Jean Dupont" "Lundi" false none "r3" 1709800000000).2.presences =
      sampleStore.presences ++
        [{ _id := "r2", idPresence := toString (1709700000000 : Int),
           semaine := jeanPage.selectedWeek, jour := "Lundi", hDebut := "", hFin := "",
           annee := jeanPage.selectedYear, employe := jeanEmploye._id, station := "s1",
           isPresent := false }] :=
  (toggle_twice (fun _ => true) sampleStore jeanPage "Jean Dupont" "Lundi" true false none
    jeanEmploye managerNord "s1" "r2" 1709700000000 "r3" 1709800000000 (by decide)
    (by decide) (by decide) rfl rfl (by decide) (by decide)
    (by
      intro e he
      have h : sampleStore.findEmploye jeanEmploye._id =
          some { _id := "e1", nomEmploye := "Jean", prenomEmploye := "Dupont",
                 station := some "s1" } := by decide
      rw [h] at he
      simp only [Option.some.injEq] at he
      subst he
      decide)
    (by decide) rfl (by decide) (Or.inl rfl)).1

end StationApp
